import Mathlib

/-!
Shallow embedding of the EBM invoice-validation engine
(`src/lib/ebm/{template,normalizers,textExtractor,qrDecoder}.ts` and the
validator in `template.ts`).  Machine strings are Lean `String`s (lists of
Unicode code points); JavaScript numbers are modelled as exact rationals
(all values handled by the engine are decimal literals parsed from text);
`undefined`/`null` are `Option.none`.  External host functions that the
engine merely calls through (pdfjs rendering, the ZXing/jsQR decoders,
`fetch`, the host `new Date(...)` parser) are abstracted at the points the
source code consumes their results, as noted on each definition.
-/

set_option maxRecDepth 10000

/- The Batteries `Rat` arithmetic kernels are sealed (`irreducible`); the
   concrete evaluations below go through the kernel, so re-expose them. -/
unseal Rat.add Rat.sub Rat.mul Rat.inv Rat.ofScientific

/-! ### JavaScript character / string primitives -/

/-- Characters matched by the JavaScript regexp class `\s` (the source also
    lists ` ` explicitly, which is already in `\s`). -/
def isJsWhitespace (c : Char) : Bool :=
  let n := c.toNat
  n = 0x20 || n = 0x09 || n = 0x0a || n = 0x0b || n = 0x0c || n = 0x0d ||
  n = 0xa0 || n = 0x1680 || (0x2000 ≤ n && n ≤ 0x200a) ||
  n = 0x2028 || n = 0x2029 || n = 0x202f || n = 0x205f || n = 0x3000 || n = 0xfeff

/-- One pass of `str.replace(/[\s ]+/g, ' ')`: every maximal run of
    whitespace becomes a single space.  `prevWs` records whether the previous
    character belonged to a run. -/
def collapseWsAux : Bool → List Char → List Char
  | _, [] => []
  | prevWs, c :: rest =>
    if isJsWhitespace c then
      if prevWs then collapseWsAux true rest
      else ' ' :: collapseWsAux true rest
    else c :: collapseWsAux false rest

/-- JavaScript `String.prototype.trim`. -/
def jsTrimList (l : List Char) : List Char :=
  ((l.dropWhile isJsWhitespace).reverse.dropWhile isJsWhitespace).reverse

def jsTrim (s : String) : String :=
  (jsTrimList s.toList).asString

/-- `normalizeWhitespace` from `normalizers.ts`:
    `input.replace(/[\s ]+/g, ' ').trim()`. -/
def normalizeWhitespace (s : String) : String :=
  (jsTrimList (collapseWsAux false s.toList)).asString

/-- `content.replace(/\s+/g, '')` — removal of every whitespace character. -/
def removeAllWhitespace (s : String) : String :=
  (s.toList.filter (fun c => !isJsWhitespace c)).asString

/-- JavaScript `toLowerCase`, modelled on the ASCII range (the engine's
    templates and inputs used in this development are ASCII). -/
def jsToLower (s : String) : String :=
  (s.toList.map Char.toLower).asString

/-- JavaScript `toUpperCase`, modelled on the ASCII range. -/
def jsToUpper (s : String) : String :=
  (s.toList.map Char.toUpper).asString

/-- Does `l` start with `p`? -/
def startsWithList : List Char → List Char → Bool
  | _, [] => true
  | [], _ :: _ => false
  | c :: t, p :: q => c == p && startsWithList t q

/-- Does `hay` contain `needle` as a contiguous run (JS `String.includes`)? -/
def containsList : List Char → List Char → Bool
  | hay, needle =>
    if startsWithList hay needle then true
    else
      match hay with
      | [] => false
      | _ :: t => containsList t needle

/-- JavaScript `hay.includes(needle)`. -/
def jsIncludes (hay needle : String) : Bool :=
  containsList hay.toList needle.toList

/-- Global replacement of the literal pattern `pat` (non-empty) by `rep`,
    leftmost-first and non-overlapping, as JS `str.replace(/pat/g, rep)`
    performs for a pattern without metacharacters.  Each step consumes at
    least one input character, so fuel equal to the input length makes the
    recursion total without changing its result. -/
def replaceAllGo (pat rep : List Char) : Nat → List Char → List Char
  | _, [] => []
  | 0, l => l
  | fuel + 1, c :: t =>
    if startsWithList (c :: t) pat && !pat.isEmpty then
      rep ++ replaceAllGo pat rep fuel (t.drop (pat.length - 1))
    else
      c :: replaceAllGo pat rep fuel t

/-- JS global regexp replacement for a literal pattern.  An empty pattern
    matches at every position, so the replacement is interleaved around every
    character (`"ab".replace(/(?:)/g, "X") = "XaXbX"`). -/
def jsReplaceAll (s pat rep : String) : String :=
  if pat = "" then
    ((s.toList.flatMap (fun c => rep.toList ++ [c])) ++ rep.toList).asString
  else
    (replaceAllGo pat.toList rep.toList s.toList.length s.toList).asString

/-- Replace the first occurrence of the character `dec` (JS
    `str.replace(decimalSeparator, '.')` with a one-character string
    pattern replaces only the first occurrence). -/
def replaceFirstChar (dec toC : Char) : List Char → List Char
  | [] => []
  | c :: t => if c == dec then toC :: t else c :: replaceFirstChar dec toC t

/-! ### JS number parsing and printing -/

def digitsToNat (l : List Char) : Nat :=
  l.foldl (fun acc c => acc * 10 + (c.toNat - '0'.toNat)) 0

/-- JavaScript `Number.parseFloat`: optional leading whitespace and sign, a
    decimal mantissa (digits, optionally with one dot), and an optional
    exponent part; the longest valid prefix is parsed and the rest ignored;
    `none` when no digit can be read (NaN) — the callers
    (`parseAmount`, `toNumberValue`) map NaN and non-finite results to
    `undefined`, so the non-finite `Infinity` prefix is also folded into
    `none` here. -/
def jsParseFloat (input : List Char) : Option ℚ :=
  let l := input.dropWhile isJsWhitespace
  let (sign, l) : ℚ × List Char :=
    match l with
    | '-' :: t => (-1, t)
    | '+' :: t => (1, t)
    | _ => (1, l)
  let ip := l.takeWhile Char.isDigit
  let l := l.dropWhile Char.isDigit
  let (fp, l) : List Char × List Char :=
    match l with
    | '.' :: t => (t.takeWhile Char.isDigit, t.dropWhile Char.isDigit)
    | _ => ([], l)
  if ip.isEmpty && fp.isEmpty then none
  else
    let mantissa : ℚ :=
      sign * ((digitsToNat ip : ℚ) + (digitsToNat fp : ℚ) / (10 ^ fp.length))
    match l with
    | e :: t =>
      if e == 'e' || e == 'E' then
        let (esign, t) : Int × List Char :=
          match t with
          | '-' :: u => (-1, u)
          | '+' :: u => (1, u)
          | _ => (1, t)
        let ed := t.takeWhile Char.isDigit
        if ed.isEmpty then some mantissa
        else some (mantissa * (10 : ℚ) ^ (esign * (digitsToNat ed : Int)))
      else some mantissa
    | [] => some mantissa

/-- Least `k ≤ 40` with `den ∣ 10 ^ k`, when one exists: the scale needed to
    print a rational as a terminating decimal. -/
def pow10Exp (den : Nat) : Option Nat :=
  (List.range 41).find? (fun k => decide (den ∣ 10 ^ k))

/-- Decimal rendering of a non-negative rational whose denominator divides a
    power of ten. -/
def numToStringNonneg (q : ℚ) : String :=
  match pow10Exp q.den with
  | some k =>
    let scaled := (q * 10 ^ k).num.toNat
    if k = 0 then Nat.repr scaled
    else
      let digits := Nat.repr scaled
      let digits :=
        if digits.length < k + 1 then
          String.mk (List.replicate (k + 1 - digits.length) '0') ++ digits
        else digits
      let cut := digits.length - k
      (digits.toList.take cut).asString ++ "." ++ (digits.toList.drop cut).asString
  | none => Int.repr q.num ++ "/" ++ Nat.repr q.den

/-- JavaScript `String(n)` for a finite number.  Every number the engine
    manipulates originates from a decimal literal, so its exact value is a
    terminating decimal; the shortest-decimal rendering JS performs then
    coincides with exact decimal printing (no exponent notation is needed for
    the magnitudes involved). -/
def numToString (q : ℚ) : String :=
  if q < 0 then "-" ++ numToStringNonneg (-q) else numToStringNonneg q

/-! ### `normalizers.ts` -/

/-- `normalizeTin`: keep only digits; the empty result is `undefined`. -/
def normalizeTin (input : String) : Option String :=
  let digits := (input.toList.filter Char.isDigit).asString
  if digits = "" then none else some digits

/-- `applyReplacements`: fold the `(pattern, replacement)` list over the
    value.  The source compiles each pattern with `new RegExp(pattern, 'g')`;
    patterns are modelled as literal strings (the faithful reading for
    patterns without regexp metacharacters). -/
def applyReplacements (value : String) (reps : List (String × String)) : String :=
  reps.foldl (fun acc pr => jsReplaceAll acc pr.1 pr.2) value

/-! ### Dates -/

/-- A calendar date, the payload the engine retains from a parsed `Date`
    (`format(value, 'yyyy-MM-dd')` discards the time of day). -/
structure EbmDate where
  y : Nat
  m : Nat
  d : Nat
deriving DecidableEq, Repr

def isLeapYear (y : Nat) : Bool :=
  (y % 4 = 0 && y % 100 ≠ 0) || y % 400 = 0

def daysInMonth (y m : Nat) : Nat :=
  if m = 2 then (if isLeapYear y then 29 else 28)
  else if m = 4 || m = 6 || m = 9 || m = 11 then 30
  else 31

def isValidDate (dt : EbmDate) : Bool :=
  1 ≤ dt.m && dt.m ≤ 12 && 1 ≤ dt.d && dt.d ≤ daysInMonth dt.y dt.m

def padNat (width n : Nat) : String :=
  let digits := Nat.repr n
  if digits.length < width then
    String.mk (List.replicate (width - digits.length) '0') ++ digits
  else digits

/-- `format(date, 'yyyy-MM-dd')` from date-fns. -/
def formatDate (dt : EbmDate) : String :=
  padNat 4 dt.y ++ "-" ++ padNat 2 dt.m ++ "-" ++ padNat 2 dt.d

/-- Interpreter for the date-format strings the engine uses (`yyyy`, `MM`,
    `dd` runs and literal separator characters), in the strict style of
    date-fns `parse`: each token consumes exactly its width in digits and the
    whole input must be consumed. Returns the raw (not yet validated) field
    values. -/
def parseFormatAux : List Char → List Char → Option Nat × Option Nat × Option Nat →
    Option (Option Nat × Option Nat × Option Nat)
  | [], [], acc => some acc
  | [], _ :: _, _ => none
  | 'y' :: 'y' :: 'y' :: 'y' :: fmt, input, (_, m, d) =>
    let digits := input.take 4
    if digits.length = 4 && digits.all Char.isDigit then
      parseFormatAux fmt (input.drop 4) (some (digitsToNat digits), m, d)
    else none
  | 'M' :: 'M' :: fmt, input, (y, _, d) =>
    let digits := input.take 2
    if digits.length = 2 && digits.all Char.isDigit then
      parseFormatAux fmt (input.drop 2) (y, some (digitsToNat digits), d)
    else none
  | 'd' :: 'd' :: fmt, input, (y, m, _) =>
    let digits := input.take 2
    if digits.length = 2 && digits.all Char.isDigit then
      parseFormatAux fmt (input.drop 2) (y, m, some (digitsToNat digits))
    else none
  | c :: fmt, i :: input, acc =>
    if c == i then parseFormatAux fmt input acc else none
  | _ :: _, [], _ => none

/-- date-fns `parse(input, fmt, new Date())` followed by `isValid`, for the
    format strings the engine configures. -/
def parseDateWithFormat (fmt : String) (input : String) : Option EbmDate :=
  match parseFormatAux fmt.toList input.toList (none, none, none) with
  | some (some y, some m, some d) =>
    let dt : EbmDate := ⟨y, m, d⟩
    if isValidDate dt then some dt else none
  | _ => none

def RW_DEFAULT_DATE_FORMATS : List String :=
  ["yyyy-MM-dd", "dd/MM/yyyy", "dd-MM-yyyy", "dd.MM.yyyy"]

/-- `parseDateStrict` from `normalizers.ts`: try each configured format in
    order on the trimmed input.  The final `new Date(input)` fallback invokes
    the host's lenient date parser; it is modelled as failure (none of the
    theorems below exercises an input that only the host parser accepts). -/
def parseDateStrict (input : String) (dateFormats : List String) : Option EbmDate :=
  if input = "" then none
  else
    let formats := if dateFormats.isEmpty then RW_DEFAULT_DATE_FORMATS else dateFormats
    formats.foldl
      (fun acc fmt =>
        match acc with
        | some dt => some dt
        | none => parseDateWithFormat fmt (jsTrim input))
      none

/-! ### JS values -/

/-- The dynamic values the validator pipeline passes around: strings and
    finite numbers.  A `Date` produced by date coercion is represented by its
    `yyyy-MM-dd` rendering, which is exactly what both consumers of dates
    (`toStringValue` and `toDateString`) reduce a `Date` to. -/
inductive JsValue where
  | vstr (s : String)
  | vnum (q : ℚ)
deriving DecidableEq, Repr

/-- JavaScript `String(value)` on the values above. -/
def jsValueToString : JsValue → String
  | .vstr s => s
  | .vnum q => numToString q

/-- `parseAmount` from `normalizers.ts`: strip every character that is not a
    digit, the decimal separator, the thousands separator or `-`; drop
    thousands separators; replace the first decimal separator by `.`; then
    `parseFloat`, with non-finite results mapped to `undefined`. -/
def parseAmount (input : String) (decimalSeparator : Char) : Option ℚ :=
  if input = "" then none
  else
    let thou : Char := if decimalSeparator = '.' then ',' else '.'
    let cleaned := input.toList.filter
      (fun c => c.isDigit || c == decimalSeparator || c == thou || c == '-')
    let cleaned := cleaned.filter (fun c => c != thou)
    let cleaned := replaceFirstChar decimalSeparator '.' cleaned
    jsParseFloat cleaned

/-- `toStringValue` from the validator: `undefined` for null-ish and empty
    trimmed strings, `format(value,'yyyy-MM-dd')` for dates (represented here
    by their formatted string), decimal rendering for finite numbers. -/
def toStringValue : Option JsValue → Option String
  | none => none
  | some (.vstr s) =>
    let t := jsTrim s
    if t = "" then none else some t
  | some (.vnum q) => some (numToString q)

/-- `toNumberValue` from the validator: numbers pass through when finite,
    strings go through `parseAmount` with a `.` decimal separator. -/
def toNumberValue : Option JsValue → Option ℚ
  | none => none
  | some (.vnum q) => some q
  | some (.vstr s) => parseAmount s '.'

/-- `toDateString` from the validator: dates format to `yyyy-MM-dd`; strings
    are parsed strictly, with a second attempt on the part before the first
    space; other values yield `undefined`. -/
def toDateString : Option JsValue → Option String
  | none => none
  | some (.vnum _) => none
  | some (.vstr s) =>
    let trimmed := jsTrim s
    match parseDateStrict trimmed [] with
    | some dt => some (formatDate dt)
    | none =>
      let datePart := (trimmed.toList.takeWhile (fun c => c ≠ ' ')).asString
      if datePart ≠ "" && datePart ≠ trimmed then
        match parseDateStrict datePart [] with
        | some dt => some (formatDate dt)
        | none => none
      else none

/-- `normalizeInvoiceNumber`: stringify, trim, strip all whitespace,
    uppercase; empty results are `undefined`. -/
def normalizeInvoiceNumber : Option JsValue → Option String
  | none => none
  | some v =>
    let s := jsToUpper (removeAllWhitespace (jsTrim (jsValueToString v)))
    if s = "" then none else some s

/-- `normalizeCurrency`: stringify, trim, uppercase; empty is `undefined`. -/
def normalizeCurrency : Option JsValue → Option String
  | none => none
  | some v =>
    let s := jsToUpper (jsTrim (jsValueToString v))
    if s = "" then none else some s

/-! ### Template options and normalization pipeline (`template.ts`) -/

/-- Combining marks stripped after NFKD decomposition
    (`/[̀-ͯ]/g`). -/
def isCombiningMark (c : Char) : Bool :=
  0x300 ≤ c.toNat && c.toNat ≤ 0x36f

/-- NFKD decomposition restricted to the Latin letters with diacritics that
    occur in the engine's template corpus; every other character decomposes to
    itself.  (The host performs full Unicode NFKD; no theorem below depends on
    characters outside this table.) -/
def nfkdChar (c : Char) : List Char :=
  match c with
  | 'à' => ['a', '̀'] | 'á' => ['a', '́'] | 'â' => ['a', '̂']
  | 'ã' => ['a', '̃'] | 'ä' => ['a', '̈'] | 'å' => ['a', '̊']
  | 'è' => ['e', '̀'] | 'é' => ['e', '́'] | 'ê' => ['e', '̂']
  | 'ë' => ['e', '̈']
  | 'ì' => ['i', '̀'] | 'í' => ['i', '́'] | 'î' => ['i', '̂']
  | 'ï' => ['i', '̈']
  | 'ò' => ['o', '̀'] | 'ó' => ['o', '́'] | 'ô' => ['o', '̂']
  | 'õ' => ['o', '̃'] | 'ö' => ['o', '̈']
  | 'ù' => ['u', '̀'] | 'ú' => ['u', '́'] | 'û' => ['u', '̂']
  | 'ü' => ['u', '̈']
  | 'ç' => ['c', '̧'] | 'ñ' => ['n', '̃']
  | 'À' => ['A', '̀'] | 'É' => ['E', '́'] | 'È' => ['E', '̀']
  | 'Ç' => ['C', '̧']
  | _ => [c]

/-- `value.normalize('NFKD').replace(combiningMarks, '')`. -/
def stripAccents (s : String) : String :=
  ((s.toList.flatMap nfkdChar).filter (fun c => !isCombiningMark c)).asString

inductive EbmFieldType where
  | string | amount | number | date | raw
deriving DecidableEq, Repr

inductive EbmFieldGroup where
  | first | last | sum | concat
deriving DecidableEq, Repr

structure EbmTemplateOptions where
  removeWhitespace : Bool := false
  removeAccents : Bool := false
  lowercase : Bool := false
  decimalSeparator : Char := '.'
  dateFormats : List String := []
  replace : List (String × String) := []
deriving DecidableEq, Repr

structure EbmTemplateFieldConfig where
  parserKind : Option String := none
  regex : List String := []
  value : Option JsValue := none
  ftype : Option EbmFieldType := none
  group : Option EbmFieldGroup := none
  required : Bool := false
deriving DecidableEq, Repr

structure EbmTemplateDefinition where
  templateName : String
  issuer : String
  keywords : List String
  excludeKeywords : List String
  fields : List (String × EbmTemplateFieldConfig) := []
  requiredFields : List String := []
  options : EbmTemplateOptions
deriving DecidableEq, Repr

/-- `EbmTemplate.prepareInput`: whitespace handling, accent stripping,
    lowercasing and the configured replacements, in source order. -/
def prepareInput (opts : EbmTemplateOptions) (content : String) : String :=
  let r := if opts.removeWhitespace then removeAllWhitespace content
           else normalizeWhitespace content
  let r := if opts.removeAccents then stripAccents r else r
  let r := if opts.lowercase then jsToLower r else r
  applyReplacements r opts.replace

/-- `EbmTemplate.applyTransformations`, applied to each keyword in the
    constructor: like `prepareInput` but without the whitespace
    normalization in the non-`removeWhitespace` case. -/
def applyTransformations (opts : EbmTemplateOptions) (value : String) : String :=
  let r := if opts.removeWhitespace then removeAllWhitespace value else value
  let r := if opts.removeAccents then stripAccents r else r
  let r := if opts.lowercase then jsToLower r else r
  applyReplacements r opts.replace

/-- An `EbmTemplate` instance: the definition plus the keyword lists
    normalized by the constructor. -/
structure EbmTemplate where
  definition : EbmTemplateDefinition
  keywords : List String
  excludeKeywords : List String
deriving DecidableEq, Repr

/-- The `EbmTemplate` constructor. -/
def mkEbmTemplate (d : EbmTemplateDefinition) : EbmTemplate :=
  { definition := d
    keywords := d.keywords.map (applyTransformations d.options)
    excludeKeywords := d.excludeKeywords.map (applyTransformations d.options) }

/-- `EbmTemplate.matchesInput`.  A falsy (empty) keyword is treated as
    matching; a falsy exclude keyword is treated as absent. -/
def matchesInput (t : EbmTemplate) (content : String) : Bool :=
  let prepared := prepareInput t.definition.options content
  let keywordsMatch := t.keywords.all (fun k => if k ≠ "" then jsIncludes prepared k else true)
  if !keywordsMatch then false
  else if t.excludeKeywords.isEmpty then true
  else !(t.excludeKeywords.any (fun k => if k ≠ "" then jsIncludes prepared k else false))

/-! ### QR extractor (`qrDecoder.ts`)

The pdfjs page rasterization and the two QR decoders (ZXing with a hybrid
binarizer, then jsQR) are host collaborators; the loop consumes only the
combined outcome of one page/scale attempt, abstracted as
`decode : pageNumber → scale → Option text`.  A per-attempt exception is
caught by the source and treated like a failed decode, so it is folded into
`none`. -/

def DEFAULT_SCALES : List ℚ := [1.4, 1.8, 2.2, 2.8, 3.5, 4.2]

structure PdfQrDecodeOptions where
  scales : Option (List ℚ) := none
  maxPages : Option Nat := none
  unique : Option Bool := none
deriving DecidableEq, Repr

structure PdfQrDecodedCode where
  pageNumber : Nat
  scale : ℚ
  text : String
deriving DecidableEq, Repr

/-- The inner `for (const scale of scales)` loop of `decodeQrCodesFromPdf`
    for one page: on a decode the text is recorded and the loop breaks
    unless `unique` is set and the text was already seen, in which case the
    attempt is discarded and the loop continues with the next scale. -/
def scanPageScales (decode : Nat → ℚ → Option String) (pageNumber : Nat)
    (unique : Bool) : List ℚ → List String → Option PdfQrDecodedCode × List String
  | [], seen => (none, seen)
  | s :: rest, seen =>
    match decode pageNumber s with
    | none => scanPageScales decode pageNumber unique rest seen
    | some t =>
      if !unique || !seen.contains t then
        (some ⟨pageNumber, s, t⟩, seen ++ [t])
      else
        scanPageScales decode pageNumber unique rest seen

/-- The outer page loop, threading the `seen` set. -/
def decodePagesLoop (decode : Nat → ℚ → Option String) (unique : Bool)
    (scales : List ℚ) : List Nat → List String → List PdfQrDecodedCode
  | [], _ => []
  | p :: ps, seen =>
    match scanPageScales decode p unique scales seen with
    | (some code, seen') => code :: decodePagesLoop decode unique scales ps seen'
    | (none, seen') => decodePagesLoop decode unique scales ps seen'

/-- `decodeQrCodesFromPdf`: pages `1 .. min(numPages, maxPages)`, scales in
    configured order (the default list when the option is absent or empty),
    `unique` defaulting to `true`. -/
def decodeQrCodesFromPdf (decode : Nat → ℚ → Option String) (numPages : Nat)
    (options : PdfQrDecodeOptions) : List PdfQrDecodedCode :=
  let scales := match options.scales with
    | some l => if l.isEmpty then DEFAULT_SCALES else l
    | none => DEFAULT_SCALES
  let maxPages := options.maxPages.getD numPages
  let unique := options.unique.getD true
  decodePagesLoop decode unique scales
    ((List.range (min numPages maxPages)).map (· + 1)) []

/-! ### Field extraction: coercion and grouping (`textExtractor.ts`) -/

structure EbmExtractedFieldMatch where
  raw : String
  normalized : String
  value : Option JsValue := none
  pageNumber : Option Nat := none
deriving DecidableEq, Repr

/-- `normalizeMatch` is `normalizeWhitespace`. -/
def normalizeMatch (value : String) : String := normalizeWhitespace value

/-- `createMatchRecord`: raw and normalized forms side by side, with the raw
    string as the initial value. -/
def createMatchRecord (value : String) (pageNumber : Option Nat) :
    EbmExtractedFieldMatch :=
  { raw := value, normalized := normalizeMatch value,
    value := some (.vstr value), pageNumber := pageNumber }

/-- `EbmTemplate.coerceValue`. -/
def coerceValue (opts : EbmTemplateOptions) (value : Option String)
    (ftype : Option EbmFieldType) : Option JsValue :=
  match value with
  | none => none
  | some v =>
    match ftype with
    | some .amount => (parseAmount v opts.decimalSeparator).map .vnum
    | some .number => (parseAmount v opts.decimalSeparator).map .vnum
    | some .date => (parseDateStrict v opts.dateFormats).map (fun dt => .vstr (formatDate dt))
    | _ => some (.vstr (jsTrim v))

/-- `coerceMatchValues`: when the field declares a type, re-coerce every
    match's raw string into its value. -/
def coerceMatchValues (ms : List EbmExtractedFieldMatch)
    (opts : EbmTemplateOptions) (config : EbmTemplateFieldConfig) :
    List EbmExtractedFieldMatch :=
  match config.ftype with
  | none => ms
  | some _ =>
    ms.map (fun m => { m with value := coerceValue opts (some m.raw) config.ftype })

/-- `applyGrouping`: collapse the match list according to the configured
    group policy; `sum` totals the finite numeric values (every other match
    contributes nothing to the accumulator). -/
def applyGrouping (ms : List EbmExtractedFieldMatch)
    (config : EbmTemplateFieldConfig) : List EbmExtractedFieldMatch :=
  match config.group with
  | none => ms
  | some g =>
    if ms.isEmpty then ms
    else
      match g with
      | .first => ms.take 1
      | .last =>
        match ms.getLast? with
        | some m => [m]
        | none => []
      | .sum =>
        let total := ms.foldl
          (fun acc m =>
            match m.value with
            | some (.vnum q) => acc + q
            | _ => acc) (0 : ℚ)
        [{ raw := numToString total, normalized := normalizeMatch (numToString total),
           value := some (.vnum total), pageNumber := ms.head?.bind (·.pageNumber) }]
      | .concat =>
        let raw := String.intercalate " " (ms.map (·.raw))
        [{ raw := raw, normalized := normalizeMatch raw,
           value := some (.vstr raw), pageNumber := ms.head?.bind (·.pageNumber) }]

/-- The numeric value a match contributes to a `sum` grouping, when any. -/
def matchNumericValue (m : EbmExtractedFieldMatch) : Option ℚ :=
  match m.value with
  | some (.vnum q) => some q
  | _ => none

/-- The tail of `extractField`: coerce the collected ms, apply the group
    policy, and take the first resulting match's value as the field value. -/
def resolvedFieldValue (opts : EbmTemplateOptions) (config : EbmTemplateFieldConfig)
    (ms : List EbmExtractedFieldMatch) : Option JsValue :=
  ((applyGrouping (coerceMatchValues ms opts config) config).head?).bind (·.value)

/-- The raw form `extractField` reports alongside the resolved value. -/
def resolvedFieldRaw (opts : EbmTemplateOptions) (config : EbmTemplateFieldConfig)
    (ms : List EbmExtractedFieldMatch) : Option String :=
  ((applyGrouping (coerceMatchValues ms opts config) config).head?).map (·.raw)

/-! ### QR payload parsing (`template.ts` validator section) -/

/-- The canonical QR payload record.  `additional` is an insertion-ordered
    record of string values (the only values the parser stores there).
    `assignedKeys` tracks which canonical properties `assignKeyValue` has
    assigned: JavaScript property assignment creates an own property even when
    the assigned value is `undefined`, and `parseEbmQrPayload` branches on
    `Object.keys(payload).length <= 2` (the two initial keys being `raw` and
    `additional`). -/
structure EbmQrPayload where
  raw : String
  invoiceNumber : Option String := none
  tin : Option String := none
  buyerTin : Option String := none
  issueDate : Option String := none
  totalAmount : Option ℚ := none
  vatAmount : Option ℚ := none
  currency : Option String := none
  additional : Option (List (String × String)) := none
  assignedKeys : List String := []
deriving DecidableEq, Repr

/-- Record-style assignment into an insertion-ordered string record. -/
def upsertRecord (l : List (String × String)) (k v : String) : List (String × String) :=
  if l.any (fun kv => kv.1 == k) then
    l.map (fun kv => if kv.1 == k then (k, v) else kv)
  else l ++ [(k, v)]

def markAssigned (p : EbmQrPayload) (k : String) : EbmQrPayload :=
  if p.assignedKeys.contains k then p
  else { p with assignedKeys := p.assignedKeys ++ [k] }

/-- `key.trim().toLowerCase().replace(/[^a-z0-9]/g, '')`. -/
def normalizeQrKey (key : String) : String :=
  ((jsToLower (jsTrim key)).toList.filter
    (fun c => c.isDigit || ('a' ≤ c && c ≤ 'z'))).asString

/-- `assignKeyValue`: route one key/value pair into the canonical payload
    fields (with per-field normalization) or into the `additional` record. -/
def assignKeyValue (key : String) (value : Option JsValue)
    (p : EbmQrPayload) (additional : List (String × String)) :
    EbmQrPayload × List (String × String) :=
  let nk := normalizeQrKey key
  let stringValue := toStringValue value
  if nk = "tin" || nk = "sellertin" || nk = "suppliertin" || nk = "tradetin" then
    (markAssigned { p with tin := stringValue.bind normalizeTin } "tin", additional)
  else if nk = "buyertin" || nk = "customertin" || nk = "receivertin" then
    (markAssigned { p with buyerTin := stringValue.bind normalizeTin } "buyerTin", additional)
  else if nk = "invoice" || nk = "invoicenumber" || nk = "invoiceno" ||
      nk = "invoiceid" || nk = "receipt" then
    (markAssigned
      { p with invoiceNumber := stringValue.bind (fun s => normalizeInvoiceNumber (some (.vstr s))) }
      "invoiceNumber", additional)
  else if nk = "issuedate" || nk = "invoicedate" || nk = "date" || nk = "transactiondate" then
    (markAssigned
      { p with issueDate := stringValue.bind (fun s => toDateString (some (.vstr s))) }
      "issueDate", additional)
  else if nk = "totalamount" || nk = "grandtotal" || nk = "totalsales" ||
      nk = "amount" || nk = "total" then
    (markAssigned
      { p with totalAmount := stringValue.bind (fun s => toNumberValue (some (.vstr s))) }
      "totalAmount", additional)
  else if nk = "vatamount" || nk = "taxamount" || nk = "totaltax" || nk = "vat" then
    (markAssigned
      { p with vatAmount := stringValue.bind (fun s => toNumberValue (some (.vstr s))) }
      "vatAmount", additional)
  else if nk = "currency" || nk = "curr" then
    (markAssigned
      { p with currency := stringValue.bind (fun s => normalizeCurrency (some (.vstr s))) }
      "currency", additional)
  else
    match stringValue with
    | some sv => (p, upsertRecord additional nk sv)
    | none => (p, additional)

/-- `text.split(/[\n;,|]+/)` on the token delimiters. -/
def isQrDelim (c : Char) : Bool :=
  c == '\n' || c == ';' || c == ',' || c == '|'

/-- `split` on the characters satisfying `p` (one split per matching
    character; the callers collapse or filter empty segments as the source's
    regexps require). -/
def splitOnPred (p : Char → Bool) (l : List Char) : List (List Char) :=
  l.foldr
    (fun c acc =>
      if p c then [] :: acc
      else
        match acc with
        | h :: t => (c :: h) :: t
        | [] => [[c]])
    [[]]

def splitOnDelims (l : List Char) : List (List Char) :=
  splitOnPred isQrDelim l

/-- The first `:` in the token, else the first `=`, splits key from value. -/
def tokenKeyValue (tok : List Char) : Option (String × String) :=
  match tok.findIdx? (fun c => c == ':') with
  | some i => some ((tok.take i).asString, (tok.drop (i + 1)).asString)
  | none =>
    match tok.findIdx? (fun c => c == '=') with
    | some i => some ((tok.take i).asString, (tok.drop (i + 1)).asString)
    | none => none

/-- `parseStructuredString`: tokenize on delimiter runs, trim, drop empties;
    key/value tokens go through `assignKeyValue`, the rest are recorded as
    numbered orphan tokens. -/
def parseStructuredString (text : String) (p : EbmQrPayload)
    (additional : List (String × String)) : EbmQrPayload × List (String × String) :=
  let tokens := ((splitOnDelims text.toList).map (fun t => (jsTrimList t).asString)).filter
    (fun t => t ≠ "")
  let out := tokens.foldl
    (fun (acc : EbmQrPayload × List (String × String) × Nat) tok =>
      let (p, additional, orphanIndex) := acc
      match tokenKeyValue tok.toList with
      | some (k, v) =>
        let (p', additional') := assignKeyValue k (some (.vstr v)) p additional
        (p', additional', orphanIndex)
      | none =>
        (p, upsertRecord additional ("token_" ++ Nat.repr orphanIndex) tok, orphanIndex + 1))
    (p, additional, 0)
  (out.1, out.2.1)

/-! ### A JSON object parser (for the `JSON.parse` attempt)

`parseEbmQrPayload` first tries `JSON.parse` and uses the result only when it
is an object; any parse failure is swallowed.  The model parses the flat
objects of string/number/boolean/null members that QR payloads (and the
renderings in this development) take; nested arrays/objects and non-object
documents — which the caller would ignore or flatten into `String(value)`
noise — are folded into parse failure. -/

inductive JsonVal where
  | jstr (s : String)
  | jnum (q : ℚ)
  | jbool (b : Bool)
  | jnull
deriving DecidableEq, Repr

def isJsonWs (c : Char) : Bool :=
  c == ' ' || c == '\t' || c == '\n' || c == '\r'

def hexDigitVal (c : Char) : Option Nat :=
  let n := c.toNat
  if 48 ≤ n && n ≤ 57 then some (n - 48)
  else if 97 ≤ n && n ≤ 102 then some (n - 87)
  else if 65 ≤ n && n ≤ 70 then some (n - 55)
  else none

/-- Parse the body of a JSON string literal (the opening quote already
    consumed), returning the decoded string and the rest of the input. -/
def parseJsonStringBody : Nat → List Char → Option (String × List Char)
  | 0, _ => none
  | _, [] => none
  | fuel + 1, c :: rest =>
    if c == '"' then some ("", rest)
    else if c.toNat < 0x20 then none
    else if c == '\\' then
      match rest with
      | [] => none
      | e :: rest2 =>
        let esc : Option (Char × List Char) :=
          if e == '"' then some ('"', rest2)
          else if e == '\\' then some ('\\', rest2)
          else if e == '/' then some ('/', rest2)
          else if e == 'n' then some ('\n', rest2)
          else if e == 't' then some ('\t', rest2)
          else if e == 'r' then some ('\r', rest2)
          else if e == 'b' then some (Char.ofNat 8, rest2)
          else if e == 'f' then some (Char.ofNat 12, rest2)
          else if e == 'u' then
            match rest2 with
            | h1 :: h2 :: h3 :: h4 :: rest3 =>
              match hexDigitVal h1, hexDigitVal h2, hexDigitVal h3, hexDigitVal h4 with
              | some a, some b, some c', some d =>
                some (Char.ofNat (((a * 16 + b) * 16 + c') * 16 + d), rest3)
              | _, _, _, _ => none
            | _ => none
          else none
        match esc with
        | some (ch, rest') =>
          (parseJsonStringBody fuel rest').map
            (fun sr => (String.singleton ch ++ sr.1, sr.2))
        | none => none
    else
      (parseJsonStringBody fuel rest).map
        (fun sr => (String.singleton c ++ sr.1, sr.2))

/-- Parse a JSON number (leading-zero rules included). -/
def parseJsonNumber (l : List Char) : Option (ℚ × List Char) :=
  let (sign, l1) : ℚ × List Char :=
    match l with
    | '-' :: t => (-1, t)
    | _ => (1, l)
  let ip := l1.takeWhile Char.isDigit
  let l2 := l1.dropWhile Char.isDigit
  if ip.isEmpty then none
  else if ip.length > 1 && ip.head? == some '0' then none
  else
    let (fp, l3) : List Char × List Char :=
      match l2 with
      | '.' :: t => (t.takeWhile Char.isDigit, t.dropWhile Char.isDigit)
      | _ => ([], l2)
    if l2 ≠ l3 && fp.isEmpty then none
    else
      let mant : ℚ := sign * ((digitsToNat ip : ℚ) + (digitsToNat fp : ℚ) / 10 ^ fp.length)
      match l3 with
      | e :: t =>
        if e == 'e' || e == 'E' then
          let (es, t1) : Int × List Char :=
            match t with
            | '-' :: u => (-1, u)
            | '+' :: u => (1, u)
            | _ => (1, t)
          let ed := t1.takeWhile Char.isDigit
          if ed.isEmpty then none
          else some (mant * (10 : ℚ) ^ (es * (digitsToNat ed : Int)), t1.dropWhile Char.isDigit)
        else some (mant, l3)
      | [] => some (mant, l3)

/-- Parse one scalar JSON value. -/
def parseJsonScalar (fuel : Nat) (l : List Char) : Option (JsonVal × List Char) :=
  match l with
  | [] => none
  | c :: rest =>
    if c == '"' then (parseJsonStringBody fuel rest).map (fun sr => (.jstr sr.1, sr.2))
    else if startsWithList (c :: rest) "true".toList then some (.jbool true, (c :: rest).drop 4)
    else if startsWithList (c :: rest) "false".toList then some (.jbool false, (c :: rest).drop 5)
    else if startsWithList (c :: rest) "null".toList then some (.jnull, (c :: rest).drop 4)
    else (parseJsonNumber (c :: rest)).map (fun nr => (.jnum nr.1, nr.2))

/-- Parse the members of a flat JSON object, the opening `{` consumed. -/
def parseJsonMembers : Nat → List Char → Option (List (String × JsonVal) × List Char)
  | 0, _ => none
  | fuel + 1, l =>
    match (l.dropWhile isJsonWs) with
    | [] => none
    | c :: rest =>
      if c == '}' then some ([], rest)
      else if c == '"' then
        match parseJsonStringBody (fuel + 1) rest with
        | none => none
        | some (key, rest1) =>
          match rest1.dropWhile isJsonWs with
          | [] => none
          | c2 :: rest2 =>
            if c2 == ':' then
              match parseJsonScalar (fuel + 1) (rest2.dropWhile isJsonWs) with
              | none => none
              | some (v, rest3) =>
                match rest3.dropWhile isJsonWs with
                | [] => none
                | c3 :: rest4 =>
                  if c3 == ',' then
                    (parseJsonMembers fuel rest4).map
                      (fun mr => ((key, v) :: mr.1, mr.2))
                  else if c3 == '}' then some ([(key, v)], rest4)
                  else none
            else none
      else none

/-- `JSON.parse`, specialised to a top-level flat object consumed in full. -/
def jsonParseFlatObject (s : String) : Option (List (String × JsonVal)) :=
  match s.toList.dropWhile isJsonWs with
  | [] => none
  | c :: rest =>
    if c == '{' then
      match parseJsonMembers (rest.length + 1) rest with
      | some (members, rest') =>
        if (rest'.dropWhile isJsonWs).isEmpty then some members else none
      | none => none
    else none

def jsonValToJsValue : JsonVal → Option JsValue
  | .jstr s => some (.vstr s)
  | .jnum q => some (.vnum q)
  | .jbool b => some (.vstr (if b then "true" else "false"))
  | .jnull => none

/-- `assignFieldFromObject`: feed every member through `assignKeyValue` in
    insertion order. -/
def assignFieldFromObject (entries : List (String × JsonVal))
    (p : EbmQrPayload) (additional : List (String × String)) :
    EbmQrPayload × List (String × String) :=
  entries.foldl
    (fun acc kv => assignKeyValue kv.1 (jsonValToJsValue kv.2) acc.1 acc.2)
    (p, additional)

/-! ### URL parsing (`new URL` / `URLSearchParams`) -/

/-- Index of the first occurrence of `needle` in `hay`. -/
def indexOfList (hay needle : List Char) : Option Nat :=
  if startsWithList hay needle then some 0
  else
    match hay with
    | [] => none
    | _ :: t => (indexOfList t needle).map (· + 1)

/-- The two components of a parsed URL that `parseEbmQrPayload` consumes.
    As in the host: `search` includes a leading `?` and is empty when the URL
    has no query (or a bare `?`); `hash` likewise with `#`. -/
structure JsUrlParts where
  search : String
  hash : String
deriving DecidableEq, Repr

/-- `new URL(s)`, reduced to the `search`/`hash` accessors: requires a
    `scheme://` prefix with a well-formed scheme, then locates the first `#`
    and, before it, the first `?`.  (Host-specific authority validation is
    not modelled; every string fed to this function in the theorems below is
    a well-formed URL.) -/
def jsParseUrl (s : String) : Option JsUrlParts :=
  let l := s.toList
  match indexOfList l "://".toList with
  | none => none
  | some i =>
    let scheme := l.take i
    if scheme.isEmpty then none
    else if !(scheme.headD ' ').isAlpha then none
    else if !scheme.all (fun c => c.isAlphanum || c == '+' || c == '-' || c == '.') then none
    else
      let rest := l.drop (i + 3)
      let hashIdx := rest.findIdx? (fun c => c == '#')
      let beforeHash := match hashIdx with
        | some j => rest.take j
        | none => rest
      let hash := match hashIdx with
        | some j => if (rest.drop j) = ['#'] then "" else (rest.drop j).asString
        | none => ""
      let search := match beforeHash.findIdx? (fun c => c == '?') with
        | some j => if (beforeHash.drop j) = ['?'] then "" else (beforeHash.drop j).asString
        | none => ""
      some ⟨search, hash⟩

/-- Percent-decoding of one `application/x-www-form-urlencoded` component:
    `+` becomes a space and `%hh` becomes the character with that code (the
    UTF-8 recombination of multi-byte sequences is not modelled; the values in
    this development need no encoding at all). -/
def percentDecodeGo : Nat → List Char → List Char
  | _, [] => []
  | 0, l => l
  | fuel + 1, c :: rest =>
    if c == '+' then ' ' :: percentDecodeGo fuel rest
    else if c == '%' then
      match rest with
      | h1 :: h2 :: rest2 =>
        match hexDigitVal h1, hexDigitVal h2 with
        | some a, some b => Char.ofNat (a * 16 + b) :: percentDecodeGo fuel rest2
        | _, _ => '%' :: percentDecodeGo fuel rest
      | _ => '%' :: percentDecodeGo fuel rest
    else c :: percentDecodeGo fuel rest

def percentDecode (l : List Char) : List Char := percentDecodeGo l.length l

def splitOnChar (sep : Char) (l : List Char) : List (List Char) :=
  splitOnPred (fun c => c == sep) l

/-- The single leading `?` stripping of the `URLSearchParams` constructor. -/
def stripLeadQ (l : List Char) : List Char :=
  match l with
  | [] => []
  | c :: t => if c == '?' then t else c :: t

/-- The segment splitting of `URLSearchParams`: split on `&` ignoring empty
    segments, split each segment at its first `=` (a missing `=` yields an
    empty value), percent-decode both sides. -/
def coreParams (l : List Char) : List (String × String) :=
  ((splitOnChar '&' l).filter (fun seg => !seg.isEmpty)).map
    (fun seg =>
      match seg.findIdx? (fun c => c == '=') with
      | some i =>
        ((percentDecode (seg.take i)).asString, (percentDecode (seg.drop (i + 1))).asString)
      | none => ((percentDecode seg).asString, ""))

/-- `new URLSearchParams(s)` as a pair list in order. -/
def parseSearchParams (s : String) : List (String × String) :=
  coreParams (stripLeadQ s.toList)

/-! ### `parseEbmQrPayload` and `mergeQrPayload` -/

/-- `parseEbmQrPayload`: try JSON, then (when `://` occurs) URL query and
    fragment parameters, then — when no canonical property has been assigned,
    i.e. `Object.keys(payload).length <= 2` — delimiter-separated tokens.
    The collected `additional` record replaces the payload's when non-empty
    and is deleted otherwise. -/
def parseEbmQrPayload (raw : String) : EbmQrPayload :=
  let payload : EbmQrPayload := { raw := raw, additional := some [] }
  if jsTrim raw = "" then payload
  else
    let trimmed := jsTrim raw
    let additional : List (String × String) := []
    let (payload, additional) :=
      match jsonParseFlatObject trimmed with
      | some entries => assignFieldFromObject entries payload additional
      | none => (payload, additional)
    let (payload, additional) :=
      if jsIncludes trimmed "://" then
        match jsParseUrl trimmed with
        | some url =>
          let (payload, additional) :=
            if url.search ≠ "" then
              (parseSearchParams url.search).foldl
                (fun acc kv => assignKeyValue kv.1 (some (.vstr kv.2)) acc.1 acc.2)
                (payload, additional)
            else (payload, additional)
          if url.hash ≠ "" then
            let hashBody := match url.hash.toList with
              | [] => ([] : List Char).asString
              | c :: t => if c == '#' then t.asString else (c :: t).asString
            (parseSearchParams hashBody).foldl
              (fun acc kv => assignKeyValue kv.1 (some (.vstr kv.2)) acc.1 acc.2)
              (payload, additional)
          else (payload, additional)
        | none => (payload, additional)
      else (payload, additional)
    let (payload, additional) :=
      if payload.assignedKeys.isEmpty then
        parseStructuredString trimmed payload additional
      else (payload, additional)
    if additional ≠ [] then { payload with additional := some additional }
    else { payload with additional := none }

/-- `Partial<EbmQrPayload>` as produced by the RRA receipt-page enrichment. -/
structure EbmQrPayloadPatch where
  tin : Option String := none
  buyerTin : Option String := none
  invoiceNumber : Option String := none
  issueDate : Option String := none
  totalAmount : Option ℚ := none
  vatAmount : Option ℚ := none
  currency : Option String := none
  additional : Option (List (String × String)) := none
deriving DecidableEq, Repr

/-- JS falsiness of an optional string (`undefined` or `''`). -/
def strFalsy : Option String → Bool
  | none => true
  | some s => s == ""

/-- The guarded updates of `mergeQrPayload`, one named step per source
    `if`-statement (applied in source order by `mergeQrPayload`). -/
def mergeTinStep (u : EbmQrPayloadPatch) (merged : EbmQrPayload) : EbmQrPayload :=
  if u.tin.isSome && strFalsy merged.tin then { merged with tin := u.tin } else merged

def mergeBuyerTinStep (u : EbmQrPayloadPatch) (merged : EbmQrPayload) : EbmQrPayload :=
  if u.buyerTin.isSome && strFalsy merged.buyerTin then
    { merged with buyerTin := u.buyerTin } else merged

def mergeInvoiceNumberStep (u : EbmQrPayloadPatch) (merged : EbmQrPayload) : EbmQrPayload :=
  if u.invoiceNumber.isSome && strFalsy merged.invoiceNumber then
    { merged with invoiceNumber := u.invoiceNumber } else merged

def mergeIssueDateStep (u : EbmQrPayloadPatch) (merged : EbmQrPayload) : EbmQrPayload :=
  if u.issueDate.isSome && strFalsy merged.issueDate then
    { merged with issueDate := u.issueDate } else merged

def mergeTotalAmountStep (u : EbmQrPayloadPatch) (merged : EbmQrPayload) : EbmQrPayload :=
  if u.totalAmount.isSome && merged.totalAmount.isNone then
    { merged with totalAmount := u.totalAmount } else merged

def mergeVatAmountStep (u : EbmQrPayloadPatch) (merged : EbmQrPayload) : EbmQrPayload :=
  if u.vatAmount.isSome && merged.vatAmount.isNone then
    { merged with vatAmount := u.vatAmount } else merged

def mergeCurrencyStep (u : EbmQrPayloadPatch) (merged : EbmQrPayload) : EbmQrPayload :=
  if u.currency.isSome && strFalsy merged.currency then
    { merged with currency := u.currency } else merged

def mergeAdditionalStep (u : EbmQrPayloadPatch) (merged : EbmQrPayload) : EbmQrPayload :=
  match u.additional with
  | some ua =>
    let combined := (merged.additional.getD []).foldl
      (fun acc kv => upsertRecord acc kv.1 kv.2) ua
    { merged with additional := some combined }
  | none => merged

/-- `mergeQrPayload`: enrichment values land only in canonical fields that
    are `undefined`/empty in the base payload; `additional` is merged with
    the base's entries taking precedence. -/
def mergeQrPayload (base : EbmQrPayload) (updates : Option EbmQrPayloadPatch) :
    EbmQrPayload :=
  match updates with
  | none => base
  | some u =>
    mergeAdditionalStep u (mergeCurrencyStep u (mergeVatAmountStep u
      (mergeTotalAmountStep u (mergeIssueDateStep u (mergeInvoiceNumberStep u
        (mergeBuyerTinStep u (mergeTinStep u base)))))))

/-! ### Field comparisons (`buildComparison`, `computeComparisons`) -/

inductive EbmFieldMatchStatus where
  | match_ | mismatch | missing | unverified
deriving DecidableEq, Repr

/-- `keyof EbmQrPayload` — the property names of the payload record. -/
inductive QrKey where
  | raw | invoiceNumber | tin | buyerTin | issueDate
  | totalAmount | vatAmount | currency | additional
deriving DecidableEq, Repr

/-- `NUMERIC_TOLERANCE`: a record with entries for `totalAmount` and
    `vatAmount` only, both `1`. -/
def NUMERIC_TOLERANCE (k : QrKey) : Option ℚ :=
  match k with
  | .totalAmount => some 1
  | .vatAmount => some 1
  | _ => none

structure EbmExtractedField where
  field : String
  value : Option JsValue := none
  raw : Option String := none
  pageNumber : Option Nat := none
  matchList : List EbmExtractedFieldMatch := []
deriving DecidableEq, Repr

structure EbmFieldComparison where
  field : String
  status : EbmFieldMatchStatus
  qrValue : Option JsValue := none
  textValue : Option JsValue := none
  details : Option String := none
  qrSourcePage : Option Nat := none
  qrSourceScale : Option ℚ := none
  textSourcePage : Option Nat := none
  textSourceRaw : Option String := none
deriving DecidableEq, Repr

/-- `textField?.value ?? textField?.raw` — the value the comparison uses for
    the text side. -/
def textFieldValue (textField : Option EbmExtractedField) : Option JsValue :=
  match textField with
  | none => none
  | some f => f.value.orElse (fun _ => f.raw.map .vstr)

/-- `buildComparison`: classify one field.  Presence is `qrValue != null` on
    the QR side and a non-null, non-empty `value ?? raw` on the text side;
    with both sides present the per-type comparator runs and rewrites the
    echoed values into their normalized forms. -/
def buildComparison (fieldName : String) (qrKey : QrKey) (qrValue : Option JsValue)
    (textField : Option EbmExtractedField) (qrSource : Option PdfQrDecodedCode) :
    EbmFieldComparison :=
  let init : EbmFieldComparison := {
    field := fieldName
    status := .unverified
    qrValue := qrValue
    textValue := (toStringValue (textFieldValue textField)).map .vstr
    qrSourcePage := qrSource.map (·.pageNumber)
    qrSourceScale := qrSource.map (·.scale)
    textSourcePage := textField.bind (·.pageNumber)
    textSourceRaw := textField.bind (·.raw) }
  let textValue := textFieldValue textField
  match qrValue, textValue with
  | none, none =>
    { init with status := .unverified
                details := some "QR payload and text snapshot both missing this field." }
  | none, some tv =>
    if tv = .vstr "" then
      { init with status := .unverified
                  details := some "QR payload and text snapshot both missing this field." }
    else
      { init with status := .missing
                  details := some "QR payload does not provide this field." }
  | some _, none =>
    { init with status := .missing
                details := some "Invoice text does not provide this field." }
  | some qv, some tv =>
    if tv = .vstr "" then
      { init with status := .missing
                  details := some "Invoice text does not provide this field." }
    else
      match qrKey with
      | .tin | .buyerTin =>
        let qrTin := normalizeTin (jsValueToString qv)
        let textTin := normalizeTin (jsValueToString tv)
        let base := { init with qrValue := qrTin.map .vstr, textValue := textTin.map .vstr }
        match qrTin, textTin with
        | some a, some b =>
          if a = b then { base with status := .match_ }
          else { base with status := .mismatch
                           details := some "TIN values differ between QR payload and text." }
        | _, _ =>
          { base with status := .mismatch
                      details := some "TIN values differ between QR payload and text." }
      | .invoiceNumber =>
        let qrNumber := normalizeInvoiceNumber (some qv)
        let textNumber := normalizeInvoiceNumber (some tv)
        let base := { init with qrValue := qrNumber.map .vstr, textValue := textNumber.map .vstr }
        match qrNumber, textNumber with
        | some a, some b =>
          if a = b then { base with status := .match_ }
          else { base with status := .mismatch
                           details := some "Invoice numbers do not match." }
        | _, _ =>
          { base with status := .mismatch
                      details := some "Invoice numbers do not match." }
      | .issueDate =>
        let qrDate := toDateString (some qv)
        let textDate := toDateString (some tv)
        let base := { init with qrValue := qrDate.map .vstr, textValue := textDate.map .vstr }
        match qrDate, textDate with
        | some a, some b =>
          if a = b then { base with status := .match_ }
          else { base with status := .mismatch, details := some "Issue dates differ." }
        | _, _ =>
          { base with status := .mismatch, details := some "Issue dates differ." }
      | .totalAmount | .vatAmount =>
        let qrNumber := toNumberValue (some qv)
        let textNumber := toNumberValue (some tv)
        let base := { init with qrValue := qrNumber.map .vnum, textValue := textNumber.map .vnum }
        match qrNumber, textNumber with
        | some a, some b =>
          let tolerance := (NUMERIC_TOLERANCE qrKey).getD 0
          if |a - b| ≤ tolerance then { base with status := .match_ }
          else
            { base with status := .mismatch
                        details := some ("Values differ beyond tolerance of ±" ++
                          numToString tolerance ++ " RWF.") }
        | _, _ =>
          { base with status := .missing
                      details := some "Unable to parse numeric value for comparison." }
      | .currency =>
        let qrCurrency := normalizeCurrency (some qv)
        let textCurrency := normalizeCurrency (some tv)
        let base := { init with qrValue := qrCurrency.map .vstr, textValue := textCurrency.map .vstr }
        match qrCurrency, textCurrency with
        | some a, some b =>
          if a = b then { base with status := .match_ }
          else { base with status := .mismatch, details := some "Currency codes differ." }
        | _, _ =>
          { base with status := .mismatch, details := some "Currency codes differ." }
      | .raw | .additional =>
        { init with status := .unverified
                    details := some "No comparator implemented for this field." }

/-- `FIELD_MAPPING` — template field names to canonical payload keys, in
    source insertion order. -/
def FIELD_MAPPING : List (String × QrKey) :=
  [("tin", .tin), ("seller_tin", .tin), ("seller-tin", .tin), ("supplier_tin", .tin),
   ("invoice_number", .invoiceNumber), ("invoice-number", .invoiceNumber),
   ("invoice", .invoiceNumber), ("invoice_no", .invoiceNumber),
   ("issue_date", .issueDate), ("invoice_date", .issueDate), ("date", .issueDate),
   ("total_amount", .totalAmount), ("grand_total", .totalAmount),
   ("amount", .totalAmount), ("total", .totalAmount),
   ("vat_amount", .vatAmount), ("tax_amount", .vatAmount), ("vat", .vatAmount),
   ("buyer_tin", .buyerTin), ("buyer-tin", .buyerTin), ("customer_tin", .buyerTin),
   ("currency", .currency)]

def fieldMappingGet (fieldName : String) : Option QrKey :=
  (FIELD_MAPPING.find? (fun kv => kv.1 == fieldName)).map (·.2)

/-- `QR_KEY_TO_FIELD` — first field name registered for each canonical key. -/
def qrKeyToField (k : QrKey) : Option String :=
  (FIELD_MAPPING.find? (fun kv => kv.2 == k)).map (·.1)

/-- The property-name string of a canonical key (the `targetField ?? qrKey`
    fallback). -/
def qrKeyName : QrKey → String
  | .raw => "raw" | .invoiceNumber => "invoiceNumber" | .tin => "tin"
  | .buyerTin => "buyerTin" | .issueDate => "issueDate"
  | .totalAmount => "totalAmount" | .vatAmount => "vatAmount"
  | .currency => "currency" | .additional => "additional"

/-- `qrPayload[qrKey]` for the keys reachable through the comparison loops. -/
def payloadGet (p : EbmQrPayload) (k : QrKey) : Option JsValue :=
  match k with
  | .tin => p.tin.map .vstr
  | .buyerTin => p.buyerTin.map .vstr
  | .invoiceNumber => p.invoiceNumber.map .vstr
  | .issueDate => p.issueDate.map .vstr
  | .totalAmount => p.totalAmount.map .vnum
  | .vatAmount => p.vatAmount.map .vnum
  | .currency => p.currency.map .vstr
  | .raw => some (.vstr p.raw)
  | .additional => none

structure EbmTextExtraction where
  templateName : String
  issuer : Option String := none
  fields : List (String × EbmExtractedField)
deriving DecidableEq, Repr

/-- The canonical keys enumerated by the second `computeComparisons` loop. -/
def CANONICAL_QR_KEYS : List QrKey :=
  [.tin, .buyerTin, .invoiceNumber, .issueDate, .totalAmount, .vatAmount, .currency]

/-- `computeComparisons`: one comparison per mapped extracted field, then one
    per canonical payload key not already tracked (the `alreadyTracked` scan
    sees the comparisons pushed so far, hence the fold). -/
def computeComparisons (qrPayload : Option EbmQrPayload)
    (extraction : Option EbmTextExtraction)
    (qrDetections : List PdfQrDecodedCode) : List EbmFieldComparison :=
  match extraction with
  | none => []
  | some ext =>
    let qrSource := qrDetections.head?
    let comparisons := ext.fields.filterMap
      (fun fv =>
        match fieldMappingGet (jsToLower fv.1) with
        | none => none
        | some k =>
          some (buildComparison fv.1 k
            (qrPayload.bind (fun p => payloadGet p k)) (some fv.2) qrSource))
    match qrPayload with
    | none => comparisons
    | some p =>
      CANONICAL_QR_KEYS.foldl
        (fun comps k =>
          let targetField := qrKeyToField k
          let alreadyTracked := comps.any
            (fun c => fieldMappingGet (jsToLower c.field) == some k)
          if alreadyTracked then comps
          else comps ++ [buildComparison (targetField.getD (qrKeyName k)) k
            (payloadGet p k) none qrSource])
        comparisons

structure EbmValidationSummary where
  headline : String
  items : List String
deriving DecidableEq, Repr

/-- `buildSummary`. -/
def buildSummary (comparisons : List EbmFieldComparison) (errors : List String) :
    EbmValidationSummary :=
  let matchCount := (comparisons.filter (fun c => c.status == .match_)).length
  let mismatchCount := (comparisons.filter (fun c => c.status == .mismatch)).length
  let missingCount := (comparisons.filter (fun c => c.status == .missing)).length
  if errors.isEmpty && mismatchCount = 0 && missingCount = 0 then
    { headline := "Invoice details match QR payload."
      items := ["Validated fields: " ++ Nat.repr matchCount] }
  else
    let items : List String := []
    let items := if matchCount > 0 then items ++ ["Matched fields: " ++ Nat.repr matchCount] else items
    let items := if mismatchCount > 0 then items ++ ["Mismatched fields: " ++ Nat.repr mismatchCount] else items
    let items := if missingCount > 0 then items ++ ["Missing fields: " ++ Nat.repr missingCount] else items
    let items := if !errors.isEmpty then items ++ ["Errors: " ++ Nat.repr errors.length] else items
    { headline := "Invoice validation reported issues.", items := items }

/-! ### The validation run (`validateEbmInvoice`)

The orchestration is modelled as a pure function of the results of its
collaborators: the stored text snapshot (`loadTextSnapshot`), template
selection (`selectTemplateForSnapshot`), template-driven extraction
(`extractTextWithTemplate`, whose regex engine is taken as a parameter), the
joint outcome of the original-file download plus `decodeQrCodesFromPdf`
(either a detection list or a thrown error), and the network enrichment
(`attemptRraQrEnrichment`).  Wall-clock timestamps are omitted. -/

structure EbmTextPage where
  pageNumber : Nat
  text : String
deriving DecidableEq, Repr

structure EbmTextSnapshot where
  title : String
  pages : List EbmTextPage
  content : String
deriving DecidableEq, Repr

structure EbmFileReference where
  fileId : String
  fileExtension : String
deriving DecidableEq, Repr

/-- Result of `serverFileStorage.download` + `decodeQrCodesFromPdf` inside
    the validator's `try`: a detection list, or a caught exception. -/
inductive QrDecodeOutcome where
  | ok (codes : List PdfQrDecodedCode)
  | failed
deriving DecidableEq, Repr

structure EbmQrDetection where
  pageNumber : Nat
  scale : ℚ
  text : String
deriving DecidableEq, Repr

structure EbmValidationResult where
  templateName : Option String := none
  issuer : Option String := none
  matchResults : List EbmFieldComparison := []
  qrPayload : Option EbmQrPayload := none
  qrDetections : List EbmQrDetection := []
  summary : EbmValidationSummary
  errors : Option (List String) := none
deriving DecidableEq, Repr

structure EbmValidationOutcome where
  result : EbmValidationResult
  extraction : Option EbmTextExtraction := none
deriving DecidableEq, Repr

/-- JS falsiness of an optional number (`undefined` or `0`, since `!0` is
    `true`). -/
def numFalsy : Option ℚ → Bool
  | none => true
  | some q => q == 0

def toQrDetections (codes : List PdfQrDecodedCode) : List EbmQrDetection :=
  codes.map (fun c => { pageNumber := c.pageNumber, scale := c.scale, text := c.text })

/-- `validateEbmInvoice`. -/
def validateEbmInvoice (file : EbmFileReference)
    (snapshot : Option EbmTextSnapshot)
    (selectTemplate : EbmTextSnapshot → Option EbmTemplate)
    (extractText : EbmTemplate → EbmTextSnapshot → EbmTextExtraction)
    (decodeResult : QrDecodeOutcome)
    (enrich : EbmQrPayload → Option EbmQrPayloadPatch) : EbmValidationOutcome :=
  let errors : List String := []
  let errors := if snapshot.isNone then errors ++ ["Failed to load invoice text snapshot."]
    else errors
  let tmpl := snapshot.bind selectTemplate
  let errors := if snapshot.isSome && tmpl.isNone then
      errors ++ ["No EBM template matched the invoice text."]
    else errors
  let extraction := match snapshot, tmpl with
    | some s, some t => some (extractText t s)
    | _, _ => none
  let (qrDetections, qrPayload, errors) :
      List PdfQrDecodedCode × Option EbmQrPayload × List String :=
    if jsToLower file.fileExtension ≠ "pdf" then
      ([], none, errors ++ ["QR validation currently supports PDF invoices only."])
    else
      match decodeResult with
      | .failed => ([], none, errors ++ ["Failed to decode QR codes from the invoice."])
      | .ok codes =>
        match codes.head? with
        | none => ([], none, errors ++ ["No QR codes detected in the invoice."])
        | some c =>
          let payload := parseEbmQrPayload c.text
          (codes, some (mergeQrPayload payload (enrich payload)), errors)
  let errors := match qrPayload with
    | some p =>
      if strFalsy p.tin && strFalsy p.invoiceNumber && numFalsy p.totalAmount then
        errors ++ ["QR payload did not include recognizable invoice fields."]
      else errors
    | none => errors
  let qrPayload := match qrPayload, extraction with
    | some p, some ext =>
      if strFalsy p.currency then
        let currencyField := (ext.fields.find? (fun fv => fv.1 == "currency")).map (·.2)
        let currencyValue := currencyField.bind
          (fun f => f.value.orElse (fun _ => f.raw.map .vstr))
        match normalizeCurrency currencyValue with
        | some nc =>
          let amended := { p with currency := some nc }
          let amendedAdditional :=
            upsertRecord (amended.additional.getD []) "currencySource" "textSnapshot"
          some { amended with additional := some amendedAdditional }
        | none => some p
      else some p
    | p, _ => p
  let comparisons := computeComparisons qrPayload extraction qrDetections
  let result : EbmValidationResult := {
    templateName := tmpl.map (·.definition.templateName)
    issuer := tmpl.map (·.definition.issuer)
    matchResults := comparisons
    qrPayload := qrPayload
    qrDetections := toQrDetections qrDetections
    summary := buildSummary comparisons errors
    errors := if !errors.isEmpty then some errors else none }
  { result := result, extraction := extraction }

/-! ### QR payload renderings (modelled from the spec)

The repository contains no serializer for QR payloads; §8 of the spec states
a round-trip property over "the four supported QR payload encodings (JSON
object, URL with query parameters, URL with fragment parameters,
delimiter-separated key:value tokens)".  The renderings below are modelled
from those words, emitting the logical field set under the canonical key
names `assignKeyValue` recognises, in a fixed field order. -/

/-- Modelled from the spec: a "logical field set over the canonical fields".
    Field values are carried as the strings a QR code would embed (amounts as
    decimal digit strings). -/
structure EbmLogicalFields where
  tin : Option String := none
  buyerTin : Option String := none
  invoiceNumber : Option String := none
  issueDate : Option String := none
  totalAmount : Option String := none
  vatAmount : Option String := none
  currency : Option String := none
deriving DecidableEq, Repr

/-- The key/value pairs of a logical field set, in rendering order, keyed by
    names that `assignKeyValue` maps to their canonical fields. -/
def fieldPairs (f : EbmLogicalFields) : List (String × String) :=
  (f.tin.map (fun v => ("tin", v))).toList ++
  (f.buyerTin.map (fun v => ("buyertin", v))).toList ++
  (f.invoiceNumber.map (fun v => ("invoice", v))).toList ++
  (f.issueDate.map (fun v => ("issuedate", v))).toList ++
  (f.totalAmount.map (fun v => ("total", v))).toList ++
  (f.vatAmount.map (fun v => ("vat", v))).toList ++
  (f.currency.map (fun v => ("currency", v))).toList

/-- Separator join (`List.intercalate` specialised for the renderings). -/
def joinSep (sep : String) : List String → String
  | [] => ""
  | [x] => x
  | x :: y :: tl => x ++ sep ++ joinSep sep (y :: tl)

/-- JSON string literal for a value without characters needing escapes. -/
def renderJsonString (s : String) : String := "\"" ++ s ++ "\""

/-- Modelled from the spec: the JSON-object encoding. -/
def renderQrJson (f : EbmLogicalFields) : String :=
  "\x7b" ++
    joinSep ","
      ((fieldPairs f).map (fun kv => renderJsonString kv.1 ++ ":" ++ renderJsonString kv.2)) ++
  "\x7d"

def renderParamPairs (f : EbmLogicalFields) : String :=
  joinSep "&" ((fieldPairs f).map (fun kv => kv.1 ++ "=" ++ kv.2))

/-- Modelled from the spec: the URL-with-query-parameters encoding. -/
def renderQrUrlQuery (f : EbmLogicalFields) : String :=
  if (fieldPairs f).isEmpty then "https://example.com/receipt"
  else "https://example.com/receipt?" ++ renderParamPairs f

/-- Modelled from the spec: the URL-with-fragment-parameters encoding. -/
def renderQrUrlFragment (f : EbmLogicalFields) : String :=
  if (fieldPairs f).isEmpty then "https://example.com/receipt"
  else "https://example.com/receipt#" ++ renderParamPairs f

/-- Modelled from the spec: the delimiter-separated `key:value` encoding. -/
def renderQrDelimited (f : EbmLogicalFields) : String :=
  joinSep ";" ((fieldPairs f).map (fun kv => kv.1 ++ ":" ++ kv.2))

/-- The canonical-field projection of a payload — what the round-trip claim
    compares between encodings. -/
def canonicalFields (p : EbmQrPayload) :
    Option String × Option String × Option String × Option String ×
    Option ℚ × Option ℚ × Option String :=
  (p.tin, p.buyerTin, p.invoiceNumber, p.issueDate, p.totalAmount, p.vatAmount, p.currency)

/-- Characters safe in every encoding: ASCII alphanumerics, `-`, `_`, `.`.
    They need no escaping in JSON strings or URL components and contain no
    token delimiter, key/value separator or whitespace. -/
def safeValueChar (c : Char) : Bool :=
  let n := c.toNat
  (48 ≤ n && n ≤ 57) || (65 ≤ n && n ≤ 90) || (97 ≤ n && n ≤ 122) ||
    n = 45 || n = 95 || n = 46

def safeChars (s : String) : Prop :=
  ∀ c ∈ s.toList, safeValueChar c = true

/-- A logical field set whose values survive every encoding: each value uses
    only safe characters and is a fixed point of its field's normalization
    (amounts must parse as numbers). -/
def SafeFields (f : EbmLogicalFields) : Prop :=
  (∀ s ∈ f.tin, safeChars s ∧ toStringValue (some (.vstr s)) = some s ∧
    normalizeTin s = some s) ∧
  (∀ s ∈ f.buyerTin, safeChars s ∧ toStringValue (some (.vstr s)) = some s ∧
    normalizeTin s = some s) ∧
  (∀ s ∈ f.invoiceNumber, safeChars s ∧ toStringValue (some (.vstr s)) = some s ∧
    normalizeInvoiceNumber (some (.vstr s)) = some s) ∧
  (∀ s ∈ f.issueDate, safeChars s ∧ toStringValue (some (.vstr s)) = some s ∧
    toDateString (some (.vstr s)) = some s) ∧
  (∀ s ∈ f.totalAmount, safeChars s ∧ toStringValue (some (.vstr s)) = some s ∧
    (∃ q, toNumberValue (some (.vstr s)) = some q)) ∧
  (∀ s ∈ f.vatAmount, safeChars s ∧ toStringValue (some (.vstr s)) = some s ∧
    (∃ q, toNumberValue (some (.vstr s)) = some q)) ∧
  (∀ s ∈ f.currency, safeChars s ∧ toStringValue (some (.vstr s)) = some s ∧
    normalizeCurrency (some (.vstr s)) = some s)

/-- The canonical payload a safe field set should parse to, in every
    encoding. -/
def expectedCanonical (f : EbmLogicalFields) :
    Option String × Option String × Option String × Option String ×
    Option ℚ × Option ℚ × Option String :=
  (f.tin, f.buyerTin, f.invoiceNumber, f.issueDate,
   f.totalAmount.bind (fun s => toNumberValue (some (.vstr s))),
   f.vatAmount.bind (fun s => toNumberValue (some (.vstr s))),
   f.currency)

/-- Folding `assignKeyValue` over string key/value pairs — the common core
    all four decodings reduce to. -/
def assignPairsFold (ps : List (String × String))
    (st : EbmQrPayload × List (String × String)) :
    EbmQrPayload × List (String × String) :=
  ps.foldl (fun acc kv => assignKeyValue kv.1 (some (.vstr kv.2)) acc.1 acc.2) st

/-- Key/value pair lists whose two sides use only safe characters. -/
def pairsSafe (ps : List (String × String)) : Prop :=
  ∀ kv ∈ ps, safeChars kv.1 ∧ safeChars kv.2

/-- The character stream of the JSON rendering after the opening brace:
    the members, the closing brace, and `rest`. -/
def jsonChunk : List (String × String) → List Char → List Char
  | [], rest => '}' :: rest
  | kv :: tl, rest =>
    '"' :: (kv.1.toList ++ '"' :: ':' :: '"' ::
      (kv.2.toList ++ '"' ::
        (match tl with
         | [] => '}' :: rest
         | _ :: _ => ',' :: jsonChunk tl rest)))

/-- Fuel sufficient for `parseJsonMembers` on a `jsonChunk`. -/
def jsonChunkLen : List (String × String) → Nat
  | [] => 1
  | kv :: tl => kv.1.length + kv.2.length + 6 + jsonChunkLen tl

/-- The character stream of the query/fragment parameter rendering. -/
def paramChunk : List (String × String) → List Char
  | [] => []
  | kv :: tl =>
    kv.1.toList ++ '=' ::
      (kv.2.toList ++
        (match tl with
         | [] => []
         | _ :: _ => '&' :: paramChunk tl))

/-- The character stream of the delimiter-separated rendering. -/
def delimChunk : List (String × String) → List Char
  | [] => []
  | kv :: tl =>
    kv.1.toList ++ ':' ::
      (kv.2.toList ++
        (match tl with
         | [] => []
         | _ :: _ => ';' :: delimChunk tl))

/-- The canonical names marked assigned when `fieldPairs f` is fed through
    `assignKeyValue`, in rendering order. -/
def assignedOf (f : EbmLogicalFields) : List String :=
  (f.tin.map (fun _ => "tin")).toList ++
  (f.buyerTin.map (fun _ => "buyerTin")).toList ++
  (f.invoiceNumber.map (fun _ => "invoiceNumber")).toList ++
  (f.issueDate.map (fun _ => "issueDate")).toList ++
  (f.totalAmount.map (fun _ => "totalAmount")).toList ++
  (f.vatAmount.map (fun _ => "vatAmount")).toList ++
  (f.currency.map (fun _ => "currency")).toList

/-- The payload every encoding of a safe field set decodes to (before the
    final `additional` bookkeeping of `parseEbmQrPayload`). -/
def c8Payload (raw : String) (f : EbmLogicalFields) : EbmQrPayload :=
  { raw := raw
    additional := some []
    tin := f.tin
    buyerTin := f.buyerTin
    invoiceNumber := f.invoiceNumber
    issueDate := f.issueDate
    totalAmount := f.totalAmount.bind (fun s => toNumberValue (some (.vstr s)))
    vatAmount := f.vatAmount.bind (fun s => toNumberValue (some (.vstr s)))
    currency := f.currency
    assignedKeys := assignedOf f }

/-- The logical field set of the round-trip witness. -/
def c8f0 : EbmLogicalFields :=
  { tin := some "123456789", invoiceNumber := some "INV-007", totalAmount := some "5000" }

/-- A field set whose invoice number carries a token delimiter: its JSON and
    delimited renderings decode to different canonical fields. -/
def c8cexFields : EbmLogicalFields := { invoiceNumber := some "A;B" }

/-! ### The spec's status classification (claim C1)

A second definition following the claim's words — `missing` iff exactly one
side has a value, `unverified` iff neither, otherwise the field-type
comparator decides between `match` and `mismatch` — to be compared against
the `buildComparison` embedding of the source. -/

/-- Whether the QR side "has a value" (`qrValue != null`). -/
def qrSideHasValue (qrValue : Option JsValue) : Bool := qrValue.isSome

/-- Whether the text side "has a value" (a non-null, non-empty
    `value ?? raw`). -/
def textSideHasValue (textField : Option EbmExtractedField) : Bool :=
  match textFieldValue textField with
  | none => false
  | some (.vstr s) => s ≠ ""
  | some (.vnum _) => true

/-- The field-type comparator of §4.4, per canonical key: digit-stripped TIN
    equality, normalized invoice-number equality, calendar-date equality,
    amount equality within the fixed tolerance, case-insensitive currency
    equality. -/
def comparatorAgrees (qrKey : QrKey) (qv tv : JsValue) : Bool :=
  match qrKey with
  | .tin | .buyerTin =>
    match normalizeTin (jsValueToString qv), normalizeTin (jsValueToString tv) with
    | some a, some b => a == b
    | _, _ => false
  | .invoiceNumber =>
    match normalizeInvoiceNumber (some qv), normalizeInvoiceNumber (some tv) with
    | some a, some b => a == b
    | _, _ => false
  | .issueDate =>
    match toDateString (some qv), toDateString (some tv) with
    | some a, some b => a == b
    | _, _ => false
  | .totalAmount | .vatAmount =>
    match toNumberValue (some qv), toNumberValue (some tv) with
    | some a, some b => |a - b| ≤ (NUMERIC_TOLERANCE qrKey).getD 0
    | _, _ => false
  | .currency =>
    match normalizeCurrency (some qv), normalizeCurrency (some tv) with
    | some a, some b => a == b
    | _, _ => false
  | .raw | .additional => false

/-- Claim C1 as stated: `missing` iff exactly one side has a value,
    `unverified` iff neither, else `match`/`mismatch` by the comparator. -/
def claimStatus (qrKey : QrKey) (qrValue : Option JsValue)
    (textField : Option EbmExtractedField) : EbmFieldMatchStatus :=
  match qrSideHasValue qrValue, textSideHasValue textField with
  | false, false => .unverified
  | false, true => .missing
  | true, false => .missing
  | true, true =>
    match qrValue, textFieldValue textField with
    | some qv, some tv => if comparatorAgrees qrKey qv tv then .match_ else .mismatch
    | _, _ => .unverified
  
/-- The amended classification: as the claim states it, except that an
    amount comparison in which either present side fails numeric parsing is
    reported `missing` (the source's "Unable to parse numeric value"
    branch). -/
def claimStatusAmended (qrKey : QrKey) (qrValue : Option JsValue)
    (textField : Option EbmExtractedField) : EbmFieldMatchStatus :=
  match qrSideHasValue qrValue, textSideHasValue textField with
  | false, false => .unverified
  | false, true => .missing
  | true, false => .missing
  | true, true =>
    match qrValue, textFieldValue textField with
    | some qv, some tv =>
      match qrKey with
      | .totalAmount | .vatAmount =>
        match toNumberValue (some qv), toNumberValue (some tv) with
        | some _, some _ => if comparatorAgrees qrKey qv tv then .match_ else .mismatch
        | _, _ => .missing
      | _ => if comparatorAgrees qrKey qv tv then .match_ else .mismatch
    | _, _ => .unverified

/-! ### Concrete instances used by counterexamples and witnesses -/

/-- A template with an empty exclude keyword (the loader accepts empty
    strings: `toArray` stringifies whatever the YAML lists). -/
def c3Template : EbmTemplateDefinition :=
  { templateName := "t", issuer := "t", keywords := [], excludeKeywords := [""],
    options := {} }

/-- A template whose `replace` options rewrite keywords away from the
    prepared text: `a` is deleted and `b` becomes `a`. -/
def c7Template : EbmTemplateDefinition :=
  { templateName := "t", issuer := "t", keywords := [], excludeKeywords := [],
    options := { replace := [("a", ""), ("b", "a")] } }

/-- A template selecting on the keyword `EBM INVOICE` and excluding
    `PROFORMA`, lowercased. -/
def ebmInvoiceTemplate : EbmTemplateDefinition :=
  { templateName := "ebm", issuer := "ebm", keywords := ["ebm invoice"],
    excludeKeywords := ["proforma"], options := { lowercase := true } }

/-- Decode oracle for the C5 scenario: page 1 reads `A` at the first
    configured scale; page 2 reads `A` (a duplicate) at the first scale and
    `B` at the second. -/
def c5decode : Nat → ℚ → Option String := fun p s =>
  if p = 1 then some "A"
  else if p = 2 && s == (1 : ℚ) then some "A"
  else if p = 2 && s == (2 : ℚ) then some "B"
  else none

def c5options : PdfQrDecodeOptions := { scales := some [1, 2] }

/-- A scale attempt whose decode is thrown away by the uniqueness filter:
    it decodes some text, but `unique` is set and the text was already
    seen. -/
def scaleDiscarded (decode : Nat → ℚ → Option String) (p : Nat) (unique : Bool)
    (seen : List String) (s : ℚ) : Prop :=
  ∀ t, decode p s = some t → (unique = true ∧ seen.contains t = true)

/-- Fixtures for the C6 witness: a snapshot, a selector returning the
    scenario template, and an extraction with one populated text field. -/
def c6Snapshot : EbmTextSnapshot :=
  { title := "inv", pages := [], content := "ebm invoice" }

def c6Extraction : EbmTextExtraction :=
  { templateName := "ebm", issuer := none,
    fields := [("total", { field := "total", value := some (.vstr "5000") })] }

def c6File : EbmFileReference := { fileId := "f", fileExtension := "PDF" }

def c6Select : EbmTextSnapshot → Option EbmTemplate :=
  fun _ => some (mkEbmTemplate ebmInvoiceTemplate)

def c6Extract : EbmTemplate → EbmTextSnapshot → EbmTextExtraction :=
  fun _ _ => c6Extraction

/-! ### Theorems -/

/-- `jsIncludes s "" = true`: the empty string is a substring of
    everything. -/
theorem jsIncludes_empty (s : String) : jsIncludes s "" = true := by
  unfold jsIncludes
  unfold containsList
  simp [startsWithList]

/-- Keyword test under the empty-keyword guard agrees with plain
    inclusion. -/
theorem keyword_guard_eq (prepared k : String) :
    (if k ≠ "" then jsIncludes prepared k else true) = jsIncludes prepared k := by
  by_cases hk : k = ""
  · subst hk
    simp [jsIncludes_empty]
  · simp [hk]

/-- C3 (as stated) fails: a template whose `excludeKeywords` contain an
    empty string still matches every text, although the empty string is a
    substring of the normalized text.  (`matchesInput` skips falsy exclude
    keywords.) -/
theorem c3_counterexample :
    ¬ (matchesInput (mkEbmTemplate c3Template) "x" = true ↔
        ((∀ k ∈ (mkEbmTemplate c3Template).keywords,
            jsIncludes (prepareInput c3Template.options "x") k = true) ∧
         (∀ k ∈ (mkEbmTemplate c3Template).excludeKeywords,
            jsIncludes (prepareInput c3Template.options "x") k = false))) := by
  decide

/-- C3 amended: for every template and candidate text, `matchesInput`
    returns `true` iff every constructor-normalized keyword is a substring of
    the prepared text and no non-empty constructor-normalized exclude keyword
    is a substring of the prepared text. -/
theorem c3_matches_characterization (d : EbmTemplateDefinition) (content : String) :
    matchesInput (mkEbmTemplate d) content = true ↔
      ((∀ k ∈ (mkEbmTemplate d).keywords,
          jsIncludes (prepareInput d.options content) k = true) ∧
       (∀ k ∈ (mkEbmTemplate d).excludeKeywords,
          k ≠ "" → jsIncludes (prepareInput d.options content) k = false)) := by
  have hdef : (mkEbmTemplate d).definition = d := rfl
  simp only [matchesInput, hdef]
  set prepared := prepareInput d.options content with hprep
  constructor
  · intro h
    by_cases hkw : ((mkEbmTemplate d).keywords.all
        (fun k => if k ≠ "" then jsIncludes prepared k else true)) = true
    · refine ⟨?_, ?_⟩
      · intro k hk
        have := (List.all_eq_true.mp hkw) k hk
        rwa [keyword_guard_eq] at this
      · intro k hk hne
        by_cases hempty : (mkEbmTemplate d).excludeKeywords.isEmpty = true
        · rw [List.isEmpty_iff] at hempty
          rw [hempty] at hk
          exact absurd hk (List.not_mem_nil k)
        · rw [hkw] at h
          simp only [Bool.not_true, Bool.false_eq_true, if_false, hempty, if_neg] at h
          have hany : ((mkEbmTemplate d).excludeKeywords.any
              (fun k => if k ≠ "" then jsIncludes prepared k else false)) = false := by
            cases hv : ((mkEbmTemplate d).excludeKeywords.any
                (fun k => if k ≠ "" then jsIncludes prepared k else false)) with
            | false => rfl
            | true => rw [hv] at h; simp at h
          have := List.any_eq_false.mp hany k hk
          simp only [hne, if_true, ne_eq] at this
          simpa [hne] using this
    · rw [Bool.not_eq_true] at hkw
      rw [hkw] at h
      simp at h
  · rintro ⟨hkws, hexcl⟩
    have hkw : ((mkEbmTemplate d).keywords.all
        (fun k => if k ≠ "" then jsIncludes prepared k else true)) = true := by
      rw [List.all_eq_true]
      intro k hk
      rw [keyword_guard_eq]
      exact hkws k hk
    rw [hkw]
    simp only [Bool.not_true, Bool.false_eq_true, if_false]
    by_cases hempty : (mkEbmTemplate d).excludeKeywords.isEmpty = true
    · simp [hempty]
    · have hany : ((mkEbmTemplate d).excludeKeywords.any
          (fun k => if k ≠ "" then jsIncludes prepared k else false)) = false := by
        rw [List.any_eq_false]
        intro k hk
        by_cases hne : k = ""
        · simp [hne]
        · simp [hne, hexcl k hk hne]
      simp only [hempty, hany]
      simp

/-- C3 witness: the characterization applied to the spec's scenario
    template at a concrete document text. -/
theorem c3_matches_characterization_witness :
    matchesInput (mkEbmTemplate ebmInvoiceTemplate) "EBM INVOICE no. 42" = true ↔
      ((∀ k ∈ (mkEbmTemplate ebmInvoiceTemplate).keywords,
          jsIncludes (prepareInput ebmInvoiceTemplate.options "EBM INVOICE no. 42") k = true) ∧
       (∀ k ∈ (mkEbmTemplate ebmInvoiceTemplate).excludeKeywords,
          k ≠ "" → jsIncludes (prepareInput ebmInvoiceTemplate.options "EBM INVOICE no. 42") k = false)) :=
  c3_matches_characterization ebmInvoiceTemplate "EBM INVOICE no. 42"

/-- C7 (as stated) fails: with replacement options `a→"", b→a` the document
    `"b"` normalizes to `"a"`, the template matches, and `"a"` occurs in the
    normalized text; but adding `"a"` to `excludeKeywords` normalizes the new
    keyword to the empty string (`a→""`), which `matchesInput` ignores, so
    the extended template still matches. -/
theorem c7_counterexample :
    matchesInput (mkEbmTemplate c7Template) "b" = true ∧
    jsIncludes (prepareInput c7Template.options "b") "a" = true ∧
    matchesInput (mkEbmTemplate
      { c7Template with excludeKeywords := c7Template.excludeKeywords ++ ["a"] }) "b" = true := by
  decide

/-- C7 amended: adding to `excludeKeywords` a keyword whose
    constructor-normalized form is non-empty and occurs as a substring of the
    template-normalized document text makes the template stop matching that
    document. -/
theorem c7_exclude_monotonic (d : EbmTemplateDefinition) (content k : String)
    (_hmatch : matchesInput (mkEbmTemplate d) content = true)
    (hne : applyTransformations d.options k ≠ "")
    (hocc : jsIncludes (prepareInput d.options content)
      (applyTransformations d.options k) = true) :
    matchesInput (mkEbmTemplate
      { d with excludeKeywords := d.excludeKeywords ++ [k] }) content = false := by
  rw [Bool.eq_false_iff]
  intro habs
  have hchar := (c3_matches_characterization
    { d with excludeKeywords := d.excludeKeywords ++ [k] } content).mp habs
  have hmem : applyTransformations d.options k ∈
      (mkEbmTemplate { d with excludeKeywords := d.excludeKeywords ++ [k] }).excludeKeywords := by
    show applyTransformations d.options k ∈
      (d.excludeKeywords ++ [k]).map (applyTransformations d.options)
    exact List.mem_map_of_mem _ (by simp)
  have hfalse := hchar.2 _ hmem hne
  rw [hocc] at hfalse
  exact Bool.noConfusion hfalse

/-- C7 witness: excluding `ebm` (already present in the text) stops the
    scenario template from matching `"EBM INVOICE"`. -/
theorem c7_exclude_monotonic_witness :
    matchesInput (mkEbmTemplate { ebmInvoiceTemplate with
      excludeKeywords := ebmInvoiceTemplate.excludeKeywords ++ ["ebm"] }) "EBM INVOICE" = false :=
  c7_exclude_monotonic ebmInvoiceTemplate "EBM INVOICE" "ebm"
    (by decide) (by decide) (by decide)

/-- The per-page scale loop leaves `seen` unchanged until it records, and a
    recorded code carries the page number, appends its text to `seen`, and —
    under `unique` — has unseen text. -/
theorem scanPageScales_spec (decode : Nat → ℚ → Option String) (p : Nat)
    (unique : Bool) (scales : List ℚ) (seen : List String) :
    (match scanPageScales decode p unique scales seen with
     | (some code, seen') =>
        code.pageNumber = p ∧ seen' = seen ++ [code.text] ∧
          (unique = true → seen.contains code.text = false)
     | (none, seen') => seen' = seen) := by
  induction scales with
  | nil => simp [scanPageScales]
  | cons s rest ih =>
    simp only [scanPageScales]
    cases hd : decode p s with
    | none => exact ih
    | some t =>
      by_cases hrec : (!unique || !seen.contains t) = true
      · simp only [hrec, if_true]
        refine ⟨trivial, trivial, fun hu => ?_⟩
        rw [hu] at hrec
        simpa using hrec
      · simp only [hrec, if_false]
        exact ih

/-- `l.contains a = false` is non-membership. -/
theorem contains_false_iff (l : List String) (a : String) :
    l.contains a = false ↔ a ∉ l := by
  rw [← Bool.not_eq_true]
  exact not_congr List.elem_iff

theorem contains_append_eq (l1 l2 : List String) (a : String) :
    (l1 ++ l2).contains a = (l1.contains a || l2.contains a) := by
  cases h1 : l1.contains a with
  | true =>
    simp only [Bool.true_or]
    have : a ∈ l1 ++ l2 := List.mem_append_left _ (List.elem_iff.mp h1)
    exact List.elem_iff.mpr this
  | false =>
    simp only [Bool.false_or]
    cases h2 : l2.contains a with
    | true =>
      have : a ∈ l1 ++ l2 := List.mem_append_right _ (List.elem_iff.mp h2)
      exact List.elem_iff.mpr this
    | false =>
      rw [contains_false_iff] at h1 h2 ⊢
      intro hm
      rcases List.mem_append.mp hm with h | h
      · exact h1 h
      · exact h2 h

/-- Page-loop invariant under `unique`: recorded texts avoid the incoming
    `seen` set and are pairwise distinct, pages come from the page list, and
    page numbers are pairwise distinct when the page list is. -/
theorem decodePagesLoop_nodup (decode : Nat → ℚ → Option String) (scales : List ℚ) :
    ∀ (pages : List Nat) (seen : List String), pages.Nodup →
      ((decodePagesLoop decode true scales pages seen).map (·.text)).Nodup ∧
      (∀ c ∈ decodePagesLoop decode true scales pages seen,
        seen.contains c.text = false ∧ c.pageNumber ∈ pages) ∧
      ((decodePagesLoop decode true scales pages seen).map (·.pageNumber)).Nodup := by
  intro pages
  induction pages with
  | nil => intro seen _; simp [decodePagesLoop]
  | cons p ps ih =>
    intro seen hnd
    have hp : p ∉ ps := (List.nodup_cons.mp hnd).1
    have hps : ps.Nodup := (List.nodup_cons.mp hnd).2
    have hspec := scanPageScales_spec decode p true scales seen
    simp only [decodePagesLoop]
    cases hscan : scanPageScales decode p true scales seen with
    | mk fst seen' =>
      rw [hscan] at hspec
      cases fst with
      | none =>
        simp only
        rw [show seen' = seen from hspec]
        obtain ⟨h1, h2, h3⟩ := ih seen hps
        exact ⟨h1, fun c hc => ⟨(h2 c hc).1, List.mem_cons_of_mem _ (h2 c hc).2⟩, h3⟩
      | some code =>
        obtain ⟨hpage, hseen, hfresh⟩ := hspec
        subst hseen
        obtain ⟨h1, h2, h3⟩ := ih (seen ++ [code.text]) hps
        have htext : ∀ c ∈ decodePagesLoop decode true scales ps (seen ++ [code.text]),
            c.text ≠ code.text ∧ seen.contains c.text = false := by
          intro c hc
          have hcont := (h2 c hc).1
          rw [contains_append_eq] at hcont
          have ha := (Bool.or_eq_false_iff.mp hcont).1
          have hb := (Bool.or_eq_false_iff.mp hcont).2
          refine ⟨?_, ha⟩
          intro he
          rw [he] at hb
          simp at hb
        refine ⟨?_, ?_, ?_⟩
        · simp only [List.map_cons, List.nodup_cons]
          refine ⟨?_, h1⟩
          intro hmem
          obtain ⟨c, hc, hct⟩ := List.mem_map.mp hmem
          exact absurd hct.symm (Ne.symm ((htext c hc).1))
        · intro c hc
          rcases List.mem_cons.mp hc with hc | hc
          · subst hc
            exact ⟨hfresh rfl, by rw [hpage]; exact List.mem_cons_self _ _⟩
          · exact ⟨(htext c hc).2, List.mem_cons_of_mem _ (h2 c hc).2⟩
        · simp only [List.map_cons, List.nodup_cons]
          refine ⟨?_, h3⟩
          intro hmem
          obtain ⟨c, hc, hcp⟩ := List.mem_map.mp hmem
          have := (h2 c hc).2
          rw [hcp, hpage] at this
          exact hp this

/-- C9: with the `unique` option true or omitted, the detection list of
    `decodeQrCodesFromPdf` has pairwise-distinct text strings and at most one
    detection per page number. -/
theorem c9_unique_detections (decode : Nat → ℚ → Option String) (numPages : Nat)
    (options : PdfQrDecodeOptions) (hunique : options.unique ≠ some false) :
    ((decodeQrCodesFromPdf decode numPages options).map (·.text)).Nodup ∧
    ((decodeQrCodesFromPdf decode numPages options).map (·.pageNumber)).Nodup := by
  have hu : options.unique.getD true = true := by
    cases h : options.unique with
    | none => rfl
    | some b =>
      cases b with
      | true => rfl
      | false => exact absurd h hunique
  unfold decodeQrCodesFromPdf
  rw [hu]
  have hnd : ((List.range (min numPages (options.maxPages.getD numPages))).map (· + 1)).Nodup :=
    (List.nodup_range _).map (fun a b h => Nat.succ_injective h)
  obtain ⟨h1, _, h3⟩ := decodePagesLoop_nodup decode
    (match options.scales with
     | some l => if l.isEmpty then DEFAULT_SCALES else l
     | none => DEFAULT_SCALES)
    ((List.range (min numPages (options.maxPages.getD numPages))).map (· + 1)) [] hnd
  exact ⟨h1, h3⟩

/-- C9 witness: the invariant applied to the C5 decode oracle with default
    options. -/
theorem c9_unique_detections_witness :
    ((decodeQrCodesFromPdf c5decode 2 c5options).map (·.text)).Nodup ∧
    ((decodeQrCodesFromPdf c5decode 2 c5options).map (·.pageNumber)).Nodup :=
  c9_unique_detections c5decode 2 c5options (by decide)

/-- C5 amended, per-page loop characterization: a detection is recorded for
    a page exactly at the first configured scale whose decode yields a text
    that passes the uniqueness filter; earlier scales either failed to decode
    or were discarded as duplicates — a discarded duplicate does not stop the
    scale escalation. -/
theorem c5_first_undiscarded_scale (decode : Nat → ℚ → Option String) (p : Nat)
    (unique : Bool) (seen : List String) (scales : List ℚ) (code : PdfQrDecodedCode) :
    (scanPageScales decode p unique scales seen).1 = some code ↔
      (code.pageNumber = p ∧
       ∃ pre post, scales = pre ++ code.scale :: post ∧
         decode p code.scale = some code.text ∧
         (unique = true → seen.contains code.text = false) ∧
         ∀ s ∈ pre, scaleDiscarded decode p unique seen s) := by
  rcases code with ⟨cp, cs, ct⟩
  induction scales with
  | nil =>
    simp only [scanPageScales]
    constructor
    · intro h
      exact Option.noConfusion h
    · rintro ⟨_, pre, post, h, _⟩
      cases pre <;> simp_all
  | cons s rest ih =>
    simp only [scanPageScales]
    cases hd : decode p s with
    | none =>
      rw [ih]
      constructor
      · rintro ⟨hpage, pre, post, hsplit, hdec, hfilter, hpre⟩
        refine ⟨hpage, s :: pre, post, by rw [hsplit]; rfl, hdec, hfilter, ?_⟩
        intro x hx
        rcases List.mem_cons.mp hx with hx | hx
        · subst hx
          intro t ht
          rw [hd] at ht
          exact Option.noConfusion ht
        · exact hpre x hx
      · rintro ⟨hpage, pre, post, hsplit, hdec, hfilter, hpre⟩
        cases pre with
        | nil =>
          simp only [List.nil_append, List.cons.injEq] at hsplit
          obtain ⟨hs, _⟩ := hsplit
          rw [← hs, hd] at hdec
          exact Option.noConfusion hdec
        | cons q pre' =>
          simp only [List.cons_append, List.cons.injEq] at hsplit
          obtain ⟨_, hsplit'⟩ := hsplit
          exact ⟨hpage, pre', post, hsplit', hdec, hfilter,
            fun x hx => hpre x (List.mem_cons_of_mem _ hx)⟩
    | some t =>
      dsimp only
      by_cases hrec : (!unique || !seen.contains t) = true
      · rw [if_pos hrec]
        constructor
        · intro h
          have hc := Option.some.inj h
          injection hc with h1 h2 h3
          subst h1; subst h2; subst h3
          refine ⟨rfl, [], rest, rfl, hd, ?_, by simp⟩
          intro hu
          rw [hu] at hrec
          simpa using hrec
        · rintro ⟨hpage, pre, post, hsplit, hdec, hfilter, hpre⟩
          cases pre with
          | nil =>
            simp only [List.nil_append, List.cons.injEq] at hsplit
            obtain ⟨hs, _⟩ := hsplit
            rw [← hs, hd] at hdec
            have ht := Option.some.inj hdec
            subst hpage
            subst hs
            subst ht
            rfl
          | cons q pre' =>
            simp only [List.cons_append, List.cons.injEq] at hsplit
            obtain ⟨hq, _⟩ := hsplit
            have := hpre q (List.mem_cons_self _ _)
            rw [← hq] at this
            obtain ⟨hu, hcont⟩ := this t hd
            rw [hu, hcont] at hrec
            simp at hrec
      · rw [if_neg hrec]
        rw [ih]
        have hrec' : (!unique || !seen.contains t) = false := (Bool.not_eq_true _) ▸ hrec
        have hdup : unique = true ∧ seen.contains t = true := by
          have ha := (Bool.or_eq_false_iff.mp hrec').1
          have hb := (Bool.or_eq_false_iff.mp hrec').2
          constructor
          · cases hu : unique with
            | true => rfl
            | false => rw [hu] at ha; simp at ha
          · cases hc : seen.contains t with
            | true => rfl
            | false => rw [hc] at hb; simp at hb
        constructor
        · rintro ⟨hpage, pre, post, hsplit, hdec, hfilter, hpre⟩
          refine ⟨hpage, s :: pre, post, by rw [hsplit]; rfl, hdec, hfilter, ?_⟩
          intro x hx
          rcases List.mem_cons.mp hx with hx | hx
          · subst hx
            intro t' ht'
            rw [hd] at ht'
            cases Option.some.inj ht'
            exact hdup
          · exact hpre x hx
        · rintro ⟨hpage, pre, post, hsplit, hdec, hfilter, hpre⟩
          cases pre with
          | nil =>
            simp only [List.nil_append, List.cons.injEq] at hsplit
            obtain ⟨hs, _⟩ := hsplit
            rw [← hs, hd] at hdec
            have ht := Option.some.inj hdec
            rw [ht] at hdup
            rw [hfilter hdup.1] at hdup
            exact absurd hdup.2 (by simp)
          | cons q pre' =>
            simp only [List.cons_append, List.cons.injEq] at hsplit
            obtain ⟨_, hsplit'⟩ := hsplit
            exact ⟨hpage, pre', post, hsplit', hdec, hfilter,
              fun x hx => hpre x (List.mem_cons_of_mem _ hx)⟩

/-- C5 (as stated) fails: on page 2 the first scale (1.4) decodes
    successfully, but because the text `A` was already seen on page 1 the
    attempt is discarded and the loop goes on to the *higher* scale 1.8,
    recording `B` there — so a successful decode does not always end the
    scale escalation for its page, and a page whose first success is a
    duplicate still yields a detection at a higher scale. -/
theorem c5_counterexample :
    decodeQrCodesFromPdf c5decode 2 c5options =
      [{ pageNumber := 1, scale := 1, text := "A" },
       { pageNumber := 2, scale := 2, text := "B" }] ∧
    c5decode 2 (1 : ℚ) = some "A" ∧
    ¬ (∀ d ∈ decodeQrCodesFromPdf c5decode 2 c5options,
        ∀ s ∈ [(1 : ℚ), 2], s < d.scale → c5decode d.pageNumber s = none) := by
  decide

/-- C5 witness: the characterization instantiated on the duplicate scenario,
    exhibiting that page 2's recorded scale 2 is preceded only by the
    discarded duplicate at scale 1. -/
theorem c5_first_undiscarded_scale_witness :
    (2 : Nat) = 2 ∧
    ∃ pre post, [(1 : ℚ), 2] = pre ++ (2 : ℚ) :: post ∧
      c5decode 2 2 = some "B" ∧
      (true = true → (["A"] : List String).contains "B" = false) ∧
      ∀ s ∈ pre, scaleDiscarded c5decode 2 true ["A"] s :=
  (c5_first_undiscarded_scale c5decode 2 true ["A"] [1, 2]
    { pageNumber := 2, scale := 2, text := "B" }).mp (by decide)

/-- The `sum` accumulator of `applyGrouping` totals exactly the numeric
    match values. -/
theorem foldl_numeric_sum (ms : List EbmExtractedFieldMatch) : ∀ (a : ℚ),
    ms.foldl
      (fun acc m =>
        match m.value with
        | some (.vnum q) => acc + q
        | _ => acc) a = a + (ms.filterMap matchNumericValue).sum := by
  induction ms with
  | nil => intro a; simp
  | cons m rest ih =>
    intro a
    simp only [List.foldl_cons, List.filterMap_cons]
    cases hv : m.value with
    | none => simp [matchNumericValue, hv, ih a]
    | some v =>
      cases v with
      | vstr s => simp [matchNumericValue, hv, ih a]
      | vnum q =>
        simp only [matchNumericValue, hv, ih (a + q), List.sum_cons]
        ring

/-- C10: for a field grouped with `sum` whose patterns produced at least one
    match, the resolved value is the sum of the coerced match values that are
    (finite) numbers — non-numeric matches contribute nothing — and when no
    match coerces to a number the resolved value is the number `0` with raw
    string `"0"`, not an absent value. -/
theorem c10_sum_grouping (opts : EbmTemplateOptions) (config : EbmTemplateFieldConfig)
    (ms : List EbmExtractedFieldMatch)
    (hgroup : config.group = some .sum) (hne : ms ≠ []) :
    resolvedFieldValue opts config ms =
      some (.vnum (((coerceMatchValues ms opts config).filterMap matchNumericValue).sum)) ∧
    ((((coerceMatchValues ms opts config).filterMap matchNumericValue) = []) →
      (resolvedFieldValue opts config ms = some (.vnum 0) ∧
       resolvedFieldRaw opts config ms = some "0")) := by
  have hcs : coerceMatchValues ms opts config ≠ [] := by
    unfold coerceMatchValues
    cases config.ftype with
    | none => exact hne
    | some t => simp [hne]
  have hisEmpty : (coerceMatchValues ms opts config).isEmpty = false := by
    rw [List.isEmpty_eq_false]
    exact hcs
  have hfold := foldl_numeric_sum (coerceMatchValues ms opts config) 0
  rw [zero_add] at hfold
  have hval : resolvedFieldValue opts config ms =
      some (.vnum (((coerceMatchValues ms opts config).filterMap matchNumericValue).sum)) := by
    unfold resolvedFieldValue applyGrouping
    rw [hgroup]
    simp only [hisEmpty, Bool.false_eq_true, if_false, hfold]
    rfl
  refine ⟨hval, fun hzero => ⟨?_, ?_⟩⟩
  · rw [hval, hzero]
    rfl
  · unfold resolvedFieldRaw applyGrouping
    rw [hgroup]
    simp only [hisEmpty, Bool.false_eq_true, if_false, hfold, hzero]
    show some (numToString ((0 : ℚ))) = some "0"
    norm_num
    decide

/-- C10 witness: three numeric matches `[10, 20, 30]` resolve to `60`, and a
    single non-numeric match resolves to `0` with raw `"0"`. -/
theorem c10_sum_grouping_witness :
    resolvedFieldValue {} { group := some .sum }
      [{ raw := "10", normalized := "10", value := some (.vnum 10) },
       { raw := "20", normalized := "20", value := some (.vnum 20) },
       { raw := "30", normalized := "30", value := some (.vnum 30) }] = some (.vnum 60) ∧
    (resolvedFieldValue {} { group := some .sum }
      [{ raw := "N/A", normalized := "N/A", value := some (.vstr "N/A") }] = some (.vnum 0) ∧
     resolvedFieldRaw {} { group := some .sum }
      [{ raw := "N/A", normalized := "N/A", value := some (.vstr "N/A") }] = some "0") := by
  constructor
  · have h := (c10_sum_grouping {} { group := some .sum }
      [{ raw := "10", normalized := "10", value := some (.vnum 10) },
       { raw := "20", normalized := "20", value := some (.vnum 20) },
       { raw := "30", normalized := "30", value := some (.vnum 30) }] rfl (by decide)).1
    rw [h]
    decide
  · exact (c10_sum_grouping {} { group := some .sum }
      [{ raw := "N/A", normalized := "N/A", value := some (.vstr "N/A") }] rfl (by decide)).2
      (by decide)

/-- Projection lemmas for the guarded update steps of `mergeQrPayload`:
    each step only touches its own field. -/
theorem mergeTinStep_tin (u : EbmQrPayloadPatch) (m : EbmQrPayload) :
    (mergeTinStep u m).tin = if u.tin.isSome && strFalsy m.tin then u.tin else m.tin := by
  unfold mergeTinStep
  split <;> rfl

theorem mergeTinStep_buyerTin (u : EbmQrPayloadPatch) (m : EbmQrPayload) :
    (mergeTinStep u m).buyerTin = m.buyerTin := by
  unfold mergeTinStep
  split <;> rfl

theorem mergeTinStep_invoiceNumber (u : EbmQrPayloadPatch) (m : EbmQrPayload) :
    (mergeTinStep u m).invoiceNumber = m.invoiceNumber := by
  unfold mergeTinStep
  split <;> rfl

theorem mergeTinStep_issueDate (u : EbmQrPayloadPatch) (m : EbmQrPayload) :
    (mergeTinStep u m).issueDate = m.issueDate := by
  unfold mergeTinStep
  split <;> rfl

theorem mergeTinStep_totalAmount (u : EbmQrPayloadPatch) (m : EbmQrPayload) :
    (mergeTinStep u m).totalAmount = m.totalAmount := by
  unfold mergeTinStep
  split <;> rfl

theorem mergeTinStep_vatAmount (u : EbmQrPayloadPatch) (m : EbmQrPayload) :
    (mergeTinStep u m).vatAmount = m.vatAmount := by
  unfold mergeTinStep
  split <;> rfl

theorem mergeTinStep_currency (u : EbmQrPayloadPatch) (m : EbmQrPayload) :
    (mergeTinStep u m).currency = m.currency := by
  unfold mergeTinStep
  split <;> rfl

theorem mergeBuyerTinStep_tin (u : EbmQrPayloadPatch) (m : EbmQrPayload) :
    (mergeBuyerTinStep u m).tin = m.tin := by
  unfold mergeBuyerTinStep
  split <;> rfl

theorem mergeBuyerTinStep_buyerTin (u : EbmQrPayloadPatch) (m : EbmQrPayload) :
    (mergeBuyerTinStep u m).buyerTin = if u.buyerTin.isSome && strFalsy m.buyerTin then u.buyerTin else m.buyerTin := by
  unfold mergeBuyerTinStep
  split <;> rfl

theorem mergeBuyerTinStep_invoiceNumber (u : EbmQrPayloadPatch) (m : EbmQrPayload) :
    (mergeBuyerTinStep u m).invoiceNumber = m.invoiceNumber := by
  unfold mergeBuyerTinStep
  split <;> rfl

theorem mergeBuyerTinStep_issueDate (u : EbmQrPayloadPatch) (m : EbmQrPayload) :
    (mergeBuyerTinStep u m).issueDate = m.issueDate := by
  unfold mergeBuyerTinStep
  split <;> rfl

theorem mergeBuyerTinStep_totalAmount (u : EbmQrPayloadPatch) (m : EbmQrPayload) :
    (mergeBuyerTinStep u m).totalAmount = m.totalAmount := by
  unfold mergeBuyerTinStep
  split <;> rfl

theorem mergeBuyerTinStep_vatAmount (u : EbmQrPayloadPatch) (m : EbmQrPayload) :
    (mergeBuyerTinStep u m).vatAmount = m.vatAmount := by
  unfold mergeBuyerTinStep
  split <;> rfl

theorem mergeBuyerTinStep_currency (u : EbmQrPayloadPatch) (m : EbmQrPayload) :
    (mergeBuyerTinStep u m).currency = m.currency := by
  unfold mergeBuyerTinStep
  split <;> rfl

theorem mergeInvoiceNumberStep_tin (u : EbmQrPayloadPatch) (m : EbmQrPayload) :
    (mergeInvoiceNumberStep u m).tin = m.tin := by
  unfold mergeInvoiceNumberStep
  split <;> rfl

theorem mergeInvoiceNumberStep_buyerTin (u : EbmQrPayloadPatch) (m : EbmQrPayload) :
    (mergeInvoiceNumberStep u m).buyerTin = m.buyerTin := by
  unfold mergeInvoiceNumberStep
  split <;> rfl

theorem mergeInvoiceNumberStep_invoiceNumber (u : EbmQrPayloadPatch) (m : EbmQrPayload) :
    (mergeInvoiceNumberStep u m).invoiceNumber = if u.invoiceNumber.isSome && strFalsy m.invoiceNumber then u.invoiceNumber else m.invoiceNumber := by
  unfold mergeInvoiceNumberStep
  split <;> rfl

theorem mergeInvoiceNumberStep_issueDate (u : EbmQrPayloadPatch) (m : EbmQrPayload) :
    (mergeInvoiceNumberStep u m).issueDate = m.issueDate := by
  unfold mergeInvoiceNumberStep
  split <;> rfl

theorem mergeInvoiceNumberStep_totalAmount (u : EbmQrPayloadPatch) (m : EbmQrPayload) :
    (mergeInvoiceNumberStep u m).totalAmount = m.totalAmount := by
  unfold mergeInvoiceNumberStep
  split <;> rfl

theorem mergeInvoiceNumberStep_vatAmount (u : EbmQrPayloadPatch) (m : EbmQrPayload) :
    (mergeInvoiceNumberStep u m).vatAmount = m.vatAmount := by
  unfold mergeInvoiceNumberStep
  split <;> rfl

theorem mergeInvoiceNumberStep_currency (u : EbmQrPayloadPatch) (m : EbmQrPayload) :
    (mergeInvoiceNumberStep u m).currency = m.currency := by
  unfold mergeInvoiceNumberStep
  split <;> rfl

theorem mergeIssueDateStep_tin (u : EbmQrPayloadPatch) (m : EbmQrPayload) :
    (mergeIssueDateStep u m).tin = m.tin := by
  unfold mergeIssueDateStep
  split <;> rfl

theorem mergeIssueDateStep_buyerTin (u : EbmQrPayloadPatch) (m : EbmQrPayload) :
    (mergeIssueDateStep u m).buyerTin = m.buyerTin := by
  unfold mergeIssueDateStep
  split <;> rfl

theorem mergeIssueDateStep_invoiceNumber (u : EbmQrPayloadPatch) (m : EbmQrPayload) :
    (mergeIssueDateStep u m).invoiceNumber = m.invoiceNumber := by
  unfold mergeIssueDateStep
  split <;> rfl

theorem mergeIssueDateStep_issueDate (u : EbmQrPayloadPatch) (m : EbmQrPayload) :
    (mergeIssueDateStep u m).issueDate = if u.issueDate.isSome && strFalsy m.issueDate then u.issueDate else m.issueDate := by
  unfold mergeIssueDateStep
  split <;> rfl

theorem mergeIssueDateStep_totalAmount (u : EbmQrPayloadPatch) (m : EbmQrPayload) :
    (mergeIssueDateStep u m).totalAmount = m.totalAmount := by
  unfold mergeIssueDateStep
  split <;> rfl

theorem mergeIssueDateStep_vatAmount (u : EbmQrPayloadPatch) (m : EbmQrPayload) :
    (mergeIssueDateStep u m).vatAmount = m.vatAmount := by
  unfold mergeIssueDateStep
  split <;> rfl

theorem mergeIssueDateStep_currency (u : EbmQrPayloadPatch) (m : EbmQrPayload) :
    (mergeIssueDateStep u m).currency = m.currency := by
  unfold mergeIssueDateStep
  split <;> rfl

theorem mergeTotalAmountStep_tin (u : EbmQrPayloadPatch) (m : EbmQrPayload) :
    (mergeTotalAmountStep u m).tin = m.tin := by
  unfold mergeTotalAmountStep
  split <;> rfl

theorem mergeTotalAmountStep_buyerTin (u : EbmQrPayloadPatch) (m : EbmQrPayload) :
    (mergeTotalAmountStep u m).buyerTin = m.buyerTin := by
  unfold mergeTotalAmountStep
  split <;> rfl

theorem mergeTotalAmountStep_invoiceNumber (u : EbmQrPayloadPatch) (m : EbmQrPayload) :
    (mergeTotalAmountStep u m).invoiceNumber = m.invoiceNumber := by
  unfold mergeTotalAmountStep
  split <;> rfl

theorem mergeTotalAmountStep_issueDate (u : EbmQrPayloadPatch) (m : EbmQrPayload) :
    (mergeTotalAmountStep u m).issueDate = m.issueDate := by
  unfold mergeTotalAmountStep
  split <;> rfl

theorem mergeTotalAmountStep_totalAmount (u : EbmQrPayloadPatch) (m : EbmQrPayload) :
    (mergeTotalAmountStep u m).totalAmount = if u.totalAmount.isSome && m.totalAmount.isNone then u.totalAmount else m.totalAmount := by
  unfold mergeTotalAmountStep
  split <;> rfl

theorem mergeTotalAmountStep_vatAmount (u : EbmQrPayloadPatch) (m : EbmQrPayload) :
    (mergeTotalAmountStep u m).vatAmount = m.vatAmount := by
  unfold mergeTotalAmountStep
  split <;> rfl

theorem mergeTotalAmountStep_currency (u : EbmQrPayloadPatch) (m : EbmQrPayload) :
    (mergeTotalAmountStep u m).currency = m.currency := by
  unfold mergeTotalAmountStep
  split <;> rfl

theorem mergeVatAmountStep_tin (u : EbmQrPayloadPatch) (m : EbmQrPayload) :
    (mergeVatAmountStep u m).tin = m.tin := by
  unfold mergeVatAmountStep
  split <;> rfl

theorem mergeVatAmountStep_buyerTin (u : EbmQrPayloadPatch) (m : EbmQrPayload) :
    (mergeVatAmountStep u m).buyerTin = m.buyerTin := by
  unfold mergeVatAmountStep
  split <;> rfl

theorem mergeVatAmountStep_invoiceNumber (u : EbmQrPayloadPatch) (m : EbmQrPayload) :
    (mergeVatAmountStep u m).invoiceNumber = m.invoiceNumber := by
  unfold mergeVatAmountStep
  split <;> rfl

theorem mergeVatAmountStep_issueDate (u : EbmQrPayloadPatch) (m : EbmQrPayload) :
    (mergeVatAmountStep u m).issueDate = m.issueDate := by
  unfold mergeVatAmountStep
  split <;> rfl

theorem mergeVatAmountStep_totalAmount (u : EbmQrPayloadPatch) (m : EbmQrPayload) :
    (mergeVatAmountStep u m).totalAmount = m.totalAmount := by
  unfold mergeVatAmountStep
  split <;> rfl

theorem mergeVatAmountStep_vatAmount (u : EbmQrPayloadPatch) (m : EbmQrPayload) :
    (mergeVatAmountStep u m).vatAmount = if u.vatAmount.isSome && m.vatAmount.isNone then u.vatAmount else m.vatAmount := by
  unfold mergeVatAmountStep
  split <;> rfl

theorem mergeVatAmountStep_currency (u : EbmQrPayloadPatch) (m : EbmQrPayload) :
    (mergeVatAmountStep u m).currency = m.currency := by
  unfold mergeVatAmountStep
  split <;> rfl

theorem mergeCurrencyStep_tin (u : EbmQrPayloadPatch) (m : EbmQrPayload) :
    (mergeCurrencyStep u m).tin = m.tin := by
  unfold mergeCurrencyStep
  split <;> rfl

theorem mergeCurrencyStep_buyerTin (u : EbmQrPayloadPatch) (m : EbmQrPayload) :
    (mergeCurrencyStep u m).buyerTin = m.buyerTin := by
  unfold mergeCurrencyStep
  split <;> rfl

theorem mergeCurrencyStep_invoiceNumber (u : EbmQrPayloadPatch) (m : EbmQrPayload) :
    (mergeCurrencyStep u m).invoiceNumber = m.invoiceNumber := by
  unfold mergeCurrencyStep
  split <;> rfl

theorem mergeCurrencyStep_issueDate (u : EbmQrPayloadPatch) (m : EbmQrPayload) :
    (mergeCurrencyStep u m).issueDate = m.issueDate := by
  unfold mergeCurrencyStep
  split <;> rfl

theorem mergeCurrencyStep_totalAmount (u : EbmQrPayloadPatch) (m : EbmQrPayload) :
    (mergeCurrencyStep u m).totalAmount = m.totalAmount := by
  unfold mergeCurrencyStep
  split <;> rfl

theorem mergeCurrencyStep_vatAmount (u : EbmQrPayloadPatch) (m : EbmQrPayload) :
    (mergeCurrencyStep u m).vatAmount = m.vatAmount := by
  unfold mergeCurrencyStep
  split <;> rfl

theorem mergeCurrencyStep_currency (u : EbmQrPayloadPatch) (m : EbmQrPayload) :
    (mergeCurrencyStep u m).currency = if u.currency.isSome && strFalsy m.currency then u.currency else m.currency := by
  unfold mergeCurrencyStep
  split <;> rfl

theorem mergeAdditionalStep_tin (u : EbmQrPayloadPatch) (m : EbmQrPayload) :
    (mergeAdditionalStep u m).tin = m.tin := by
  unfold mergeAdditionalStep
  cases u.additional <;> rfl

theorem mergeAdditionalStep_buyerTin (u : EbmQrPayloadPatch) (m : EbmQrPayload) :
    (mergeAdditionalStep u m).buyerTin = m.buyerTin := by
  unfold mergeAdditionalStep
  cases u.additional <;> rfl

theorem mergeAdditionalStep_invoiceNumber (u : EbmQrPayloadPatch) (m : EbmQrPayload) :
    (mergeAdditionalStep u m).invoiceNumber = m.invoiceNumber := by
  unfold mergeAdditionalStep
  cases u.additional <;> rfl

theorem mergeAdditionalStep_issueDate (u : EbmQrPayloadPatch) (m : EbmQrPayload) :
    (mergeAdditionalStep u m).issueDate = m.issueDate := by
  unfold mergeAdditionalStep
  cases u.additional <;> rfl

theorem mergeAdditionalStep_totalAmount (u : EbmQrPayloadPatch) (m : EbmQrPayload) :
    (mergeAdditionalStep u m).totalAmount = m.totalAmount := by
  unfold mergeAdditionalStep
  cases u.additional <;> rfl

theorem mergeAdditionalStep_vatAmount (u : EbmQrPayloadPatch) (m : EbmQrPayload) :
    (mergeAdditionalStep u m).vatAmount = m.vatAmount := by
  unfold mergeAdditionalStep
  cases u.additional <;> rfl

theorem mergeAdditionalStep_currency (u : EbmQrPayloadPatch) (m : EbmQrPayload) :
    (mergeAdditionalStep u m).currency = m.currency := by
  unfold mergeAdditionalStep
  cases u.additional <;> rfl

theorem mergeQrPayload_tin (base : EbmQrPayload) (u : EbmQrPayloadPatch) :
    (mergeQrPayload base (some u)).tin =
      if u.tin.isSome && strFalsy base.tin then u.tin else base.tin := by
  show (mergeAdditionalStep u (mergeCurrencyStep u (mergeVatAmountStep u
      (mergeTotalAmountStep u (mergeIssueDateStep u (mergeInvoiceNumberStep u
        (mergeBuyerTinStep u (mergeTinStep u base)))))))).tin = _
  rw [mergeAdditionalStep_tin, mergeCurrencyStep_tin, mergeVatAmountStep_tin, mergeTotalAmountStep_tin, mergeIssueDateStep_tin, mergeInvoiceNumberStep_tin, mergeBuyerTinStep_tin, mergeTinStep_tin]

theorem mergeQrPayload_buyerTin (base : EbmQrPayload) (u : EbmQrPayloadPatch) :
    (mergeQrPayload base (some u)).buyerTin =
      if u.buyerTin.isSome && strFalsy base.buyerTin then u.buyerTin else base.buyerTin := by
  show (mergeAdditionalStep u (mergeCurrencyStep u (mergeVatAmountStep u
      (mergeTotalAmountStep u (mergeIssueDateStep u (mergeInvoiceNumberStep u
        (mergeBuyerTinStep u (mergeTinStep u base)))))))).buyerTin = _
  rw [mergeAdditionalStep_buyerTin, mergeCurrencyStep_buyerTin, mergeVatAmountStep_buyerTin, mergeTotalAmountStep_buyerTin, mergeIssueDateStep_buyerTin, mergeInvoiceNumberStep_buyerTin, mergeBuyerTinStep_buyerTin, mergeTinStep_buyerTin]

theorem mergeQrPayload_invoiceNumber (base : EbmQrPayload) (u : EbmQrPayloadPatch) :
    (mergeQrPayload base (some u)).invoiceNumber =
      if u.invoiceNumber.isSome && strFalsy base.invoiceNumber then u.invoiceNumber else base.invoiceNumber := by
  show (mergeAdditionalStep u (mergeCurrencyStep u (mergeVatAmountStep u
      (mergeTotalAmountStep u (mergeIssueDateStep u (mergeInvoiceNumberStep u
        (mergeBuyerTinStep u (mergeTinStep u base)))))))).invoiceNumber = _
  rw [mergeAdditionalStep_invoiceNumber, mergeCurrencyStep_invoiceNumber, mergeVatAmountStep_invoiceNumber, mergeTotalAmountStep_invoiceNumber, mergeIssueDateStep_invoiceNumber, mergeInvoiceNumberStep_invoiceNumber, mergeBuyerTinStep_invoiceNumber, mergeTinStep_invoiceNumber]

theorem mergeQrPayload_issueDate (base : EbmQrPayload) (u : EbmQrPayloadPatch) :
    (mergeQrPayload base (some u)).issueDate =
      if u.issueDate.isSome && strFalsy base.issueDate then u.issueDate else base.issueDate := by
  show (mergeAdditionalStep u (mergeCurrencyStep u (mergeVatAmountStep u
      (mergeTotalAmountStep u (mergeIssueDateStep u (mergeInvoiceNumberStep u
        (mergeBuyerTinStep u (mergeTinStep u base)))))))).issueDate = _
  rw [mergeAdditionalStep_issueDate, mergeCurrencyStep_issueDate, mergeVatAmountStep_issueDate, mergeTotalAmountStep_issueDate, mergeIssueDateStep_issueDate, mergeInvoiceNumberStep_issueDate, mergeBuyerTinStep_issueDate, mergeTinStep_issueDate]

theorem mergeQrPayload_totalAmount (base : EbmQrPayload) (u : EbmQrPayloadPatch) :
    (mergeQrPayload base (some u)).totalAmount =
      if u.totalAmount.isSome && base.totalAmount.isNone then u.totalAmount else base.totalAmount := by
  show (mergeAdditionalStep u (mergeCurrencyStep u (mergeVatAmountStep u
      (mergeTotalAmountStep u (mergeIssueDateStep u (mergeInvoiceNumberStep u
        (mergeBuyerTinStep u (mergeTinStep u base)))))))).totalAmount = _
  rw [mergeAdditionalStep_totalAmount, mergeCurrencyStep_totalAmount, mergeVatAmountStep_totalAmount, mergeTotalAmountStep_totalAmount, mergeIssueDateStep_totalAmount, mergeInvoiceNumberStep_totalAmount, mergeBuyerTinStep_totalAmount, mergeTinStep_totalAmount]

theorem mergeQrPayload_vatAmount (base : EbmQrPayload) (u : EbmQrPayloadPatch) :
    (mergeQrPayload base (some u)).vatAmount =
      if u.vatAmount.isSome && base.vatAmount.isNone then u.vatAmount else base.vatAmount := by
  show (mergeAdditionalStep u (mergeCurrencyStep u (mergeVatAmountStep u
      (mergeTotalAmountStep u (mergeIssueDateStep u (mergeInvoiceNumberStep u
        (mergeBuyerTinStep u (mergeTinStep u base)))))))).vatAmount = _
  rw [mergeAdditionalStep_vatAmount, mergeCurrencyStep_vatAmount, mergeVatAmountStep_vatAmount, mergeTotalAmountStep_vatAmount, mergeIssueDateStep_vatAmount, mergeInvoiceNumberStep_vatAmount, mergeBuyerTinStep_vatAmount, mergeTinStep_vatAmount]

theorem mergeQrPayload_currency (base : EbmQrPayload) (u : EbmQrPayloadPatch) :
    (mergeQrPayload base (some u)).currency =
      if u.currency.isSome && strFalsy base.currency then u.currency else base.currency := by
  show (mergeAdditionalStep u (mergeCurrencyStep u (mergeVatAmountStep u
      (mergeTotalAmountStep u (mergeIssueDateStep u (mergeInvoiceNumberStep u
        (mergeBuyerTinStep u (mergeTinStep u base)))))))).currency = _
  rw [mergeAdditionalStep_currency, mergeCurrencyStep_currency, mergeVatAmountStep_currency, mergeTotalAmountStep_currency, mergeIssueDateStep_currency, mergeInvoiceNumberStep_currency, mergeBuyerTinStep_currency, mergeTinStep_currency]

/-- C4: merging enrichment into a parsed QR payload never overwrites a
    canonical field already populated from the QR text (non-empty strings,
    any present amount), and a field that changed must have been empty
    (`undefined` or `""`, `undefined` for amounts) in the QR-native
    payload. -/
theorem c4_enrichment_frame (base : EbmQrPayload) (u : EbmQrPayloadPatch) :
    ((∀ s, base.tin = some s → s ≠ "" → (mergeQrPayload base (some u)).tin = some s) ∧
     (∀ s, base.buyerTin = some s → s ≠ "" → (mergeQrPayload base (some u)).buyerTin = some s) ∧
     (∀ s, base.invoiceNumber = some s → s ≠ "" →
        (mergeQrPayload base (some u)).invoiceNumber = some s) ∧
     (∀ s, base.issueDate = some s → s ≠ "" → (mergeQrPayload base (some u)).issueDate = some s) ∧
     (∀ q, base.totalAmount = some q → (mergeQrPayload base (some u)).totalAmount = some q) ∧
     (∀ q, base.vatAmount = some q → (mergeQrPayload base (some u)).vatAmount = some q) ∧
     (∀ s, base.currency = some s → s ≠ "" → (mergeQrPayload base (some u)).currency = some s)) ∧
    (((mergeQrPayload base (some u)).tin ≠ base.tin → strFalsy base.tin = true) ∧
     ((mergeQrPayload base (some u)).buyerTin ≠ base.buyerTin → strFalsy base.buyerTin = true) ∧
     ((mergeQrPayload base (some u)).invoiceNumber ≠ base.invoiceNumber →
        strFalsy base.invoiceNumber = true) ∧
     ((mergeQrPayload base (some u)).issueDate ≠ base.issueDate →
        strFalsy base.issueDate = true) ∧
     ((mergeQrPayload base (some u)).totalAmount ≠ base.totalAmount →
        base.totalAmount = none) ∧
     ((mergeQrPayload base (some u)).vatAmount ≠ base.vatAmount → base.vatAmount = none) ∧
     ((mergeQrPayload base (some u)).currency ≠ base.currency →
        strFalsy base.currency = true)) := by
  have htin := mergeQrPayload_tin base u
  have hbuyer := mergeQrPayload_buyerTin base u
  have hinv := mergeQrPayload_invoiceNumber base u
  have hdate := mergeQrPayload_issueDate base u
  have htot := mergeQrPayload_totalAmount base u
  have hvat := mergeQrPayload_vatAmount base u
  have hcur := mergeQrPayload_currency base u
  constructor
  · refine ⟨?_, ?_, ?_, ?_, ?_, ?_, ?_⟩
    · intro s hs hne
      rw [htin, hs]
      simp [strFalsy, hne]
    · intro s hs hne
      rw [hbuyer, hs]
      simp [strFalsy, hne]
    · intro s hs hne
      rw [hinv, hs]
      simp [strFalsy, hne]
    · intro s hs hne
      rw [hdate, hs]
      simp [strFalsy, hne]
    · intro q hq
      rw [htot, hq]
      simp
    · intro q hq
      rw [hvat, hq]
      simp
    · intro s hs hne
      rw [hcur, hs]
      simp [strFalsy, hne]
  · refine ⟨?_, ?_, ?_, ?_, ?_, ?_, ?_⟩
    · intro hchanged
      rw [htin] at hchanged
      by_cases hg : (u.tin.isSome && strFalsy base.tin) = true
      · exact (Bool.and_eq_true .. ▸ hg).2
      · rw [if_neg hg] at hchanged
        exact absurd rfl hchanged
    · intro hchanged
      rw [hbuyer] at hchanged
      by_cases hg : (u.buyerTin.isSome && strFalsy base.buyerTin) = true
      · exact (Bool.and_eq_true .. ▸ hg).2
      · rw [if_neg hg] at hchanged
        exact absurd rfl hchanged
    · intro hchanged
      rw [hinv] at hchanged
      by_cases hg : (u.invoiceNumber.isSome && strFalsy base.invoiceNumber) = true
      · exact (Bool.and_eq_true .. ▸ hg).2
      · rw [if_neg hg] at hchanged
        exact absurd rfl hchanged
    · intro hchanged
      rw [hdate] at hchanged
      by_cases hg : (u.issueDate.isSome && strFalsy base.issueDate) = true
      · exact (Bool.and_eq_true .. ▸ hg).2
      · rw [if_neg hg] at hchanged
        exact absurd rfl hchanged
    · intro hchanged
      rw [htot] at hchanged
      by_cases hg : (u.totalAmount.isSome && base.totalAmount.isNone) = true
      · exact Option.isNone_iff_eq_none.mp (Bool.and_eq_true .. ▸ hg).2
      · rw [if_neg hg] at hchanged
        exact absurd rfl hchanged
    · intro hchanged
      rw [hvat] at hchanged
      by_cases hg : (u.vatAmount.isSome && base.vatAmount.isNone) = true
      · exact Option.isNone_iff_eq_none.mp (Bool.and_eq_true .. ▸ hg).2
      · rw [if_neg hg] at hchanged
        exact absurd rfl hchanged
    · intro hchanged
      rw [hcur] at hchanged
      by_cases hg : (u.currency.isSome && strFalsy base.currency) = true
      · exact (Bool.and_eq_true .. ▸ hg).2
      · rw [if_neg hg] at hchanged
        exact absurd rfl hchanged

/-- C4 witness: a payload populated from QR text keeps its TIN, total and
    currency; enrichment fills only the empty buyer TIN. -/
theorem c4_enrichment_frame_witness :
    (mergeQrPayload { raw := "r", tin := some "123456789", totalAmount := some 5000 }
      (some { tin := some "999", buyerTin := some "111", totalAmount := some 1 })).tin =
        some "123456789" ∧
    (mergeQrPayload { raw := "r", tin := some "123456789", totalAmount := some 5000 }
      (some { tin := some "999", buyerTin := some "111", totalAmount := some 1 })).totalAmount =
        some 5000 := by
  constructor
  · exact ((c4_enrichment_frame
      { raw := "r", tin := some "123456789", totalAmount := some 5000 }
      { tin := some "999", buyerTin := some "111", totalAmount := some 1 }).1.1
      "123456789" rfl (by decide))
  · exact ((c4_enrichment_frame
      { raw := "r", tin := some "123456789", totalAmount := some 5000 }
      { tin := some "999", buyerTin := some "111", totalAmount := some 1 }).1.2.2.2.2.1
      5000 rfl)

/-- C2: for amount fields (`totalAmount`/`vatAmount`) whose two sides both
    parse as numbers `a` and `b`, the comparison is `match` iff
    `|a − b| ≤ 1` (the fixed tolerance) and `mismatch` iff `|a − b| > 1`;
    in particular QR total 1000 against text total 1000.6 is a `match`. -/
theorem c2_amount_tolerance :
    (∀ (fieldName : String) (qrKey : QrKey) (qrValue : Option JsValue)
       (textField : Option EbmExtractedField) (qrSource : Option PdfQrDecodedCode)
       (a b : ℚ),
      (qrKey = .totalAmount ∨ qrKey = .vatAmount) →
      toNumberValue qrValue = some a →
      toNumberValue (textFieldValue textField) = some b →
      (((buildComparison fieldName qrKey qrValue textField qrSource).status = .match_ ↔
          |a - b| ≤ 1) ∧
       ((buildComparison fieldName qrKey qrValue textField qrSource).status = .mismatch ↔
          1 < |a - b|))) ∧
    (buildComparison "total" .totalAmount (some (.vnum 1000))
      (some { field := "total", value := some (.vnum (1000.6 : ℚ)) }) none).status = .match_ := by
  constructor
  · intro fieldName qrKey qrValue textField qrSource a b hkey hqa hqb
    rcases qrValue with _ | qv
    · simp [toNumberValue] at hqa
    rcases htv : textFieldValue textField with _ | tv
    · rw [htv] at hqb
      simp [toNumberValue] at hqb
    rw [htv] at hqb
    have htvne : ¬ (tv = .vstr "") := by
      intro he
      rw [he] at hqb
      simp [toNumberValue, parseAmount] at hqb
    unfold buildComparison
    rw [htv]
    dsimp only
    rw [if_neg htvne]
    rcases hkey with rfl | rfl
    · dsimp only
      rw [hqa, hqb]
      dsimp only [NUMERIC_TOLERANCE, Option.getD]
      by_cases hle : |a - b| ≤ 1
      · rw [if_pos hle]
        exact ⟨by simp [hle], by simp [not_lt.mpr hle, hle]⟩
      · rw [if_neg hle]
        exact ⟨by simp [hle], by simp [not_le.mp hle]⟩
    · dsimp only
      rw [hqa, hqb]
      dsimp only [NUMERIC_TOLERANCE, Option.getD]
      by_cases hle : |a - b| ≤ 1
      · rw [if_pos hle]
        exact ⟨by simp [hle], by simp [not_lt.mpr hle, hle]⟩
      · rw [if_neg hle]
        exact ⟨by simp [hle], by simp [not_le.mp hle]⟩
  · decide

/-- C2 witness: the tolerance characterization applied at QR 1000 and text
    1000.6. -/
theorem c2_amount_tolerance_witness :
    (buildComparison "total" .totalAmount (some (.vnum 1000))
      (some { field := "total", value := some (.vnum (1000.6 : ℚ)) }) none).status = .match_ :=
  ((c2_amount_tolerance.1 "total" .totalAmount (some (.vnum 1000))
      (some { field := "total", value := some (.vnum (1000.6 : ℚ)) }) none
      1000 1000.6 (Or.inl rfl) rfl rfl).1).mpr (by decide)

/-! Per-key alignment of `buildComparison` with the amended claim C1
    classification. -/
theorem c1CaseTin (fieldName : String)
    (qrValue : Option JsValue) (textField : Option EbmExtractedField)
    (qrSource : Option PdfQrDecodedCode) :
    (buildComparison fieldName .tin qrValue textField qrSource).status =
      claimStatusAmended .tin qrValue textField := by
  rcases qrValue with _ | qv <;> rcases htv : textFieldValue textField with _ | tv
  · simp [buildComparison, claimStatusAmended, qrSideHasValue, textSideHasValue, htv]
  · by_cases he : tv = .vstr ""
    · subst he
      simp [buildComparison, claimStatusAmended, qrSideHasValue, textSideHasValue, htv]
    · simp only [buildComparison, claimStatusAmended, qrSideHasValue, textSideHasValue, htv]
      rcases tv with s | q
      · have hs : s ≠ "" := fun h => he (by rw [h])
        simp [hs, he]
      · simp
  · simp [buildComparison, claimStatusAmended, qrSideHasValue, textSideHasValue, htv]
  · have hts : (match textFieldValue textField with
        | none => false
        | some (.vstr s) => s ≠ ""
        | some (.vnum _) => true) = true ∨ tv = .vstr "" := by
      rw [htv]
      rcases tv with s | q
      · by_cases hs : s = ""
        · exact Or.inr (by rw [hs])
        · exact Or.inl (by simp [hs])
      · exact Or.inl rfl
    by_cases he : tv = .vstr ""
    · subst he
      simp [buildComparison, claimStatusAmended, qrSideHasValue, textSideHasValue, htv]
    · have hts' : textSideHasValue textField = true := by
        unfold textSideHasValue
        rcases hts with h | h
        · exact h
        · exact absurd h he
      unfold buildComparison claimStatusAmended
      rw [htv, hts']
      simp only [qrSideHasValue, Option.isSome]
      rw [if_neg he]
      rcases hq : normalizeTin (jsValueToString qv) with _ | a <;>
        rcases ht2 : normalizeTin (jsValueToString tv) with _ | b <;>
          simp [comparatorAgrees, hq, ht2, NUMERIC_TOLERANCE, Option.getD]
      by_cases hab : a = b <;> simp [hab]

theorem c1CaseBuyerTin (fieldName : String)
    (qrValue : Option JsValue) (textField : Option EbmExtractedField)
    (qrSource : Option PdfQrDecodedCode) :
    (buildComparison fieldName .buyerTin qrValue textField qrSource).status =
      claimStatusAmended .buyerTin qrValue textField := by
  rcases qrValue with _ | qv <;> rcases htv : textFieldValue textField with _ | tv
  · simp [buildComparison, claimStatusAmended, qrSideHasValue, textSideHasValue, htv]
  · by_cases he : tv = .vstr ""
    · subst he
      simp [buildComparison, claimStatusAmended, qrSideHasValue, textSideHasValue, htv]
    · simp only [buildComparison, claimStatusAmended, qrSideHasValue, textSideHasValue, htv]
      rcases tv with s | q
      · have hs : s ≠ "" := fun h => he (by rw [h])
        simp [hs, he]
      · simp
  · simp [buildComparison, claimStatusAmended, qrSideHasValue, textSideHasValue, htv]
  · have hts : (match textFieldValue textField with
        | none => false
        | some (.vstr s) => s ≠ ""
        | some (.vnum _) => true) = true ∨ tv = .vstr "" := by
      rw [htv]
      rcases tv with s | q
      · by_cases hs : s = ""
        · exact Or.inr (by rw [hs])
        · exact Or.inl (by simp [hs])
      · exact Or.inl rfl
    by_cases he : tv = .vstr ""
    · subst he
      simp [buildComparison, claimStatusAmended, qrSideHasValue, textSideHasValue, htv]
    · have hts' : textSideHasValue textField = true := by
        unfold textSideHasValue
        rcases hts with h | h
        · exact h
        · exact absurd h he
      unfold buildComparison claimStatusAmended
      rw [htv, hts']
      simp only [qrSideHasValue, Option.isSome]
      rw [if_neg he]
      rcases hq : normalizeTin (jsValueToString qv) with _ | a <;>
        rcases ht2 : normalizeTin (jsValueToString tv) with _ | b <;>
          simp [comparatorAgrees, hq, ht2, NUMERIC_TOLERANCE, Option.getD]
      by_cases hab : a = b <;> simp [hab]

theorem c1CaseInvoiceNumber (fieldName : String)
    (qrValue : Option JsValue) (textField : Option EbmExtractedField)
    (qrSource : Option PdfQrDecodedCode) :
    (buildComparison fieldName .invoiceNumber qrValue textField qrSource).status =
      claimStatusAmended .invoiceNumber qrValue textField := by
  rcases qrValue with _ | qv <;> rcases htv : textFieldValue textField with _ | tv
  · simp [buildComparison, claimStatusAmended, qrSideHasValue, textSideHasValue, htv]
  · by_cases he : tv = .vstr ""
    · subst he
      simp [buildComparison, claimStatusAmended, qrSideHasValue, textSideHasValue, htv]
    · simp only [buildComparison, claimStatusAmended, qrSideHasValue, textSideHasValue, htv]
      rcases tv with s | q
      · have hs : s ≠ "" := fun h => he (by rw [h])
        simp [hs, he]
      · simp
  · simp [buildComparison, claimStatusAmended, qrSideHasValue, textSideHasValue, htv]
  · have hts : (match textFieldValue textField with
        | none => false
        | some (.vstr s) => s ≠ ""
        | some (.vnum _) => true) = true ∨ tv = .vstr "" := by
      rw [htv]
      rcases tv with s | q
      · by_cases hs : s = ""
        · exact Or.inr (by rw [hs])
        · exact Or.inl (by simp [hs])
      · exact Or.inl rfl
    by_cases he : tv = .vstr ""
    · subst he
      simp [buildComparison, claimStatusAmended, qrSideHasValue, textSideHasValue, htv]
    · have hts' : textSideHasValue textField = true := by
        unfold textSideHasValue
        rcases hts with h | h
        · exact h
        · exact absurd h he
      unfold buildComparison claimStatusAmended
      rw [htv, hts']
      simp only [qrSideHasValue, Option.isSome]
      rw [if_neg he]
      rcases hq : normalizeInvoiceNumber (some qv) with _ | a <;>
        rcases ht2 : normalizeInvoiceNumber (some tv) with _ | b <;>
          simp [comparatorAgrees, hq, ht2, NUMERIC_TOLERANCE, Option.getD]
      by_cases hab : a = b <;> simp [hab]

theorem c1CaseIssueDate (fieldName : String)
    (qrValue : Option JsValue) (textField : Option EbmExtractedField)
    (qrSource : Option PdfQrDecodedCode) :
    (buildComparison fieldName .issueDate qrValue textField qrSource).status =
      claimStatusAmended .issueDate qrValue textField := by
  rcases qrValue with _ | qv <;> rcases htv : textFieldValue textField with _ | tv
  · simp [buildComparison, claimStatusAmended, qrSideHasValue, textSideHasValue, htv]
  · by_cases he : tv = .vstr ""
    · subst he
      simp [buildComparison, claimStatusAmended, qrSideHasValue, textSideHasValue, htv]
    · simp only [buildComparison, claimStatusAmended, qrSideHasValue, textSideHasValue, htv]
      rcases tv with s | q
      · have hs : s ≠ "" := fun h => he (by rw [h])
        simp [hs, he]
      · simp
  · simp [buildComparison, claimStatusAmended, qrSideHasValue, textSideHasValue, htv]
  · have hts : (match textFieldValue textField with
        | none => false
        | some (.vstr s) => s ≠ ""
        | some (.vnum _) => true) = true ∨ tv = .vstr "" := by
      rw [htv]
      rcases tv with s | q
      · by_cases hs : s = ""
        · exact Or.inr (by rw [hs])
        · exact Or.inl (by simp [hs])
      · exact Or.inl rfl
    by_cases he : tv = .vstr ""
    · subst he
      simp [buildComparison, claimStatusAmended, qrSideHasValue, textSideHasValue, htv]
    · have hts' : textSideHasValue textField = true := by
        unfold textSideHasValue
        rcases hts with h | h
        · exact h
        · exact absurd h he
      unfold buildComparison claimStatusAmended
      rw [htv, hts']
      simp only [qrSideHasValue, Option.isSome]
      rw [if_neg he]
      rcases hq : toDateString (some qv) with _ | a <;>
        rcases ht2 : toDateString (some tv) with _ | b <;>
          simp [comparatorAgrees, hq, ht2, NUMERIC_TOLERANCE, Option.getD]
      by_cases hab : a = b <;> simp [hab]

theorem c1CaseTotalAmount (fieldName : String)
    (qrValue : Option JsValue) (textField : Option EbmExtractedField)
    (qrSource : Option PdfQrDecodedCode) :
    (buildComparison fieldName .totalAmount qrValue textField qrSource).status =
      claimStatusAmended .totalAmount qrValue textField := by
  rcases qrValue with _ | qv <;> rcases htv : textFieldValue textField with _ | tv
  · simp [buildComparison, claimStatusAmended, qrSideHasValue, textSideHasValue, htv]
  · by_cases he : tv = .vstr ""
    · subst he
      simp [buildComparison, claimStatusAmended, qrSideHasValue, textSideHasValue, htv]
    · simp only [buildComparison, claimStatusAmended, qrSideHasValue, textSideHasValue, htv]
      rcases tv with s | q
      · have hs : s ≠ "" := fun h => he (by rw [h])
        simp [hs, he]
      · simp
  · simp [buildComparison, claimStatusAmended, qrSideHasValue, textSideHasValue, htv]
  · have hts : (match textFieldValue textField with
        | none => false
        | some (.vstr s) => s ≠ ""
        | some (.vnum _) => true) = true ∨ tv = .vstr "" := by
      rw [htv]
      rcases tv with s | q
      · by_cases hs : s = ""
        · exact Or.inr (by rw [hs])
        · exact Or.inl (by simp [hs])
      · exact Or.inl rfl
    by_cases he : tv = .vstr ""
    · subst he
      simp [buildComparison, claimStatusAmended, qrSideHasValue, textSideHasValue, htv]
    · have hts' : textSideHasValue textField = true := by
        unfold textSideHasValue
        rcases hts with h | h
        · exact h
        · exact absurd h he
      unfold buildComparison claimStatusAmended
      rw [htv, hts']
      simp only [qrSideHasValue, Option.isSome]
      rw [if_neg he]
      rcases hq : toNumberValue (some qv) with _ | a <;>
        rcases ht2 : toNumberValue (some tv) with _ | b <;>
          simp [comparatorAgrees, hq, ht2, NUMERIC_TOLERANCE, Option.getD]
      by_cases hab : |a - b| ≤ (1 : ℚ) <;> simp [hab]

theorem c1CaseVatAmount (fieldName : String)
    (qrValue : Option JsValue) (textField : Option EbmExtractedField)
    (qrSource : Option PdfQrDecodedCode) :
    (buildComparison fieldName .vatAmount qrValue textField qrSource).status =
      claimStatusAmended .vatAmount qrValue textField := by
  rcases qrValue with _ | qv <;> rcases htv : textFieldValue textField with _ | tv
  · simp [buildComparison, claimStatusAmended, qrSideHasValue, textSideHasValue, htv]
  · by_cases he : tv = .vstr ""
    · subst he
      simp [buildComparison, claimStatusAmended, qrSideHasValue, textSideHasValue, htv]
    · simp only [buildComparison, claimStatusAmended, qrSideHasValue, textSideHasValue, htv]
      rcases tv with s | q
      · have hs : s ≠ "" := fun h => he (by rw [h])
        simp [hs, he]
      · simp
  · simp [buildComparison, claimStatusAmended, qrSideHasValue, textSideHasValue, htv]
  · have hts : (match textFieldValue textField with
        | none => false
        | some (.vstr s) => s ≠ ""
        | some (.vnum _) => true) = true ∨ tv = .vstr "" := by
      rw [htv]
      rcases tv with s | q
      · by_cases hs : s = ""
        · exact Or.inr (by rw [hs])
        · exact Or.inl (by simp [hs])
      · exact Or.inl rfl
    by_cases he : tv = .vstr ""
    · subst he
      simp [buildComparison, claimStatusAmended, qrSideHasValue, textSideHasValue, htv]
    · have hts' : textSideHasValue textField = true := by
        unfold textSideHasValue
        rcases hts with h | h
        · exact h
        · exact absurd h he
      unfold buildComparison claimStatusAmended
      rw [htv, hts']
      simp only [qrSideHasValue, Option.isSome]
      rw [if_neg he]
      rcases hq : toNumberValue (some qv) with _ | a <;>
        rcases ht2 : toNumberValue (some tv) with _ | b <;>
          simp [comparatorAgrees, hq, ht2, NUMERIC_TOLERANCE, Option.getD]
      by_cases hab : |a - b| ≤ (1 : ℚ) <;> simp [hab]

theorem c1CaseCurrency (fieldName : String)
    (qrValue : Option JsValue) (textField : Option EbmExtractedField)
    (qrSource : Option PdfQrDecodedCode) :
    (buildComparison fieldName .currency qrValue textField qrSource).status =
      claimStatusAmended .currency qrValue textField := by
  rcases qrValue with _ | qv <;> rcases htv : textFieldValue textField with _ | tv
  · simp [buildComparison, claimStatusAmended, qrSideHasValue, textSideHasValue, htv]
  · by_cases he : tv = .vstr ""
    · subst he
      simp [buildComparison, claimStatusAmended, qrSideHasValue, textSideHasValue, htv]
    · simp only [buildComparison, claimStatusAmended, qrSideHasValue, textSideHasValue, htv]
      rcases tv with s | q
      · have hs : s ≠ "" := fun h => he (by rw [h])
        simp [hs, he]
      · simp
  · simp [buildComparison, claimStatusAmended, qrSideHasValue, textSideHasValue, htv]
  · have hts : (match textFieldValue textField with
        | none => false
        | some (.vstr s) => s ≠ ""
        | some (.vnum _) => true) = true ∨ tv = .vstr "" := by
      rw [htv]
      rcases tv with s | q
      · by_cases hs : s = ""
        · exact Or.inr (by rw [hs])
        · exact Or.inl (by simp [hs])
      · exact Or.inl rfl
    by_cases he : tv = .vstr ""
    · subst he
      simp [buildComparison, claimStatusAmended, qrSideHasValue, textSideHasValue, htv]
    · have hts' : textSideHasValue textField = true := by
        unfold textSideHasValue
        rcases hts with h | h
        · exact h
        · exact absurd h he
      unfold buildComparison claimStatusAmended
      rw [htv, hts']
      simp only [qrSideHasValue, Option.isSome]
      rw [if_neg he]
      rcases hq : normalizeCurrency (some qv) with _ | a <;>
        rcases ht2 : normalizeCurrency (some tv) with _ | b <;>
          simp [comparatorAgrees, hq, ht2, NUMERIC_TOLERANCE, Option.getD]
      by_cases hab : a = b <;> simp [hab]

/-- C1 (as stated) fails: for an amount field with both sides present but
    the text side not parseable as a number (QR total 5000 against extracted
    raw text `N/A`), the source reports `missing`, while the claim's
    classification — both sides have values, the comparator disagrees —
    demands `mismatch`. -/
theorem c1_counterexample :
    qrSideHasValue (some (.vnum 5000)) = true ∧
    textSideHasValue (some { field := "total", value := none, raw := some "N/A" }) = true ∧
    (buildComparison "total" .totalAmount (some (.vnum 5000))
      (some { field := "total", value := none, raw := some "N/A" }) none).status = .missing ∧
    claimStatus .totalAmount (some (.vnum 5000))
      (some { field := "total", value := none, raw := some "N/A" }) = .mismatch := by
  decide

/-- C1 amended: for every canonical payload key, the comparison status is
    `unverified` when neither side has a value, `missing` when exactly one
    side has a value, and — both sides present — `match`/`mismatch` as the
    field-type comparator decides, except that an amount comparison whose
    present sides do not both parse as numbers is reported `missing`. -/
theorem c1_status_characterization (fieldName : String) (qrKey : QrKey)
    (qrValue : Option JsValue) (textField : Option EbmExtractedField)
    (qrSource : Option PdfQrDecodedCode) (hkey : qrKey ∈ CANONICAL_QR_KEYS) :
    (buildComparison fieldName qrKey qrValue textField qrSource).status =
      claimStatusAmended qrKey qrValue textField := by
  fin_cases hkey
  · exact c1CaseTin fieldName qrValue textField qrSource
  · exact c1CaseBuyerTin fieldName qrValue textField qrSource
  · exact c1CaseInvoiceNumber fieldName qrValue textField qrSource
  · exact c1CaseIssueDate fieldName qrValue textField qrSource
  · exact c1CaseTotalAmount fieldName qrValue textField qrSource
  · exact c1CaseVatAmount fieldName qrValue textField qrSource
  · exact c1CaseCurrency fieldName qrValue textField qrSource

/-- C1 witness: the characterization applied to a TIN comparison with both
    sides present and agreeing after digit stripping. -/
theorem c1_status_characterization_witness :
    (buildComparison "tin" .tin (some (.vstr "123-456-789"))
      (some { field := "tin", value := some (.vstr "123456789") }) none).status =
      claimStatusAmended .tin (some (.vstr "123-456-789"))
        (some { field := "tin", value := some (.vstr "123456789") }) :=
  c1_status_characterization "tin" .tin (some (.vstr "123-456-789"))
    (some { field := "tin", value := some (.vstr "123456789") }) none (by decide)

/-- C6: when the file is a PDF and QR decoding succeeds with zero
    detections, the validation outcome has an empty `qrDetections` list, its
    errors contain the "No QR codes detected" entry, and the text extraction
    computed from the matched template is still returned unchanged. -/
theorem c6_no_qr_partial_result (file : EbmFileReference)
    (snapshot : Option EbmTextSnapshot)
    (selectTemplate : EbmTextSnapshot → Option EbmTemplate)
    (extractText : EbmTemplate → EbmTextSnapshot → EbmTextExtraction)
    (enrich : EbmQrPayload → Option EbmQrPayloadPatch)
    (hpdf : jsToLower file.fileExtension = "pdf") :
    (validateEbmInvoice file snapshot selectTemplate extractText (.ok []) enrich).result.qrDetections = [] ∧
    (∃ errs, (validateEbmInvoice file snapshot selectTemplate extractText (.ok []) enrich).result.errors = some errs ∧
      "No QR codes detected in the invoice." ∈ errs) ∧
    (validateEbmInvoice file snapshot selectTemplate extractText (.ok []) enrich).extraction =
      (match snapshot, snapshot.bind selectTemplate with
       | some s, some t => some (extractText t s)
       | _, _ => none) := by
  unfold validateEbmInvoice
  rw [hpdf]
  simp only [ne_eq, not_true_eq_false, if_false, reduceIte, List.head?_nil]
  generalize (if (snapshot.isSome && (snapshot.bind selectTemplate).isNone) = true then
      (if snapshot.isNone = true then [] ++ ["Failed to load invoice text snapshot."] else []) ++
        ["No EBM template matched the invoice text."]
    else if snapshot.isNone = true then [] ++ ["Failed to load invoice text snapshot."] else []) = e0
  refine ⟨rfl, ⟨e0 ++ ["No QR codes detected in the invoice."], ?_, ?_⟩, trivial⟩
  · have h : ((e0 ++ ["No QR codes detected in the invoice."]).isEmpty) = false := by
      simp
    rw [h]
    rfl
  · exact List.mem_append_right _ (by simp)

/-- C6 witness: a loaded snapshot, a matching template, a successful
    extraction, and zero QR detections. -/
theorem c6_no_qr_partial_result_witness :
    (validateEbmInvoice c6File (some c6Snapshot) c6Select c6Extract
        (.ok []) (fun _ => none)).result.qrDetections = [] ∧
    (∃ errs, (validateEbmInvoice c6File (some c6Snapshot) c6Select c6Extract
        (.ok []) (fun _ => none)).result.errors = some errs ∧
      "No QR codes detected in the invoice." ∈ errs) ∧
    (validateEbmInvoice c6File (some c6Snapshot) c6Select c6Extract
        (.ok []) (fun _ => none)).extraction =
      (match some c6Snapshot, (some c6Snapshot).bind c6Select with
       | some s, some t => some (c6Extract t s)
       | _, _ => none) :=
  c6_no_qr_partial_result c6File (some c6Snapshot) c6Select c6Extract (fun _ => none) rfl

/-! Character-safety consequences used by the round-trip development. -/

theorem safeValueChar_ranges (c : Char) (h : safeValueChar c = true) :
    (48 ≤ c.toNat ∧ c.toNat ≤ 57) ∨ (65 ≤ c.toNat ∧ c.toNat ≤ 90) ∨
    (97 ≤ c.toNat ∧ c.toNat ≤ 122) ∨ c.toNat = 45 ∨ c.toNat = 95 ∨ c.toNat = 46 := by
  unfold safeValueChar at h
  simp only [Bool.or_eq_true, Bool.and_eq_true, decide_eq_true_eq] at h
  tauto

theorem safe_not_ws (c : Char) (h : safeValueChar c = true) : isJsWhitespace c = false := by
  have hr := safeValueChar_ranges c h
  unfold isJsWhitespace
  simp only [Bool.or_eq_false_iff, Bool.and_eq_false_iff, decide_eq_false_iff_not, not_le]
  omega

theorem safe_ne (c : Char) (h : safeValueChar c = true) (d : Char)
    (hd : (48 ≤ d.toNat ∧ d.toNat ≤ 57) ∨ (65 ≤ d.toNat ∧ d.toNat ≤ 90) ∨
      (97 ≤ d.toNat ∧ d.toNat ≤ 122) ∨ d.toNat = 45 ∨ d.toNat = 95 ∨ d.toNat = 46 → False) :
    (c == d) = false := by
  have hr := safeValueChar_ranges c h
  rw [beq_eq_false_iff_ne]
  intro he
  subst he
  exact hd hr

theorem safe_ge_space (c : Char) (h : safeValueChar c = true) : ¬ c.toNat < 0x20 := by
  have hr := safeValueChar_ranges c h
  omega

/-! Generic list facts. -/

theorem dropWhile_eq_self_of {α : Type} (p : α → Bool) (l : List α)
    (h : ∀ c ∈ l, p c = false) : l.dropWhile p = l := by
  cases l with
  | nil => rfl
  | cons c t =>
    rw [List.dropWhile_cons]
    simp [h c (List.mem_cons_self c t)]

theorem jsTrimList_fixed (l : List Char) (h : ∀ c ∈ l, isJsWhitespace c = false) :
    jsTrimList l = l := by
  unfold jsTrimList
  rw [dropWhile_eq_self_of _ _ h]
  rw [dropWhile_eq_self_of _ _ (fun c hc => h c (List.mem_reverse.mp hc))]
  exact List.reverse_reverse l

theorem jsTrim_fixed (s : String) (h : ∀ c ∈ s.toList, isJsWhitespace c = false) :
    jsTrim s = s := by
  unfold jsTrim
  rw [jsTrimList_fixed s.toList h]
  exact String.asString_toList s

theorem findIdxQ_none_aux {α : Type} (p : α → Bool) (l : List α)
    (h : ∀ c ∈ l, p c = false) : ∀ i, List.findIdx? p l i = none := by
  induction l with
  | nil => intro i; rfl
  | cons c t ih =>
    intro i
    show (if p c = true then some i else List.findIdx? p t (i + 1)) = none
    rw [h c (List.mem_cons_self c t)]
    simp only [Bool.false_eq_true, if_false]
    exact ih (fun x hx => h x (List.mem_cons_of_mem _ hx)) (i + 1)

theorem findIdxQ_none {α : Type} (p : α → Bool) (l : List α)
    (h : ∀ c ∈ l, p c = false) : l.findIdx? p = none :=
  findIdxQ_none_aux p l h 0

theorem findIdxQ_append_aux {α : Type} (p : α → Bool) (a : List α) (b0 : α) (b : List α)
    (ha : ∀ c ∈ a, p c = false) (hb : p b0 = true) :
    ∀ i, List.findIdx? p (a ++ b0 :: b) i = some (i + a.length) := by
  induction a with
  | nil =>
    intro i
    show (if p b0 = true then some i else List.findIdx? p b (i + 1)) = some (i + 0)
    rw [hb]
    simp
  | cons c t ih =>
    intro i
    show (if p c = true then some i else List.findIdx? p (t ++ b0 :: b) (i + 1)) =
      some (i + (c :: t).length)
    rw [ha c (List.mem_cons_self c t)]
    simp only [Bool.false_eq_true, if_false]
    rw [ih (fun x hx => ha x (List.mem_cons_of_mem _ hx)) (i + 1)]
    simp only [List.length_cons]
    congr 1
    omega

theorem findIdxQ_append {α : Type} (p : α → Bool) (a : List α) (b0 : α) (b : List α)
    (ha : ∀ c ∈ a, p c = false) (hb : p b0 = true) :
    (a ++ b0 :: b).findIdx? p = some a.length := by
  have := findIdxQ_append_aux p a b0 b ha hb 0
  simpa using this

theorem startsWith_subset (l n : List Char) (h : startsWithList l n = true) :
    ∀ c ∈ n, c ∈ l := by
  induction n generalizing l with
  | nil => intro c hc; exact absurd hc (List.not_mem_nil c)
  | cons n0 nt ih =>
    cases l with
    | nil => exact absurd h (by simp [startsWithList])
    | cons c0 t =>
      unfold startsWithList at h
      obtain ⟨h1, h2⟩ := Bool.and_eq_true _ _ ▸ h
      intro c hc
      rcases List.mem_cons.mp hc with hc | hc
      · subst hc
        have : c0 = c := eq_of_beq h1
        rw [← this]
        exact List.mem_cons_self _ _
      · exact List.mem_cons_of_mem _ (ih t h2 c hc)

theorem contains_subset (l n : List Char) (h : containsList l n = true) :
    ∀ c ∈ n, c ∈ l := by
  induction l with
  | nil =>
    unfold containsList at h
    by_cases hs : startsWithList [] n = true
    · exact startsWith_subset [] n hs
    · rw [if_neg hs] at h
      exact absurd h (by simp)
  | cons c0 t ih =>
    unfold containsList at h
    by_cases hs : startsWithList (c0 :: t) n = true
    · exact startsWith_subset _ n hs
    · rw [if_neg hs] at h
      intro c hc
      exact List.mem_cons_of_mem _ (ih h c hc)

theorem includes_false_of_missing (s needle : String) (c : Char)
    (hc : c ∈ needle.toList) (hmiss : c ∉ s.toList) : jsIncludes s needle = false := by
  cases h : jsIncludes s needle with
  | false => rfl
  | true => exact absurd (contains_subset _ _ h c hc) hmiss

theorem splitOnPred_cons (p : Char → Bool) (c : Char) (l : List Char) :
    splitOnPred p (c :: l) =
      (if p c then [] :: splitOnPred p l
       else
        match splitOnPred p l with
        | h :: t => (c :: h) :: t
        | [] => [[c]]) := rfl

theorem splitOnPred_nosep (p : Char → Bool) (seg : List Char)
    (h : ∀ c ∈ seg, p c = false) : splitOnPred p seg = [seg] := by
  induction seg with
  | nil => rfl
  | cons c t ih =>
    rw [splitOnPred_cons, h c (List.mem_cons_self c t)]
    simp only [Bool.false_eq_true, if_false]
    rw [ih (fun x hx => h x (List.mem_cons_of_mem _ hx))]

theorem splitOnPred_append_sep (p : Char → Bool) (s0 : Char) (seg rest : List Char)
    (h : ∀ c ∈ seg, p c = false) (hs : p s0 = true) :
    splitOnPred p (seg ++ s0 :: rest) = seg :: splitOnPred p rest := by
  induction seg with
  | nil =>
    rw [List.nil_append, splitOnPred_cons]
    simp [hs]
  | cons c t ih =>
    rw [List.cons_append, splitOnPred_cons, h c (List.mem_cons_self c t)]
    simp only [Bool.false_eq_true, if_false]
    rw [ih (fun x hx => h x (List.mem_cons_of_mem _ hx))]

theorem percentDecodeGo_id (l : List Char)
    (h : ∀ c ∈ l, safeValueChar c = true) :
    ∀ fuel, l.length ≤ fuel → percentDecodeGo fuel l = l := by
  induction l with
  | nil => intro fuel _; cases fuel <;> rfl
  | cons c rest ih =>
    intro fuel hf
    have hsafe := h c (List.mem_cons_self c rest)
    cases fuel with
    | zero => simp at hf
    | succ k =>
      show (if c == '+' then _ else _) = c :: rest
      rw [safe_ne c hsafe '+' (by decide)]
      simp only [Bool.false_eq_true, if_false]
      rw [safe_ne c hsafe '%' (by decide)]
      simp only [Bool.false_eq_true, if_false]
      rw [ih (fun x hx => h x (List.mem_cons_of_mem _ hx)) k (by simp at hf; omega)]

theorem percentDecode_id (l : List Char)
    (h : ∀ c ∈ l, safeValueChar c = true) : percentDecode l = l :=
  percentDecodeGo_id l h l.length (Nat.le_refl _)

/-! JSON parser correctness on safe renderings. -/

theorem parseJsonStringBody_safe (l : List Char) (hl : ∀ c ∈ l, safeValueChar c = true) :
    ∀ (rest : List Char) (fuel : Nat), l.length + 1 ≤ fuel →
      parseJsonStringBody fuel (l ++ '"' :: rest) = some (l.asString, rest) := by
  induction l with
  | nil =>
    intro rest fuel hf
    cases fuel with
    | zero => omega
    | succ k => rfl
  | cons c t ih =>
    intro rest fuel hf
    have hsafe := hl c (List.mem_cons_self c t)
    cases fuel with
    | zero => simp at hf
    | succ k =>
      show (if c == '"' then _ else _) = _
      rw [safe_ne c hsafe '"' (by decide)]
      simp only [Bool.false_eq_true, if_false]
      rw [if_neg (safe_ge_space c hsafe)]
      rw [safe_ne c hsafe '\\' (by decide)]
      simp only [Bool.false_eq_true, if_false, List.append_eq]
      rw [ih (fun x hx => hl x (List.mem_cons_of_mem _ hx)) rest k
        (by simp only [List.length_cons] at hf; omega)]
      rfl

/-! Rendering bridges: the four encodings in chunk normal form. -/

theorem strToList_append (a b : String) : (a ++ b).toList = a.toList ++ b.toList := by
  cases a with
  | mk da => cases b with
    | mk db => rfl

theorem joinSep_nil (sep : String) : joinSep sep [] = "" := rfl

theorem joinSep_single (sep : String) (x : String) : joinSep sep [x] = x := rfl

theorem joinSep_cons2 (sep x y : String) (t : List String) :
    joinSep sep (x :: y :: t) = x ++ sep ++ joinSep sep (y :: t) := rfl

theorem jsonChunk_single (kv : String × String) (rest : List Char) :
    jsonChunk [kv] rest =
      '"' :: (kv.1.toList ++ '"' :: ':' :: '"' :: (kv.2.toList ++ '"' :: '}' :: rest)) := rfl

theorem jsonChunk_cons2 (kv y : String × String) (t : List (String × String))
    (rest : List Char) :
    jsonChunk (kv :: y :: t) rest =
      '"' :: (kv.1.toList ++ '"' :: ':' :: '"' ::
        (kv.2.toList ++ '"' :: ',' :: jsonChunk (y :: t) rest)) := rfl

theorem paramChunk_single (kv : String × String) :
    paramChunk [kv] = kv.1.toList ++ '=' :: (kv.2.toList ++ []) := rfl

theorem paramChunk_cons2 (kv y : String × String) (t : List (String × String)) :
    paramChunk (kv :: y :: t) =
      kv.1.toList ++ '=' :: (kv.2.toList ++ '&' :: paramChunk (y :: t)) := rfl

theorem delimChunk_single (kv : String × String) :
    delimChunk [kv] = kv.1.toList ++ ':' :: (kv.2.toList ++ []) := rfl

theorem delimChunk_cons2 (kv y : String × String) (t : List (String × String)) :
    delimChunk (kv :: y :: t) =
      kv.1.toList ++ ':' :: (kv.2.toList ++ ';' :: delimChunk (y :: t)) := rfl

theorem jsonBody_toList (ps : List (String × String)) (rest : List Char) :
    (joinSep ","
      (ps.map (fun kv => renderJsonString kv.1 ++ ":" ++ renderJsonString kv.2))).toList ++
      '}' :: rest = jsonChunk ps rest := by
  induction ps with
  | nil => rfl
  | cons kv tl ih =>
    cases tl with
    | nil =>
      simp only [List.map, joinSep_single, jsonChunk_single, renderJsonString, strToList_append]
      simp [List.append_assoc]
    | cons y t =>
      rw [jsonChunk_cons2, ← ih]
      simp only [List.map, joinSep_cons2, renderJsonString, strToList_append]
      simp [List.append_assoc]

theorem renderQrJson_toList (f : EbmLogicalFields) :
    (renderQrJson f).toList = '{' :: jsonChunk (fieldPairs f) [] := by
  unfold renderQrJson
  rw [← jsonBody_toList (fieldPairs f) []]
  simp only [strToList_append]
  rfl

theorem paramBody_toList (ps : List (String × String)) :
    (joinSep "&" (ps.map (fun kv => kv.1 ++ "=" ++ kv.2))).toList = paramChunk ps := by
  induction ps with
  | nil => rfl
  | cons kv tl ih =>
    cases tl with
    | nil =>
      simp only [List.map, joinSep_single, paramChunk_single, strToList_append]
      simp [List.append_assoc]
    | cons y t =>
      rw [paramChunk_cons2, ← ih]
      simp only [List.map, joinSep_cons2, strToList_append]
      simp [List.append_assoc]

theorem renderParamPairs_toList (f : EbmLogicalFields) :
    (renderParamPairs f).toList = paramChunk (fieldPairs f) :=
  paramBody_toList (fieldPairs f)

theorem delimBody_toList (ps : List (String × String)) :
    (joinSep ";" (ps.map (fun kv => kv.1 ++ ":" ++ kv.2))).toList = delimChunk ps := by
  induction ps with
  | nil => rfl
  | cons kv tl ih =>
    cases tl with
    | nil =>
      simp only [List.map, joinSep_single, delimChunk_single, strToList_append]
      simp [List.append_assoc]
    | cons y t =>
      rw [delimChunk_cons2, ← ih]
      simp only [List.map, joinSep_cons2, strToList_append]
      simp [List.append_assoc]

theorem renderQrDelimited_toList (f : EbmLogicalFields) :
    (renderQrDelimited f).toList = delimChunk (fieldPairs f) :=
  delimBody_toList (fieldPairs f)

/-! Character classification of the three chunk streams. -/

theorem jsonChunk_chars (ps : List (String × String)) (h : pairsSafe ps) (rest : List Char) :
    ∀ c ∈ jsonChunk ps rest,
      c ∈ rest ∨ safeValueChar c = true ∨ c = '}' ∨ c = '"' ∨ c = ':' ∨ c = ',' := by
  induction ps with
  | nil =>
    intro c hc
    simp only [jsonChunk, List.mem_cons] at hc
    rcases hc with hc | hc
    · tauto
    · tauto
  | cons kv tl ih =>
    have hkv := h kv (List.mem_cons_self kv tl)
    have htl : pairsSafe tl := fun x hx => h x (List.mem_cons_of_mem _ hx)
    intro c hc
    cases tl with
    | nil =>
      rw [jsonChunk_single] at hc
      simp only [List.mem_cons, List.mem_append] at hc
      rcases hc with hc | hc | hc | hc | hc | hc | hc | hc
      · tauto
      · exact Or.inr (Or.inl (hkv.1 c hc))
      · tauto
      · tauto
      · tauto
      · exact Or.inr (Or.inl (hkv.2 c hc))
      · tauto
      · rcases hc with hc | hc
        · tauto
        · tauto
    | cons y t =>
      rw [jsonChunk_cons2] at hc
      simp only [List.mem_cons, List.mem_append] at hc
      rcases hc with hc | hc | hc | hc | hc | hc | hc | hc
      · tauto
      · exact Or.inr (Or.inl (hkv.1 c hc))
      · tauto
      · tauto
      · tauto
      · exact Or.inr (Or.inl (hkv.2 c hc))
      · tauto
      · rcases hc with hc | hc
        · tauto
        · have := ih htl c hc
          tauto

theorem paramChunk_chars (ps : List (String × String)) (h : pairsSafe ps) :
    ∀ c ∈ paramChunk ps, safeValueChar c = true ∨ c = '=' ∨ c = '&' := by
  induction ps with
  | nil => intro c hc; exact absurd hc (List.not_mem_nil c)
  | cons kv tl ih =>
    have hkv := h kv (List.mem_cons_self kv tl)
    have htl : pairsSafe tl := fun x hx => h x (List.mem_cons_of_mem _ hx)
    intro c hc
    cases tl with
    | nil =>
      rw [paramChunk_single] at hc
      simp only [List.append_nil, List.mem_append, List.mem_cons] at hc
      rcases hc with hc | hc | hc
      · exact Or.inl (hkv.1 c hc)
      · tauto
      · exact Or.inl (hkv.2 c hc)
    | cons y t =>
      rw [paramChunk_cons2] at hc
      simp only [List.mem_append, List.mem_cons] at hc
      rcases hc with hc | hc | hc | hc | hc
      · exact Or.inl (hkv.1 c hc)
      · tauto
      · exact Or.inl (hkv.2 c hc)
      · tauto
      · have := ih htl c hc
        tauto

theorem delimChunk_chars (ps : List (String × String)) (h : pairsSafe ps) :
    ∀ c ∈ delimChunk ps, safeValueChar c = true ∨ c = ':' ∨ c = ';' := by
  induction ps with
  | nil => intro c hc; exact absurd hc (List.not_mem_nil c)
  | cons kv tl ih =>
    have hkv := h kv (List.mem_cons_self kv tl)
    have htl : pairsSafe tl := fun x hx => h x (List.mem_cons_of_mem _ hx)
    intro c hc
    cases tl with
    | nil =>
      rw [delimChunk_single] at hc
      simp only [List.append_nil, List.mem_append, List.mem_cons] at hc
      rcases hc with hc | hc | hc
      · exact Or.inl (hkv.1 c hc)
      · tauto
      · exact Or.inl (hkv.2 c hc)
    | cons y t =>
      rw [delimChunk_cons2] at hc
      simp only [List.mem_append, List.mem_cons] at hc
      rcases hc with hc | hc | hc | hc | hc
      · exact Or.inl (hkv.1 c hc)
      · tauto
      · exact Or.inl (hkv.2 c hc)
      · tauto
      · have := ih htl c hc
        tauto

/-! `parseJsonMembers` on a safe chunk. -/

theorem parseJsonMembers_chunk (ps : List (String × String)) (h : pairsSafe ps)
    (rest : List Char) :
    ∀ fuel, jsonChunkLen ps ≤ fuel →
      parseJsonMembers fuel (jsonChunk ps rest) =
        some (ps.map (fun kv => (kv.1, JsonVal.jstr kv.2)), rest) := by
  induction ps with
  | nil =>
    intro fuel hf
    cases fuel with
    | zero => simp [jsonChunkLen] at hf
    | succ k =>
      simp only [parseJsonMembers, jsonChunk]
      rw [List.dropWhile_cons, show isJsonWs '}' = false from rfl]
      simp
  | cons kv tl ih =>
    have hkv := h kv (List.mem_cons_self kv tl)
    have htl : pairsSafe tl := fun x hx => h x (List.mem_cons_of_mem _ hx)
    intro fuel hf
    have hlen : jsonChunkLen (kv :: tl) = kv.1.length + kv.2.length + 6 + jsonChunkLen tl := rfl
    have hl1 : kv.1.toList.length = kv.1.length := rfl
    have hl2 : kv.2.toList.length = kv.2.length := rfl
    cases fuel with
    | zero => omega
    | succ m =>
      cases tl with
      | nil =>
        simp only [jsonChunk]
        simp only [parseJsonMembers]
        rw [List.dropWhile_cons, show isJsonWs '"' = false from rfl]
        simp only [Bool.false_eq_true, if_false]
        rw [show (('"' : Char) == '}') = false from rfl]
        simp only [Bool.false_eq_true, if_false]
        rw [show (('"' : Char) == '"') = true from rfl]
        simp only [if_true]
        rw [parseJsonStringBody_safe kv.1.toList hkv.1
          (':' :: '"' :: (kv.2.toList ++ '"' :: '}' :: rest)) (m + 1) (by omega)]
        dsimp only
        rw [List.dropWhile_cons, show isJsonWs ':' = false from rfl]
        simp only [Bool.false_eq_true, if_false]
        rw [show ((':' : Char) == ':') = true from rfl]
        simp only [if_true]
        rw [List.dropWhile_cons, show isJsonWs '"' = false from rfl]
        simp only [Bool.false_eq_true, if_false]
        simp only [parseJsonScalar]
        rw [show (('"' : Char) == '"') = true from rfl]
        simp only [if_true]
        rw [parseJsonStringBody_safe kv.2.toList hkv.2 ('}' :: rest) (m + 1) (by omega)]
        dsimp only [Option.map]
        rw [List.dropWhile_cons, show isJsonWs '}' = false from rfl]
        simp only [Bool.false_eq_true, if_false]
        rw [show (('}' : Char) == ',') = false from rfl]
        simp only [Bool.false_eq_true, if_false]
        rw [show (('}' : Char) == '}') = true from rfl]
        simp only [if_true]
        rw [String.asString_toList]
        rfl
      | cons y t =>
        rw [jsonChunk_cons2]
        simp only [parseJsonMembers]
        rw [List.dropWhile_cons, show isJsonWs '"' = false from rfl]
        simp only [Bool.false_eq_true, if_false]
        rw [show (('"' : Char) == '}') = false from rfl]
        simp only [Bool.false_eq_true, if_false]
        rw [show (('"' : Char) == '"') = true from rfl]
        simp only [if_true]
        rw [parseJsonStringBody_safe kv.1.toList hkv.1
          (':' :: '"' :: (kv.2.toList ++ '"' :: ',' :: jsonChunk (y :: t) rest)) (m + 1)
          (by omega)]
        dsimp only
        rw [List.dropWhile_cons, show isJsonWs ':' = false from rfl]
        simp only [Bool.false_eq_true, if_false]
        rw [show ((':' : Char) == ':') = true from rfl]
        simp only [if_true]
        rw [List.dropWhile_cons, show isJsonWs '"' = false from rfl]
        simp only [Bool.false_eq_true, if_false]
        simp only [parseJsonScalar]
        rw [show (('"' : Char) == '"') = true from rfl]
        simp only [if_true]
        rw [parseJsonStringBody_safe kv.2.toList hkv.2 (',' :: jsonChunk (y :: t) rest) (m + 1)
          (by omega)]
        dsimp only [Option.map]
        rw [List.dropWhile_cons, show isJsonWs ',' = false from rfl]
        simp only [Bool.false_eq_true, if_false]
        rw [show ((',' : Char) == ',') = true from rfl]
        simp only [if_true]
        rw [ih htl m (by omega)]
        dsimp only [Option.map]
        rw [String.asString_toList]
        rfl

theorem jsonChunk_length (ps : List (String × String)) (r : List Char) :
    jsonChunkLen ps ≤ (jsonChunk ps r).length + 1 := by
  induction ps with
  | nil =>
    show 1 ≤ ('}' :: r).length + 1
    simp
  | cons kv tl ih =>
    have e1 : kv.1.toList.length = kv.1.length := rfl
    have e2 : kv.2.toList.length = kv.2.length := rfl
    cases tl with
    | nil =>
      rw [jsonChunk_single]
      simp only [jsonChunkLen, List.length_cons, List.length_append]
      omega
    | cons y t =>
      rw [jsonChunk_cons2]
      simp only [jsonChunkLen, List.length_cons, List.length_append] at ih ⊢
      omega

/-- `JSON.parse` on the JSON rendering of a safe field set. -/
theorem jsonParseFlatObject_render (f : EbmLogicalFields) (h : pairsSafe (fieldPairs f)) :
    jsonParseFlatObject (renderQrJson f) =
      some ((fieldPairs f).map (fun kv => (kv.1, JsonVal.jstr kv.2))) := by
  unfold jsonParseFlatObject
  rw [renderQrJson_toList]
  rw [List.dropWhile_cons, show isJsonWs '{' = false from rfl]
  simp only [Bool.false_eq_true, if_false]
  rw [show (('{' : Char) == '{') = true from rfl]
  simp only [if_true]
  rw [parseJsonMembers_chunk (fieldPairs f) h [] ((jsonChunk (fieldPairs f) []).length + 1)
    (jsonChunk_length (fieldPairs f) [])]
  simp

/-! The per-key effect of `assignKeyValue` on the rendering keys, and the
    fold over a safe field set's pairs. -/

theorem assignPairsFold_append (a b : List (String × String))
    (st : EbmQrPayload × List (String × String)) :
    assignPairsFold (a ++ b) st = assignPairsFold b (assignPairsFold a st) := by
  unfold assignPairsFold
  exact List.foldl_append _ _ a b

theorem markAssigned_not_contains (p : EbmQrPayload) (k : String)
    (h : p.assignedKeys.contains k = false) :
    markAssigned p k = { p with assignedKeys := p.assignedKeys ++ [k] } := by
  unfold markAssigned
  rw [h]
  simp

theorem optKeys_contains (o : Option String) (nm k : String) (hne : (k == nm) = false) :
    ((o.map (fun _ => nm)).toList).contains k = false := by
  cases o with
  | none => rfl
  | some v => simp [List.contains, List.elem, hne]

theorem assignKV_tin (v : String) (p : EbmQrPayload) (add : List (String × String))
    (h1 : toStringValue (some (JsValue.vstr v)) = some v) (hn : normalizeTin v = some v) :
    assignKeyValue "tin" (some (JsValue.vstr v)) p add =
      (markAssigned { p with tin := some v } "tin", add) := by
  simp only [assignKeyValue]
  rw [show normalizeQrKey "tin" = "tin" from rfl]
  simp only [String.reduceEq, decide_False, decide_True, Bool.false_or, Bool.or_false,
    Bool.true_or, Bool.false_eq_true, if_true, if_false]
  rw [h1]
  rw [show (some v).bind normalizeTin =
    normalizeTin v from rfl]
  rw [hn]

theorem assignKV_buyertin (v : String) (p : EbmQrPayload) (add : List (String × String))
    (h1 : toStringValue (some (JsValue.vstr v)) = some v) (hn : normalizeTin v = some v) :
    assignKeyValue "buyertin" (some (JsValue.vstr v)) p add =
      (markAssigned { p with buyerTin := some v } "buyerTin", add) := by
  simp only [assignKeyValue]
  rw [show normalizeQrKey "buyertin" = "buyertin" from rfl]
  simp only [String.reduceEq, decide_False, decide_True, Bool.false_or, Bool.or_false,
    Bool.true_or, Bool.false_eq_true, if_true, if_false]
  rw [h1]
  rw [show (some v).bind normalizeTin =
    normalizeTin v from rfl]
  rw [hn]

theorem assignKV_invoice (v : String) (p : EbmQrPayload) (add : List (String × String))
    (h1 : toStringValue (some (JsValue.vstr v)) = some v) (hn : normalizeInvoiceNumber (some (JsValue.vstr v)) = some v) :
    assignKeyValue "invoice" (some (JsValue.vstr v)) p add =
      (markAssigned { p with invoiceNumber := some v } "invoiceNumber", add) := by
  simp only [assignKeyValue]
  rw [show normalizeQrKey "invoice" = "invoice" from rfl]
  simp only [String.reduceEq, decide_False, decide_True, Bool.false_or, Bool.or_false,
    Bool.true_or, Bool.false_eq_true, if_true, if_false]
  rw [h1]
  rw [show (some v).bind (fun s => normalizeInvoiceNumber (some (JsValue.vstr s))) =
    normalizeInvoiceNumber (some (JsValue.vstr v)) from rfl]
  rw [hn]

theorem assignKV_issuedate (v : String) (p : EbmQrPayload) (add : List (String × String))
    (h1 : toStringValue (some (JsValue.vstr v)) = some v) (hn : toDateString (some (JsValue.vstr v)) = some v) :
    assignKeyValue "issuedate" (some (JsValue.vstr v)) p add =
      (markAssigned { p with issueDate := some v } "issueDate", add) := by
  simp only [assignKeyValue]
  rw [show normalizeQrKey "issuedate" = "issuedate" from rfl]
  simp only [String.reduceEq, decide_False, decide_True, Bool.false_or, Bool.or_false,
    Bool.true_or, Bool.false_eq_true, if_true, if_false]
  rw [h1]
  rw [show (some v).bind (fun s => toDateString (some (JsValue.vstr s))) =
    toDateString (some (JsValue.vstr v)) from rfl]
  rw [hn]

theorem assignKV_total (v : String) (p : EbmQrPayload) (add : List (String × String))
    (h1 : toStringValue (some (JsValue.vstr v)) = some v) :
    assignKeyValue "total" (some (JsValue.vstr v)) p add =
      (markAssigned { p with totalAmount := toNumberValue (some (JsValue.vstr v)) } "totalAmount", add) := by
  simp only [assignKeyValue]
  rw [show normalizeQrKey "total" = "total" from rfl]
  simp only [String.reduceEq, decide_False, decide_True, Bool.false_or, Bool.or_false,
    Bool.true_or, Bool.false_eq_true, if_true, if_false]
  rw [h1]
  rw [show (some v).bind (fun s => toNumberValue (some (JsValue.vstr s))) =
    toNumberValue (some (JsValue.vstr v)) from rfl]

theorem assignKV_vat (v : String) (p : EbmQrPayload) (add : List (String × String))
    (h1 : toStringValue (some (JsValue.vstr v)) = some v) :
    assignKeyValue "vat" (some (JsValue.vstr v)) p add =
      (markAssigned { p with vatAmount := toNumberValue (some (JsValue.vstr v)) } "vatAmount", add) := by
  simp only [assignKeyValue]
  rw [show normalizeQrKey "vat" = "vat" from rfl]
  simp only [String.reduceEq, decide_False, decide_True, Bool.false_or, Bool.or_false,
    Bool.true_or, Bool.false_eq_true, if_true, if_false]
  rw [h1]
  rw [show (some v).bind (fun s => toNumberValue (some (JsValue.vstr s))) =
    toNumberValue (some (JsValue.vstr v)) from rfl]

theorem assignKV_currency (v : String) (p : EbmQrPayload) (add : List (String × String))
    (h1 : toStringValue (some (JsValue.vstr v)) = some v) (hn : normalizeCurrency (some (JsValue.vstr v)) = some v) :
    assignKeyValue "currency" (some (JsValue.vstr v)) p add =
      (markAssigned { p with currency := some v } "currency", add) := by
  simp only [assignKeyValue]
  rw [show normalizeQrKey "currency" = "currency" from rfl]
  simp only [String.reduceEq, decide_False, decide_True, Bool.false_or, Bool.or_false,
    Bool.true_or, Bool.false_eq_true, if_true, if_false]
  rw [h1]
  rw [show (some v).bind (fun s => normalizeCurrency (some (JsValue.vstr s))) =
    normalizeCurrency (some (JsValue.vstr v)) from rfl]
  rw [hn]

theorem foldStep_tin (o : Option String)
    (ho : ∀ v ∈ o, toStringValue (some (JsValue.vstr v)) = some v ∧ normalizeTin v = some v)
    (raw : String) (inv tin bt isd : Option String) (ta va : Option ℚ) (cu : Option String)
    (ad : Option (List (String × String))) (ks : List String) (add : List (String × String))
    (hks : ks.contains "tin" = false) :
    assignPairsFold ((o.map (fun v => ("tin", v))).toList)
        (⟨raw, inv, none, bt, isd, ta, va, cu, ad, ks⟩, add) =
      (⟨raw, inv, o, bt, isd, ta, va, cu, ad,
        ks ++ (o.map (fun _ => "tin")).toList⟩, add) := by
  cases o with
  | none => simp [assignPairsFold]
  | some v =>
    have hv := ho v rfl
    show assignKeyValue "tin" (some (JsValue.vstr v))
      (⟨raw, inv, none, bt, isd, ta, va, cu, ad, ks⟩ : EbmQrPayload) add = _
    rw [assignKV_tin v _ _ hv.1 hv.2]
    show (markAssigned (⟨raw, inv, some v, bt, isd, ta, va, cu, ad, ks⟩ : EbmQrPayload) "tin", add) = _
    rw [markAssigned_not_contains (⟨raw, inv, some v, bt, isd, ta, va, cu, ad, ks⟩ : EbmQrPayload) "tin" hks]
    rfl

theorem foldStep_buyertin (o : Option String)
    (ho : ∀ v ∈ o, toStringValue (some (JsValue.vstr v)) = some v ∧ normalizeTin v = some v)
    (raw : String) (inv tin bt isd : Option String) (ta va : Option ℚ) (cu : Option String)
    (ad : Option (List (String × String))) (ks : List String) (add : List (String × String))
    (hks : ks.contains "buyerTin" = false) :
    assignPairsFold ((o.map (fun v => ("buyertin", v))).toList)
        (⟨raw, inv, tin, none, isd, ta, va, cu, ad, ks⟩, add) =
      (⟨raw, inv, tin, o, isd, ta, va, cu, ad,
        ks ++ (o.map (fun _ => "buyerTin")).toList⟩, add) := by
  cases o with
  | none => simp [assignPairsFold]
  | some v =>
    have hv := ho v rfl
    show assignKeyValue "buyertin" (some (JsValue.vstr v))
      (⟨raw, inv, tin, none, isd, ta, va, cu, ad, ks⟩ : EbmQrPayload) add = _
    rw [assignKV_buyertin v _ _ hv.1 hv.2]
    show (markAssigned (⟨raw, inv, tin, some v, isd, ta, va, cu, ad, ks⟩ : EbmQrPayload) "buyerTin", add) = _
    rw [markAssigned_not_contains (⟨raw, inv, tin, some v, isd, ta, va, cu, ad, ks⟩ : EbmQrPayload) "buyerTin" hks]
    rfl

theorem foldStep_invoice (o : Option String)
    (ho : ∀ v ∈ o, toStringValue (some (JsValue.vstr v)) = some v ∧ normalizeInvoiceNumber (some (JsValue.vstr v)) = some v)
    (raw : String) (inv tin bt isd : Option String) (ta va : Option ℚ) (cu : Option String)
    (ad : Option (List (String × String))) (ks : List String) (add : List (String × String))
    (hks : ks.contains "invoiceNumber" = false) :
    assignPairsFold ((o.map (fun v => ("invoice", v))).toList)
        (⟨raw, none, tin, bt, isd, ta, va, cu, ad, ks⟩, add) =
      (⟨raw, o, tin, bt, isd, ta, va, cu, ad,
        ks ++ (o.map (fun _ => "invoiceNumber")).toList⟩, add) := by
  cases o with
  | none => simp [assignPairsFold]
  | some v =>
    have hv := ho v rfl
    show assignKeyValue "invoice" (some (JsValue.vstr v))
      (⟨raw, none, tin, bt, isd, ta, va, cu, ad, ks⟩ : EbmQrPayload) add = _
    rw [assignKV_invoice v _ _ hv.1 hv.2]
    show (markAssigned (⟨raw, some v, tin, bt, isd, ta, va, cu, ad, ks⟩ : EbmQrPayload) "invoiceNumber", add) = _
    rw [markAssigned_not_contains (⟨raw, some v, tin, bt, isd, ta, va, cu, ad, ks⟩ : EbmQrPayload) "invoiceNumber" hks]
    rfl

theorem foldStep_issuedate (o : Option String)
    (ho : ∀ v ∈ o, toStringValue (some (JsValue.vstr v)) = some v ∧ toDateString (some (JsValue.vstr v)) = some v)
    (raw : String) (inv tin bt isd : Option String) (ta va : Option ℚ) (cu : Option String)
    (ad : Option (List (String × String))) (ks : List String) (add : List (String × String))
    (hks : ks.contains "issueDate" = false) :
    assignPairsFold ((o.map (fun v => ("issuedate", v))).toList)
        (⟨raw, inv, tin, bt, none, ta, va, cu, ad, ks⟩, add) =
      (⟨raw, inv, tin, bt, o, ta, va, cu, ad,
        ks ++ (o.map (fun _ => "issueDate")).toList⟩, add) := by
  cases o with
  | none => simp [assignPairsFold]
  | some v =>
    have hv := ho v rfl
    show assignKeyValue "issuedate" (some (JsValue.vstr v))
      (⟨raw, inv, tin, bt, none, ta, va, cu, ad, ks⟩ : EbmQrPayload) add = _
    rw [assignKV_issuedate v _ _ hv.1 hv.2]
    show (markAssigned (⟨raw, inv, tin, bt, some v, ta, va, cu, ad, ks⟩ : EbmQrPayload) "issueDate", add) = _
    rw [markAssigned_not_contains (⟨raw, inv, tin, bt, some v, ta, va, cu, ad, ks⟩ : EbmQrPayload) "issueDate" hks]
    rfl

theorem foldStep_total (o : Option String)
    (ho : ∀ v ∈ o, toStringValue (some (JsValue.vstr v)) = some v)
    (raw : String) (inv tin bt isd : Option String) (ta va : Option ℚ) (cu : Option String)
    (ad : Option (List (String × String))) (ks : List String) (add : List (String × String))
    (hks : ks.contains "totalAmount" = false) :
    assignPairsFold ((o.map (fun v => ("total", v))).toList)
        (⟨raw, inv, tin, bt, isd, none, va, cu, ad, ks⟩, add) =
      (⟨raw, inv, tin, bt, isd, o.bind (fun s => toNumberValue (some (JsValue.vstr s))), va, cu, ad,
        ks ++ (o.map (fun _ => "totalAmount")).toList⟩, add) := by
  cases o with
  | none => simp [assignPairsFold]
  | some v =>
    have hv := ho v rfl
    show assignKeyValue "total" (some (JsValue.vstr v))
      (⟨raw, inv, tin, bt, isd, none, va, cu, ad, ks⟩ : EbmQrPayload) add = _
    rw [assignKV_total v _ _ hv]
    show (markAssigned (⟨raw, inv, tin, bt, isd, toNumberValue (some (JsValue.vstr v)), va, cu, ad, ks⟩ : EbmQrPayload) "totalAmount", add) = _
    rw [markAssigned_not_contains (⟨raw, inv, tin, bt, isd, toNumberValue (some (JsValue.vstr v)), va, cu, ad, ks⟩ : EbmQrPayload) "totalAmount" hks]
    rfl

theorem foldStep_vat (o : Option String)
    (ho : ∀ v ∈ o, toStringValue (some (JsValue.vstr v)) = some v)
    (raw : String) (inv tin bt isd : Option String) (ta va : Option ℚ) (cu : Option String)
    (ad : Option (List (String × String))) (ks : List String) (add : List (String × String))
    (hks : ks.contains "vatAmount" = false) :
    assignPairsFold ((o.map (fun v => ("vat", v))).toList)
        (⟨raw, inv, tin, bt, isd, ta, none, cu, ad, ks⟩, add) =
      (⟨raw, inv, tin, bt, isd, ta, o.bind (fun s => toNumberValue (some (JsValue.vstr s))), cu, ad,
        ks ++ (o.map (fun _ => "vatAmount")).toList⟩, add) := by
  cases o with
  | none => simp [assignPairsFold]
  | some v =>
    have hv := ho v rfl
    show assignKeyValue "vat" (some (JsValue.vstr v))
      (⟨raw, inv, tin, bt, isd, ta, none, cu, ad, ks⟩ : EbmQrPayload) add = _
    rw [assignKV_vat v _ _ hv]
    show (markAssigned (⟨raw, inv, tin, bt, isd, ta, toNumberValue (some (JsValue.vstr v)), cu, ad, ks⟩ : EbmQrPayload) "vatAmount", add) = _
    rw [markAssigned_not_contains (⟨raw, inv, tin, bt, isd, ta, toNumberValue (some (JsValue.vstr v)), cu, ad, ks⟩ : EbmQrPayload) "vatAmount" hks]
    rfl

theorem foldStep_currency (o : Option String)
    (ho : ∀ v ∈ o, toStringValue (some (JsValue.vstr v)) = some v ∧ normalizeCurrency (some (JsValue.vstr v)) = some v)
    (raw : String) (inv tin bt isd : Option String) (ta va : Option ℚ) (cu : Option String)
    (ad : Option (List (String × String))) (ks : List String) (add : List (String × String))
    (hks : ks.contains "currency" = false) :
    assignPairsFold ((o.map (fun v => ("currency", v))).toList)
        (⟨raw, inv, tin, bt, isd, ta, va, none, ad, ks⟩, add) =
      (⟨raw, inv, tin, bt, isd, ta, va, o, ad,
        ks ++ (o.map (fun _ => "currency")).toList⟩, add) := by
  cases o with
  | none => simp [assignPairsFold]
  | some v =>
    have hv := ho v rfl
    show assignKeyValue "currency" (some (JsValue.vstr v))
      (⟨raw, inv, tin, bt, isd, ta, va, none, ad, ks⟩ : EbmQrPayload) add = _
    rw [assignKV_currency v _ _ hv.1 hv.2]
    show (markAssigned (⟨raw, inv, tin, bt, isd, ta, va, some v, ad, ks⟩ : EbmQrPayload) "currency", add) = _
    rw [markAssigned_not_contains (⟨raw, inv, tin, bt, isd, ta, va, some v, ad, ks⟩ : EbmQrPayload) "currency" hks]
    rfl

/-! The fold of `fieldPairs` over the fresh payload. -/

theorem fieldPairs_safe (f : EbmLogicalFields) (h : SafeFields f) :
    pairsSafe (fieldPairs f) := by
  obtain ⟨h1, h2, h3, h4, h5, h6, h7⟩ := h
  intro kv hkv
  simp only [fieldPairs, List.mem_append, Option.mem_toList, Option.mem_map] at hkv
  rcases hkv with ((((((hk | hk) | hk) | hk) | hk) | hk) | hk)
  · obtain ⟨a, ha, hEq⟩ := hk
    subst hEq
    refine ⟨?_, (h1 a ha).1⟩
    show ∀ c ∈ "tin".toList, safeValueChar c = true
    decide
  · obtain ⟨a, ha, hEq⟩ := hk
    subst hEq
    refine ⟨?_, (h2 a ha).1⟩
    show ∀ c ∈ "buyertin".toList, safeValueChar c = true
    decide
  · obtain ⟨a, ha, hEq⟩ := hk
    subst hEq
    refine ⟨?_, (h3 a ha).1⟩
    show ∀ c ∈ "invoice".toList, safeValueChar c = true
    decide
  · obtain ⟨a, ha, hEq⟩ := hk
    subst hEq
    refine ⟨?_, (h4 a ha).1⟩
    show ∀ c ∈ "issuedate".toList, safeValueChar c = true
    decide
  · obtain ⟨a, ha, hEq⟩ := hk
    subst hEq
    refine ⟨?_, (h5 a ha).1⟩
    show ∀ c ∈ "total".toList, safeValueChar c = true
    decide
  · obtain ⟨a, ha, hEq⟩ := hk
    subst hEq
    refine ⟨?_, (h6 a ha).1⟩
    show ∀ c ∈ "vat".toList, safeValueChar c = true
    decide
  · obtain ⟨a, ha, hEq⟩ := hk
    subst hEq
    refine ⟨?_, (h7 a ha).1⟩
    show ∀ c ∈ "currency".toList, safeValueChar c = true
    decide

theorem foldPairs_master (f : EbmLogicalFields) (h : SafeFields f) (raw : String) :
    assignPairsFold (fieldPairs f)
        (⟨raw, none, none, none, none, none, none, none, some [], []⟩, []) =
      (c8Payload raw f, []) := by
  obtain ⟨h1, h2, h3, h4, h5, h6, h7⟩ := h
  unfold fieldPairs
  simp only [assignPairsFold_append]
  have hc2 : (([] : List String) ++ ((f.tin).map (fun _ => "tin")).toList).contains "buyerTin" = false := by
    rw [contains_append_eq, optKeys_contains f.tin "tin" "buyerTin" (by decide)]
    rfl
  have hc3 : ((([] : List String) ++ ((f.tin).map (fun _ => "tin")).toList) ++ ((f.buyerTin).map (fun _ => "buyerTin")).toList).contains "invoiceNumber" = false := by
    rw [contains_append_eq, contains_append_eq, optKeys_contains f.tin "tin" "invoiceNumber" (by decide), optKeys_contains f.buyerTin "buyerTin" "invoiceNumber" (by decide)]
    rfl
  have hc4 : (((([] : List String) ++ ((f.tin).map (fun _ => "tin")).toList) ++ ((f.buyerTin).map (fun _ => "buyerTin")).toList) ++ ((f.invoiceNumber).map (fun _ => "invoiceNumber")).toList).contains "issueDate" = false := by
    rw [contains_append_eq, contains_append_eq, contains_append_eq, optKeys_contains f.tin "tin" "issueDate" (by decide), optKeys_contains f.buyerTin "buyerTin" "issueDate" (by decide), optKeys_contains f.invoiceNumber "invoiceNumber" "issueDate" (by decide)]
    rfl
  have hc5 : ((((([] : List String) ++ ((f.tin).map (fun _ => "tin")).toList) ++ ((f.buyerTin).map (fun _ => "buyerTin")).toList) ++ ((f.invoiceNumber).map (fun _ => "invoiceNumber")).toList) ++ ((f.issueDate).map (fun _ => "issueDate")).toList).contains "totalAmount" = false := by
    rw [contains_append_eq, contains_append_eq, contains_append_eq, contains_append_eq, optKeys_contains f.tin "tin" "totalAmount" (by decide), optKeys_contains f.buyerTin "buyerTin" "totalAmount" (by decide), optKeys_contains f.invoiceNumber "invoiceNumber" "totalAmount" (by decide), optKeys_contains f.issueDate "issueDate" "totalAmount" (by decide)]
    rfl
  have hc6 : (((((([] : List String) ++ ((f.tin).map (fun _ => "tin")).toList) ++ ((f.buyerTin).map (fun _ => "buyerTin")).toList) ++ ((f.invoiceNumber).map (fun _ => "invoiceNumber")).toList) ++ ((f.issueDate).map (fun _ => "issueDate")).toList) ++ ((f.totalAmount).map (fun _ => "totalAmount")).toList).contains "vatAmount" = false := by
    rw [contains_append_eq, contains_append_eq, contains_append_eq, contains_append_eq, contains_append_eq, optKeys_contains f.tin "tin" "vatAmount" (by decide), optKeys_contains f.buyerTin "buyerTin" "vatAmount" (by decide), optKeys_contains f.invoiceNumber "invoiceNumber" "vatAmount" (by decide), optKeys_contains f.issueDate "issueDate" "vatAmount" (by decide), optKeys_contains f.totalAmount "totalAmount" "vatAmount" (by decide)]
    rfl
  have hc7 : ((((((([] : List String) ++ ((f.tin).map (fun _ => "tin")).toList) ++ ((f.buyerTin).map (fun _ => "buyerTin")).toList) ++ ((f.invoiceNumber).map (fun _ => "invoiceNumber")).toList) ++ ((f.issueDate).map (fun _ => "issueDate")).toList) ++ ((f.totalAmount).map (fun _ => "totalAmount")).toList) ++ ((f.vatAmount).map (fun _ => "vatAmount")).toList).contains "currency" = false := by
    rw [contains_append_eq, contains_append_eq, contains_append_eq, contains_append_eq, contains_append_eq, contains_append_eq, optKeys_contains f.tin "tin" "currency" (by decide), optKeys_contains f.buyerTin "buyerTin" "currency" (by decide), optKeys_contains f.invoiceNumber "invoiceNumber" "currency" (by decide), optKeys_contains f.issueDate "issueDate" "currency" (by decide), optKeys_contains f.totalAmount "totalAmount" "currency" (by decide), optKeys_contains f.vatAmount "vatAmount" "currency" (by decide)]
    rfl
  rw [foldStep_tin f.tin (fun v hv => ⟨(h1 v hv).2.1, (h1 v hv).2.2⟩) raw
    none none none none none none none
    (some []) [] [] rfl]
  rw [foldStep_buyertin f.buyerTin (fun v hv => ⟨(h2 v hv).2.1, (h2 v hv).2.2⟩) raw
    none f.tin none none none none none
    (some []) (([] : List String) ++ ((f.tin).map (fun _ => "tin")).toList) [] hc2]
  rw [foldStep_invoice f.invoiceNumber (fun v hv => ⟨(h3 v hv).2.1, (h3 v hv).2.2⟩) raw
    none f.tin f.buyerTin none none none none
    (some []) ((([] : List String) ++ ((f.tin).map (fun _ => "tin")).toList) ++ ((f.buyerTin).map (fun _ => "buyerTin")).toList) [] hc3]
  rw [foldStep_issuedate f.issueDate (fun v hv => ⟨(h4 v hv).2.1, (h4 v hv).2.2⟩) raw
    f.invoiceNumber f.tin f.buyerTin none none none none
    (some []) (((([] : List String) ++ ((f.tin).map (fun _ => "tin")).toList) ++ ((f.buyerTin).map (fun _ => "buyerTin")).toList) ++ ((f.invoiceNumber).map (fun _ => "invoiceNumber")).toList) [] hc4]
  rw [foldStep_total f.totalAmount (fun v hv => (h5 v hv).2.1) raw
    f.invoiceNumber f.tin f.buyerTin f.issueDate none none none
    (some []) ((((([] : List String) ++ ((f.tin).map (fun _ => "tin")).toList) ++ ((f.buyerTin).map (fun _ => "buyerTin")).toList) ++ ((f.invoiceNumber).map (fun _ => "invoiceNumber")).toList) ++ ((f.issueDate).map (fun _ => "issueDate")).toList) [] hc5]
  rw [foldStep_vat f.vatAmount (fun v hv => (h6 v hv).2.1) raw
    f.invoiceNumber f.tin f.buyerTin f.issueDate (f.totalAmount.bind (fun s => toNumberValue (some (JsValue.vstr s)))) none none
    (some []) (((((([] : List String) ++ ((f.tin).map (fun _ => "tin")).toList) ++ ((f.buyerTin).map (fun _ => "buyerTin")).toList) ++ ((f.invoiceNumber).map (fun _ => "invoiceNumber")).toList) ++ ((f.issueDate).map (fun _ => "issueDate")).toList) ++ ((f.totalAmount).map (fun _ => "totalAmount")).toList) [] hc6]
  rw [foldStep_currency f.currency (fun v hv => ⟨(h7 v hv).2.1, (h7 v hv).2.2⟩) raw
    f.invoiceNumber f.tin f.buyerTin f.issueDate (f.totalAmount.bind (fun s => toNumberValue (some (JsValue.vstr s)))) (f.vatAmount.bind (fun s => toNumberValue (some (JsValue.vstr s)))) none
    (some []) ((((((([] : List String) ++ ((f.tin).map (fun _ => "tin")).toList) ++ ((f.buyerTin).map (fun _ => "buyerTin")).toList) ++ ((f.invoiceNumber).map (fun _ => "invoiceNumber")).toList) ++ ((f.issueDate).map (fun _ => "issueDate")).toList) ++ ((f.totalAmount).map (fun _ => "totalAmount")).toList) ++ ((f.vatAmount).map (fun _ => "vatAmount")).toList) [] hc7]
  simp [c8Payload, assignedOf, List.append_assoc]

/-! End-to-end decoding of each rendering. -/

theorem assignFieldFromObject_jstr (ps : List (String × String)) (p : EbmQrPayload)
    (add : List (String × String)) :
    assignFieldFromObject (ps.map (fun kv => (kv.1, JsonVal.jstr kv.2))) p add =
      assignPairsFold ps (p, add) := by
  unfold assignFieldFromObject assignPairsFold
  rw [List.foldl_map]
  rfl

theorem assignedOf_isEmpty_false (f : EbmLogicalFields) (h : fieldPairs f ≠ []) :
    (assignedOf f).isEmpty = false := by
  cases htin : f.tin with
  | some v => simp [assignedOf, htin]
  | none =>
    cases hbt : f.buyerTin with
    | some v => simp [assignedOf, htin, hbt]
    | none =>
      cases hinv : f.invoiceNumber with
      | some v => simp [assignedOf, htin, hbt, hinv]
      | none =>
        cases hisd : f.issueDate with
        | some v => simp [assignedOf, htin, hbt, hinv, hisd]
        | none =>
          cases hta : f.totalAmount with
          | some v => simp [assignedOf, htin, hbt, hinv, hisd, hta]
          | none =>
            cases hva : f.vatAmount with
            | some v => simp [assignedOf, htin, hbt, hinv, hisd, hta, hva]
            | none =>
              cases hcu : f.currency with
              | some v => simp [assignedOf, htin, hbt, hinv, hisd, hta, hva, hcu]
              | none =>
                exact absurd (by simp [fieldPairs, htin, hbt, hinv, hisd, hta, hva, hcu]) h

theorem c8_json_canonical (f : EbmLogicalFields) (hs : SafeFields f)
    (hne : fieldPairs f ≠ []) :
    canonicalFields (parseEbmQrPayload (renderQrJson f)) = expectedCanonical f := by
  have hps := fieldPairs_safe f hs
  have hnws : ∀ c ∈ (renderQrJson f).toList, isJsWhitespace c = false := by
    rw [renderQrJson_toList]
    intro c hc
    rcases List.mem_cons.mp hc with rfl | hc
    · decide
    · rcases jsonChunk_chars (fieldPairs f) hps [] c hc with h | h | h | h | h | h
      · exact absurd h (List.not_mem_nil c)
      · exact safe_not_ws c h
      · subst h; decide
      · subst h; decide
      · subst h; decide
      · subst h; decide
  have htrim : jsTrim (renderQrJson f) = renderQrJson f := jsTrim_fixed _ hnws
  have hnempty : ¬ (renderQrJson f = "") := by
    intro h0
    have h1 : (renderQrJson f).toList = [] := by rw [h0]; rfl
    rw [renderQrJson_toList] at h1
    exact absurd h1 (by simp)
  have hslash : jsIncludes (renderQrJson f) "://" = false := by
    apply includes_false_of_missing _ _ '/'
    · decide
    · rw [renderQrJson_toList]
      intro hmem
      rcases List.mem_cons.mp hmem with h | h
      · exact absurd h (by decide)
      · rcases jsonChunk_chars (fieldPairs f) hps [] _ h with h' | h' | h' | h' | h' | h'
        · exact absurd h' (List.not_mem_nil _)
        · exact absurd h' (by decide)
        · exact absurd h' (by decide)
        · exact absurd h' (by decide)
        · exact absurd h' (by decide)
        · exact absurd h' (by decide)
  have hkeys : (c8Payload (renderQrJson f) f).assignedKeys.isEmpty = false :=
    assignedOf_isEmpty_false f hne
  unfold parseEbmQrPayload
  rw [htrim]
  rw [if_neg hnempty]
  dsimp only
  rw [jsonParseFlatObject_render f hps]
  dsimp only
  rw [assignFieldFromObject_jstr (fieldPairs f) _ _, foldPairs_master f hs (renderQrJson f)]
  dsimp only
  rw [hslash]
  simp only [Bool.false_eq_true, if_false]
  rw [hkeys]
  simp only [Bool.false_eq_true, if_false]
  rw [if_neg (fun hh => hh rfl)]
  rfl

/-! The delimiter-separated rendering through `parseStructuredString`. -/

theorem append_cons_ne_nil (a : List Char) (c : Char) (b : List Char) :
    a ++ c :: b ≠ [] := by
  cases a <;> simp

theorem safe_not_jsonws (c : Char) (h : safeValueChar c = true) : isJsonWs c = false := by
  unfold isJsonWs
  rw [safe_ne c h ' ' (by decide), safe_ne c h '\t' (by decide),
    safe_ne c h '\n' (by decide), safe_ne c h '\r' (by decide)]
  rfl

theorem safe_not_delim (c : Char) (h : safeValueChar c = true) : isQrDelim c = false := by
  unfold isQrDelim
  rw [safe_ne c h '\n' (by decide), safe_ne c h ';' (by decide),
    safe_ne c h ',' (by decide), safe_ne c h '|' (by decide)]
  rfl

theorem jsonParseFlatObject_none_of (s : String)
    (h : ∀ c ∈ s.toList, isJsonWs c = false ∧ (c == '{') = false) (hne : s.toList ≠ []) :
    jsonParseFlatObject s = none := by
  unfold jsonParseFlatObject
  cases hsl : s.toList with
  | nil => exact absurd hsl hne
  | cons c t =>
    have hc := h c (by rw [hsl]; exact List.mem_cons_self c t)
    rw [List.dropWhile_cons, hc.1]
    simp [hc.2]

theorem delimChunk_ne_nil (ps : List (String × String)) (hne : ps ≠ []) :
    delimChunk ps ≠ [] := by
  cases ps with
  | nil => exact absurd rfl hne
  | cons kv tl =>
    cases tl with
    | nil => rw [delimChunk_single]; exact append_cons_ne_nil _ _ _
    | cons y t => rw [delimChunk_cons2]; exact append_cons_ne_nil _ _ _

theorem splitOnPred_delimChunk (ps : List (String × String)) (h : pairsSafe ps)
    (hne : ps ≠ []) :
    splitOnPred isQrDelim (delimChunk ps) =
      ps.map (fun kv => kv.1.toList ++ ':' :: kv.2.toList) := by
  induction ps with
  | nil => exact absurd rfl hne
  | cons kv tl ih =>
    have hkv := h kv (List.mem_cons_self kv tl)
    have hseg : ∀ c ∈ kv.1.toList ++ ':' :: kv.2.toList, isQrDelim c = false := by
      intro c hc
      rcases List.mem_append.mp hc with hc | hc
      · exact safe_not_delim c (hkv.1 c hc)
      · rcases List.mem_cons.mp hc with rfl | hc
        · decide
        · exact safe_not_delim c (hkv.2 c hc)
    have htl : pairsSafe tl := fun x hx => h x (List.mem_cons_of_mem _ hx)
    cases tl with
    | nil =>
      rw [delimChunk_single, List.append_nil]
      rw [splitOnPred_nosep isQrDelim _ hseg]
      rfl
    | cons y t =>
      rw [delimChunk_cons2]
      rw [show kv.1.toList ++ ':' :: (kv.2.toList ++ ';' :: delimChunk (y :: t)) =
        (kv.1.toList ++ ':' :: kv.2.toList) ++ ';' :: delimChunk (y :: t) from by
          simp [List.append_assoc]]
      rw [splitOnPred_append_sep isQrDelim ';' _ _ hseg (by decide)]
      rw [ih htl (by simp)]
      rfl

theorem splitOnDelims_chunk (ps : List (String × String)) (h : pairsSafe ps)
    (hne : ps ≠ []) :
    splitOnDelims (delimChunk ps) =
      ps.map (fun kv => kv.1.toList ++ ':' :: kv.2.toList) := by
  unfold splitOnDelims
  exact splitOnPred_delimChunk ps h hne

theorem tokenKeyValue_seg (k v : String) (hk : ∀ c ∈ k.toList, (c == ':') = false) :
    tokenKeyValue (k.toList ++ ':' :: v.toList) = some (k, v) := by
  unfold tokenKeyValue
  rw [findIdxQ_append _ k.toList ':' v.toList hk (by decide)]
  have htake : (k.toList ++ ':' :: v.toList).take k.toList.length = k.toList :=
    List.take_left k.toList (':' :: v.toList)
  have hdrop : (k.toList ++ ':' :: v.toList).drop (k.toList.length + 1) = v.toList := by
    rw [show k.toList ++ ':' :: v.toList = (k.toList ++ [':']) ++ v.toList from by simp]
    exact List.drop_left' (by simp)
  dsimp only
  rw [htake, hdrop, String.asString_toList, String.asString_toList]

theorem structFoldAux (ps : List (String × String))
    (h : ∀ kv ∈ ps, ∀ c ∈ (kv.1 : String).toList, (c == ':') = false) :
    ∀ (p : EbmQrPayload) (add : List (String × String)) (n : Nat),
    (ps.map (fun kv => (kv.1.toList ++ ':' :: kv.2.toList).asString)).foldl
      (fun (acc : EbmQrPayload × List (String × String) × Nat) tok =>
        let (p, additional, orphanIndex) := acc
        match tokenKeyValue tok.toList with
        | some (k, v) =>
          let (p', additional') := assignKeyValue k (some (.vstr v)) p additional
          (p', additional', orphanIndex)
        | none =>
          (p, upsertRecord additional ("token_" ++ Nat.repr orphanIndex) tok, orphanIndex + 1))
      (p, add, n) =
      ((assignPairsFold ps (p, add)).1, (assignPairsFold ps (p, add)).2, n) := by
  induction ps with
  | nil => intro p add n; rfl
  | cons kv tl ih =>
    intro p add n
    have hk := h kv (List.mem_cons_self kv tl)
    have htl : ∀ x ∈ tl, ∀ c ∈ (x.1 : String).toList, (c == ':') = false :=
      fun x hx => h x (List.mem_cons_of_mem _ hx)
    simp only [List.map, List.foldl_cons]
    rw [show ((kv.1.toList ++ ':' :: kv.2.toList).asString).toList =
      kv.1.toList ++ ':' :: kv.2.toList from rfl]
    rw [tokenKeyValue_seg kv.1 kv.2 hk]
    dsimp only
    rw [ih htl (assignKeyValue kv.1 (some (JsValue.vstr kv.2)) p add).1
      (assignKeyValue kv.1 (some (JsValue.vstr kv.2)) p add).2 n]
    rfl

theorem parseStructured_render (ps : List (String × String)) (hps : pairsSafe ps)
    (hne : ps ≠ []) (s : String) (hsl : s.toList = delimChunk ps)
    (p : EbmQrPayload) (add : List (String × String)) :
    parseStructuredString s p add = assignPairsFold ps (p, add) := by
  unfold parseStructuredString
  rw [hsl]
  rw [show splitOnDelims (delimChunk ps) =
    ps.map (fun kv => kv.1.toList ++ ':' :: kv.2.toList) from splitOnDelims_chunk ps hps hne]
  rw [List.map_map]
  rw [List.map_congr_left (g := fun kv =>
      ((kv.1 : String).toList ++ ':' :: (kv.2 : String).toList).asString)
    (fun kv hkv => by
      show (jsTrimList (kv.1.toList ++ ':' :: kv.2.toList)).asString = _
      rw [jsTrimList_fixed _ (by
        intro c hc
        rcases List.mem_append.mp hc with hc | hc
        · exact safe_not_ws c ((hps kv hkv).1 c hc)
        · rcases List.mem_cons.mp hc with rfl | hc
          · decide
          · exact safe_not_ws c ((hps kv hkv).2 c hc))])]
  rw [List.filter_eq_self.mpr (by
    intro a ha
    rcases List.mem_map.mp ha with ⟨kv, hkv, rfl⟩
    have : (kv.1.toList ++ ':' :: kv.2.toList).asString ≠ "" := by
      intro h0
      have : ((kv.1.toList ++ ':' :: kv.2.toList).asString).toList = [] := by rw [h0]; rfl
      rw [show ((kv.1.toList ++ ':' :: kv.2.toList).asString).toList =
        kv.1.toList ++ ':' :: kv.2.toList from rfl] at this
      exact append_cons_ne_nil _ _ _ this
    simpa using this)]
  dsimp only
  rw [structFoldAux ps (fun kv hkv c hc => safe_ne c ((hps kv hkv).1 c hc) ':' (by decide))
    p add 0]

theorem c8_delim_canonical (f : EbmLogicalFields) (hs : SafeFields f)
    (hne : fieldPairs f ≠ []) :
    canonicalFields (parseEbmQrPayload (renderQrDelimited f)) = expectedCanonical f := by
  have hps := fieldPairs_safe f hs
  have hclass : ∀ c ∈ (renderQrDelimited f).toList,
      safeValueChar c = true ∨ c = ':' ∨ c = ';' := by
    rw [renderQrDelimited_toList]
    exact delimChunk_chars (fieldPairs f) hps
  have hnws : ∀ c ∈ (renderQrDelimited f).toList, isJsWhitespace c = false := by
    intro c hc
    rcases hclass c hc with h | h | h
    · exact safe_not_ws c h
    · subst h; decide
    · subst h; decide
  have htrim : jsTrim (renderQrDelimited f) = renderQrDelimited f := jsTrim_fixed _ hnws
  have hlne : (renderQrDelimited f).toList ≠ [] := by
    rw [renderQrDelimited_toList]
    exact delimChunk_ne_nil _ hne
  have hnempty : ¬ (renderQrDelimited f = "") := by
    intro h0
    apply hlne
    rw [h0]
    rfl
  have hjson : jsonParseFlatObject (renderQrDelimited f) = none := by
    apply jsonParseFlatObject_none_of _ _ hlne
    intro c hc
    rcases hclass c hc with h | h | h
    · exact ⟨safe_not_jsonws c h, safe_ne c h '{' (by decide)⟩
    · subst h; exact ⟨by decide, by decide⟩
    · subst h; exact ⟨by decide, by decide⟩
  have hslash : jsIncludes (renderQrDelimited f) "://" = false := by
    apply includes_false_of_missing _ _ '/'
    · decide
    · intro hmem
      rcases hclass _ hmem with h | h | h
      · exact absurd h (by decide)
      · exact absurd h (by decide)
      · exact absurd h (by decide)
  unfold parseEbmQrPayload
  rw [htrim]
  rw [if_neg hnempty]
  dsimp only
  rw [hjson]
  dsimp only
  rw [hslash]
  simp only [Bool.false_eq_true, if_false]
  rw [show (({ raw := renderQrDelimited f, additional := some [] } :
    EbmQrPayload)).assignedKeys.isEmpty = true from rfl]
  simp only [if_true]
  rw [parseStructured_render (fieldPairs f) hps hne (renderQrDelimited f)
    (renderQrDelimited_toList f) _ _]
  rw [foldPairs_master f hs (renderQrDelimited f)]
  dsimp only
  rw [if_neg (fun hh => hh rfl)]
  rfl

/-! `URLSearchParams` on a safe parameter chunk. -/

theorem paramChunk_ne_nil (ps : List (String × String)) (hne : ps ≠ []) :
    paramChunk ps ≠ [] := by
  cases ps with
  | nil => exact absurd rfl hne
  | cons kv tl =>
    cases tl with
    | nil => rw [paramChunk_single]; exact append_cons_ne_nil _ _ _
    | cons y t => rw [paramChunk_cons2]; exact append_cons_ne_nil _ _ _

theorem segParse_eq (k v : String) (hk : safeChars k) (hv : safeChars v) :
    (match (k.toList ++ '=' :: v.toList).findIdx? (fun c => c == '=') with
      | some i =>
        ((percentDecode ((k.toList ++ '=' :: v.toList).take i)).asString,
         (percentDecode ((k.toList ++ '=' :: v.toList).drop (i + 1))).asString)
      | none => ((percentDecode (k.toList ++ '=' :: v.toList)).asString, "")) = (k, v) := by
  rw [findIdxQ_append _ k.toList '=' v.toList
    (fun c hc => safe_ne c (hk c hc) '=' (by decide)) (by decide)]
  dsimp only
  rw [List.take_left k.toList ('=' :: v.toList)]
  rw [show (k.toList ++ '=' :: v.toList).drop (k.toList.length + 1) = v.toList from by
    rw [show k.toList ++ '=' :: v.toList = (k.toList ++ ['=']) ++ v.toList from by simp]
    exact List.drop_left' (by simp)]
  rw [percentDecode_id k.toList hk, percentDecode_id v.toList hv]
  rw [String.asString_toList, String.asString_toList]

theorem coreParams_chunk (ps : List (String × String)) (h : pairsSafe ps) :
    coreParams (paramChunk ps) = ps := by
  induction ps with
  | nil => rfl
  | cons kv tl ih =>
    have hkv := h kv (List.mem_cons_self kv tl)
    have htl : pairsSafe tl := fun x hx => h x (List.mem_cons_of_mem _ hx)
    have hseg : ∀ c ∈ kv.1.toList ++ '=' :: kv.2.toList, (c == '&') = false := by
      intro c hc
      rcases List.mem_append.mp hc with hc | hc
      · exact safe_ne c (hkv.1 c hc) '&' (by decide)
      · rcases List.mem_cons.mp hc with rfl | hc
        · decide
        · exact safe_ne c (hkv.2 c hc) '&' (by decide)
    have hsegne : ¬ ((kv.1.toList ++ '=' :: kv.2.toList).isEmpty = true) := by
      cases hsl : kv.1.toList ++ '=' :: kv.2.toList with
      | nil => exact absurd hsl (append_cons_ne_nil _ _ _)
      | cons c t => simp
    cases tl with
    | nil =>
      unfold coreParams
      rw [paramChunk_single, List.append_nil]
      rw [show splitOnChar '&' (kv.1.toList ++ '=' :: kv.2.toList) =
        splitOnPred (fun c => c == '&') (kv.1.toList ++ '=' :: kv.2.toList) from rfl]
      rw [splitOnPred_nosep _ _ hseg]
      rw [show List.filter (fun seg => !seg.isEmpty) [kv.1.toList ++ '=' :: kv.2.toList] =
        [kv.1.toList ++ '=' :: kv.2.toList] from by
          simp only [List.filter]
          rw [show (!(kv.1.toList ++ '=' :: kv.2.toList).isEmpty) = true from by
            simp [hsegne]]]
      simp only [List.map]
      rw [segParse_eq kv.1 kv.2 hkv.1 hkv.2]
    | cons y t =>
      unfold coreParams
      rw [paramChunk_cons2]
      rw [show kv.1.toList ++ '=' :: (kv.2.toList ++ '&' :: paramChunk (y :: t)) =
        (kv.1.toList ++ '=' :: kv.2.toList) ++ '&' :: paramChunk (y :: t) from by
          simp [List.append_assoc]]
      rw [show splitOnChar '&'
          ((kv.1.toList ++ '=' :: kv.2.toList) ++ '&' :: paramChunk (y :: t)) =
        splitOnPred (fun c => c == '&')
          ((kv.1.toList ++ '=' :: kv.2.toList) ++ '&' :: paramChunk (y :: t)) from rfl]
      rw [splitOnPred_append_sep _ '&' _ _ hseg (by decide)]
      rw [show List.filter (fun seg => !seg.isEmpty)
          ((kv.1.toList ++ '=' :: kv.2.toList) ::
            splitOnPred (fun c => c == '&') (paramChunk (y :: t))) =
        (kv.1.toList ++ '=' :: kv.2.toList) ::
          List.filter (fun seg => !seg.isEmpty)
            (splitOnPred (fun c => c == '&') (paramChunk (y :: t))) from by
          simp only [List.filter]
          rw [show (!(kv.1.toList ++ '=' :: kv.2.toList).isEmpty) = true from by
            simp [hsegne]]]
      simp only [List.map]
      rw [segParse_eq kv.1 kv.2 hkv.1 hkv.2]
      unfold coreParams at ih
      rw [show splitOnChar '&' (paramChunk (y :: t)) =
        splitOnPred (fun c => c == '&') (paramChunk (y :: t)) from rfl] at ih
      rw [ih htl]

theorem parseSearchParams_qmark (ps : List (String × String)) (h : pairsSafe ps) :
    parseSearchParams (('?' :: paramChunk ps).asString) = ps := by
  unfold parseSearchParams
  rw [show (('?' :: paramChunk ps).asString).toList = '?' :: paramChunk ps from rfl]
  rw [show stripLeadQ ('?' :: paramChunk ps) = paramChunk ps from by
    unfold stripLeadQ
    simp]
  exact coreParams_chunk ps h

theorem parseSearchParams_plain (ps : List (String × String)) (h : pairsSafe ps) :
    parseSearchParams ((paramChunk ps).asString) = ps := by
  unfold parseSearchParams
  rw [show ((paramChunk ps).asString).toList = paramChunk ps from rfl]
  rw [show stripLeadQ (paramChunk ps) = paramChunk ps from by
    cases hpc : paramChunk ps with
    | nil => rfl
    | cons c t =>
      have hc : c ∈ paramChunk ps := by rw [hpc]; exact List.mem_cons_self c t
      have := paramChunk_chars ps h c hc
      show (if (c == '?') = true then t else c :: t) = c :: t
      rcases this with h' | h' | h'
      · rw [safe_ne c h' '?' (by decide)]
        simp
      · subst h'
        simp
      · subst h'
        simp]
  exact coreParams_chunk ps h

/-! `new URL` on the query and fragment renderings. -/

theorem startsWith_false_of_head (c p : Char) (t q : List Char) (h : (c == p) = false) :
    startsWithList (c :: t) (p :: q) = false := by
  show (c == p && startsWithList t q) = false
  rw [h]
  exact Bool.false_and _

theorem startsWith_ssc (t : List Char) :
    startsWithList (':' :: '/' :: '/' :: t) [':', '/', '/'] = true := by
  show ((':' == ':') && (('/' == '/') && (('/' == '/') && startsWithList t []))) = true
  rw [show startsWithList t [] = true from by cases t <;> rfl]
  rfl

theorem indexOfList_step (c : Char) (tl n : List Char)
    (h : startsWithList (c :: tl) n = false) :
    indexOfList (c :: tl) n = (indexOfList tl n).map (· + 1) := by
  unfold indexOfList
  rw [h]
  simp only [Bool.false_eq_true, if_false]
  conv_lhs => unfold indexOfList

theorem indexOfList_here (l n : List Char) (h : startsWithList l n = true) :
    indexOfList l n = some 0 := by
  unfold indexOfList
  rw [h]
  simp

theorem containsList_step (c : Char) (t n : List Char)
    (h : startsWithList (c :: t) n = false) :
    containsList (c :: t) n = containsList t n := by
  unfold containsList
  rw [h]
  simp only [Bool.false_eq_true, if_false]
  conv_lhs => unfold containsList

theorem containsList_found (l n : List Char) (h : startsWithList l n = true) :
    containsList l n = true := by
  unfold containsList
  rw [h]
  simp

theorem indexOf_https (t : List Char) :
    indexOfList ('h' :: 't' :: 't' :: 'p' :: 's' :: ':' :: '/' :: '/' :: t)
      "://".toList = some 5 := by
  rw [show "://".toList = [':', '/', '/'] from rfl]
  rw [indexOfList_step 'h' _ _ (startsWith_false_of_head _ _ _ _ (by decide))]
  rw [indexOfList_step 't' _ _ (startsWith_false_of_head _ _ _ _ (by decide))]
  rw [indexOfList_step 't' _ _ (startsWith_false_of_head _ _ _ _ (by decide))]
  rw [indexOfList_step 'p' _ _ (startsWith_false_of_head _ _ _ _ (by decide))]
  rw [indexOfList_step 's' _ _ (startsWith_false_of_head _ _ _ _ (by decide))]
  rw [indexOfList_here _ _ (startsWith_ssc t)]
  rfl

theorem includes_https (s : String) (t : List Char)
    (hsl : s.toList = 'h' :: 't' :: 't' :: 'p' :: 's' :: ':' :: '/' :: '/' :: t) :
    jsIncludes s "://" = true := by
  unfold jsIncludes
  rw [hsl, show "://".toList = [':', '/', '/'] from rfl]
  rw [containsList_step 'h' _ _ (startsWith_false_of_head _ _ _ _ (by decide))]
  rw [containsList_step 't' _ _ (startsWith_false_of_head _ _ _ _ (by decide))]
  rw [containsList_step 't' _ _ (startsWith_false_of_head _ _ _ _ (by decide))]
  rw [containsList_step 'p' _ _ (startsWith_false_of_head _ _ _ _ (by decide))]
  rw [containsList_step 's' _ _ (startsWith_false_of_head _ _ _ _ (by decide))]
  exact containsList_found _ _ (startsWith_ssc t)

theorem asString_cons_ne_empty (c : Char) (t : List Char) : (c :: t).asString ≠ "" := by
  intro h0
  have h1 : (c :: t) = ([] : List Char) := congrArg String.data h0
  exact List.noConfusion h1

theorem jsParseUrl_query (t : List Char) (hne : t ≠ [])
    (ht : ∀ c ∈ t, (c == '#') = false) :
    jsParseUrl (("https://example.com/receipt?".toList ++ t).asString) =
      some ⟨('?' :: t).asString, ""⟩ := by
  unfold jsParseUrl
  rw [show ((("https://example.com/receipt?".toList ++ t)).asString).toList =
    "https://example.com/receipt?".toList ++ t from rfl]
  rw [show "https://example.com/receipt?".toList ++ t =
    'h' :: 't' :: 't' :: 'p' :: 's' :: ':' :: '/' :: '/' ::
      ("example.com/receipt?".toList ++ t) from rfl]
  dsimp only
  rw [indexOf_https]
  dsimp only
  rw [show ('h' :: 't' :: 't' :: 'p' :: 's' :: ':' :: '/' :: '/' ::
      ("example.com/receipt?".toList ++ t)).take 5 = ['h', 't', 't', 'p', 's'] from rfl]
  rw [show (['h', 't', 't', 'p', 's'] : List Char).isEmpty = false from rfl]
  simp only [Bool.false_eq_true, if_false]
  rw [show (!((['h', 't', 't', 'p', 's'] : List Char).headD ' ').isAlpha) = false from rfl]
  simp only [Bool.false_eq_true, if_false]
  rw [show (!(['h', 't', 't', 'p', 's'] : List Char).all
    (fun c => c.isAlphanum || c == '+' || c == '-' || c == '.')) = false from rfl]
  simp only [Bool.false_eq_true, if_false]
  rw [show ('h' :: 't' :: 't' :: 'p' :: 's' :: ':' :: '/' :: '/' ::
      ("example.com/receipt?".toList ++ t)).drop (5 + 3) =
    "example.com/receipt?".toList ++ t from rfl]
  rw [findIdxQ_none (fun c => c == '#') ("example.com/receipt?".toList ++ t) (by
    intro c hc
    rcases List.mem_append.mp hc with hc | hc
    · exact (by decide : ∀ x ∈ "example.com/receipt?".toList, (x == '#') = false) c hc
    · exact ht c hc)]
  dsimp only
  rw [show "example.com/receipt?".toList ++ t =
    "example.com/receipt".toList ++ '?' :: t from rfl]
  rw [findIdxQ_append (fun c => c == '?') "example.com/receipt".toList '?' t
    (by decide) (by decide)]
  dsimp only
  rw [List.drop_left "example.com/receipt".toList ('?' :: t)]
  rw [if_neg (by
    intro hh
    have : t = [] := by
      have := congrArg List.tail hh
      simpa using this
    exact hne this)]

theorem jsParseUrl_frag (t : List Char) (hne : t ≠ [])
    (ht : ∀ c ∈ t, (c == '#') = false) :
    jsParseUrl (("https://example.com/receipt#".toList ++ t).asString) =
      some ⟨"", ('#' :: t).asString⟩ := by
  unfold jsParseUrl
  rw [show ((("https://example.com/receipt#".toList ++ t)).asString).toList =
    "https://example.com/receipt#".toList ++ t from rfl]
  rw [show "https://example.com/receipt#".toList ++ t =
    'h' :: 't' :: 't' :: 'p' :: 's' :: ':' :: '/' :: '/' ::
      ("example.com/receipt#".toList ++ t) from rfl]
  dsimp only
  rw [indexOf_https]
  dsimp only
  rw [show ('h' :: 't' :: 't' :: 'p' :: 's' :: ':' :: '/' :: '/' ::
      ("example.com/receipt#".toList ++ t)).take 5 = ['h', 't', 't', 'p', 's'] from rfl]
  rw [show (['h', 't', 't', 'p', 's'] : List Char).isEmpty = false from rfl]
  simp only [Bool.false_eq_true, if_false]
  rw [show (!((['h', 't', 't', 'p', 's'] : List Char).headD ' ').isAlpha) = false from rfl]
  simp only [Bool.false_eq_true, if_false]
  rw [show (!(['h', 't', 't', 'p', 's'] : List Char).all
    (fun c => c.isAlphanum || c == '+' || c == '-' || c == '.')) = false from rfl]
  simp only [Bool.false_eq_true, if_false]
  rw [show ('h' :: 't' :: 't' :: 'p' :: 's' :: ':' :: '/' :: '/' ::
      ("example.com/receipt#".toList ++ t)).drop (5 + 3) =
    "example.com/receipt#".toList ++ t from rfl]
  rw [show "example.com/receipt#".toList ++ t =
    "example.com/receipt".toList ++ '#' :: t from rfl]
  rw [findIdxQ_append (fun c => c == '#') "example.com/receipt".toList '#' t
    (by decide) (by decide)]
  dsimp only
  rw [List.take_left "example.com/receipt".toList ('#' :: t)]
  rw [List.drop_left "example.com/receipt".toList ('#' :: t)]
  rw [if_neg (by
    intro hh
    have ht0 : t = [] := by
      have := congrArg List.tail hh
      simpa using this
    exact hne ht0)]
  rw [findIdxQ_none (fun c => c == '?') "example.com/receipt".toList (by decide)]

theorem foldPairs_master_foldl (f : EbmLogicalFields) (h : SafeFields f) (raw : String) :
    List.foldl (fun acc kv => assignKeyValue kv.1 (some (JsValue.vstr kv.2)) acc.1 acc.2)
      ((⟨raw, none, none, none, none, none, none, none, some [], []⟩ : EbmQrPayload),
        ([] : List (String × String)))
      (fieldPairs f) = (c8Payload raw f, []) := foldPairs_master f h raw

theorem c8_urlq_canonical (f : EbmLogicalFields) (hs : SafeFields f)
    (hne : fieldPairs f ≠ []) :
    canonicalFields (parseEbmQrPayload (renderQrUrlQuery f)) = expectedCanonical f := by
  have hps := fieldPairs_safe f hs
  have hfpe : (fieldPairs f).isEmpty = false := by
    cases hfp : fieldPairs f with
    | nil => exact absurd hfp hne
    | cons a t => rfl
  have hrq : renderQrUrlQuery f =
      ("https://example.com/receipt?".toList ++ paramChunk (fieldPairs f)).asString := by
    unfold renderQrUrlQuery
    rw [hfpe]
    simp only [Bool.false_eq_true, if_false]
    rw [show ("https://example.com/receipt?" ++ renderParamPairs f) =
      (("https://example.com/receipt?" ++ renderParamPairs f).toList).asString from
      (String.asString_toList _).symm]
    rw [strToList_append, renderParamPairs_toList]
  have htne : paramChunk (fieldPairs f) ≠ [] := paramChunk_ne_nil _ hne
  have hthash : ∀ c ∈ paramChunk (fieldPairs f), (c == '#') = false := by
    intro c hc
    rcases paramChunk_chars _ hps c hc with h' | h' | h'
    · exact safe_ne c h' '#' (by decide)
    · subst h'; decide
    · subst h'; decide
  have hchars : ∀ c ∈ "https://example.com/receipt?".toList ++ paramChunk (fieldPairs f),
      isJsWhitespace c = false ∧ isJsonWs c = false ∧ (c == '{') = false := by
    intro c hc
    rcases List.mem_append.mp hc with hc | hc
    · exact (by decide : ∀ x ∈ "https://example.com/receipt?".toList,
        isJsWhitespace x = false ∧ isJsonWs x = false ∧ (x == '{') = false) c hc
    · rcases paramChunk_chars _ hps c hc with h' | h' | h'
      · exact ⟨safe_not_ws c h', safe_not_jsonws c h', safe_ne c h' '{' (by decide)⟩
      · subst h'; exact ⟨by decide, by decide, by decide⟩
      · subst h'; exact ⟨by decide, by decide, by decide⟩
  have htrim : jsTrim (("https://example.com/receipt?".toList ++
      paramChunk (fieldPairs f)).asString) =
      ("https://example.com/receipt?".toList ++ paramChunk (fieldPairs f)).asString :=
    jsTrim_fixed _ (fun c hc => (hchars c hc).1)
  have hnempty : ¬ (("https://example.com/receipt?".toList ++
      paramChunk (fieldPairs f)).asString = "") := by
    intro h0
    have h1 : ('h' :: ("ttps://example.com/receipt?".toList ++ paramChunk (fieldPairs f))) =
      ([] : List Char) := congrArg String.data h0
    exact List.noConfusion h1
  have hlne : (("https://example.com/receipt?".toList ++
      paramChunk (fieldPairs f)).asString).toList ≠ [] := by
    intro h1
    exact List.noConfusion (show ('h' :: ("ttps://example.com/receipt?".toList ++
      paramChunk (fieldPairs f))) = ([] : List Char) from h1)
  have hjson : jsonParseFlatObject (("https://example.com/receipt?".toList ++
      paramChunk (fieldPairs f)).asString) = none :=
    jsonParseFlatObject_none_of _ (fun c hc => ⟨(hchars c hc).2.1, (hchars c hc).2.2⟩) hlne
  have hinc : jsIncludes (("https://example.com/receipt?".toList ++
      paramChunk (fieldPairs f)).asString) "://" = true :=
    includes_https _ ("example.com/receipt?".toList ++ paramChunk (fieldPairs f)) rfl
  have hurl : jsParseUrl (("https://example.com/receipt?".toList ++
      paramChunk (fieldPairs f)).asString) =
      some ⟨('?' :: paramChunk (fieldPairs f)).asString, ""⟩ :=
    jsParseUrl_query (paramChunk (fieldPairs f)) htne hthash
  have hkeys : (c8Payload (("https://example.com/receipt?".toList ++
      paramChunk (fieldPairs f)).asString) f).assignedKeys.isEmpty = false :=
    assignedOf_isEmpty_false f hne
  rw [hrq]
  unfold parseEbmQrPayload
  rw [htrim]
  rw [if_neg hnempty]
  dsimp only
  rw [hjson]
  dsimp only
  rw [hinc]
  simp only [if_true]
  rw [hurl]
  dsimp only
  rw [if_pos (asString_cons_ne_empty '?' (paramChunk (fieldPairs f)))]
  rw [parseSearchParams_qmark (fieldPairs f) hps]
  rw [foldPairs_master_foldl f hs _]
  dsimp only
  rw [if_neg (show ¬(("" : String) ≠ "") from fun hh => hh rfl)]
  rw [hkeys]
  simp only [Bool.false_eq_true, if_false]
  rw [if_neg (show ¬(([] : List (String × String)) ≠ []) from fun hh => hh rfl)]
  rfl

theorem c8_urlf_canonical (f : EbmLogicalFields) (hs : SafeFields f)
    (hne : fieldPairs f ≠ []) :
    canonicalFields (parseEbmQrPayload (renderQrUrlFragment f)) = expectedCanonical f := by
  have hps := fieldPairs_safe f hs
  have hfpe : (fieldPairs f).isEmpty = false := by
    cases hfp : fieldPairs f with
    | nil => exact absurd hfp hne
    | cons a t => rfl
  have hrq : renderQrUrlFragment f =
      ("https://example.com/receipt#".toList ++ paramChunk (fieldPairs f)).asString := by
    unfold renderQrUrlFragment
    rw [hfpe]
    simp only [Bool.false_eq_true, if_false]
    rw [show ("https://example.com/receipt#" ++ renderParamPairs f) =
      (("https://example.com/receipt#" ++ renderParamPairs f).toList).asString from
      (String.asString_toList _).symm]
    rw [strToList_append, renderParamPairs_toList]
  have htne : paramChunk (fieldPairs f) ≠ [] := paramChunk_ne_nil _ hne
  have hthash : ∀ c ∈ paramChunk (fieldPairs f), (c == '#') = false := by
    intro c hc
    rcases paramChunk_chars _ hps c hc with h' | h' | h'
    · exact safe_ne c h' '#' (by decide)
    · subst h'; decide
    · subst h'; decide
  have hchars : ∀ c ∈ "https://example.com/receipt#".toList ++ paramChunk (fieldPairs f),
      isJsWhitespace c = false ∧ isJsonWs c = false ∧ (c == '{') = false := by
    intro c hc
    rcases List.mem_append.mp hc with hc | hc
    · exact (by decide : ∀ x ∈ "https://example.com/receipt#".toList,
        isJsWhitespace x = false ∧ isJsonWs x = false ∧ (x == '{') = false) c hc
    · rcases paramChunk_chars _ hps c hc with h' | h' | h'
      · exact ⟨safe_not_ws c h', safe_not_jsonws c h', safe_ne c h' '{' (by decide)⟩
      · subst h'; exact ⟨by decide, by decide, by decide⟩
      · subst h'; exact ⟨by decide, by decide, by decide⟩
  have htrim : jsTrim (("https://example.com/receipt#".toList ++
      paramChunk (fieldPairs f)).asString) =
      ("https://example.com/receipt#".toList ++ paramChunk (fieldPairs f)).asString :=
    jsTrim_fixed _ (fun c hc => (hchars c hc).1)
  have hnempty : ¬ (("https://example.com/receipt#".toList ++
      paramChunk (fieldPairs f)).asString = "") := by
    intro h0
    have h1 : ('h' :: ("ttps://example.com/receipt#".toList ++ paramChunk (fieldPairs f))) =
      ([] : List Char) := congrArg String.data h0
    exact List.noConfusion h1
  have hlne : (("https://example.com/receipt#".toList ++
      paramChunk (fieldPairs f)).asString).toList ≠ [] := by
    intro h1
    exact List.noConfusion (show ('h' :: ("ttps://example.com/receipt#".toList ++
      paramChunk (fieldPairs f))) = ([] : List Char) from h1)
  have hjson : jsonParseFlatObject (("https://example.com/receipt#".toList ++
      paramChunk (fieldPairs f)).asString) = none :=
    jsonParseFlatObject_none_of _ (fun c hc => ⟨(hchars c hc).2.1, (hchars c hc).2.2⟩) hlne
  have hinc : jsIncludes (("https://example.com/receipt#".toList ++
      paramChunk (fieldPairs f)).asString) "://" = true :=
    includes_https _ ("example.com/receipt#".toList ++ paramChunk (fieldPairs f)) rfl
  have hurl : jsParseUrl (("https://example.com/receipt#".toList ++
      paramChunk (fieldPairs f)).asString) =
      some ⟨"", ('#' :: paramChunk (fieldPairs f)).asString⟩ :=
    jsParseUrl_frag (paramChunk (fieldPairs f)) htne hthash
  have hkeys : (c8Payload (("https://example.com/receipt#".toList ++
      paramChunk (fieldPairs f)).asString) f).assignedKeys.isEmpty = false :=
    assignedOf_isEmpty_false f hne
  rw [hrq]
  unfold parseEbmQrPayload
  rw [htrim]
  rw [if_neg hnempty]
  dsimp only
  rw [hjson]
  dsimp only
  rw [hinc]
  simp only [if_true]
  rw [hurl]
  dsimp only
  rw [if_neg (show ¬(("" : String) ≠ "") from fun hh => hh rfl)]
  rw [if_pos (asString_cons_ne_empty '#' (paramChunk (fieldPairs f)))]
  rw [show (('#' :: paramChunk (fieldPairs f)).asString).toList =
    '#' :: paramChunk (fieldPairs f) from rfl]
  dsimp only
  rw [show (('#' : Char) == '#') = true from rfl]
  simp only [if_true]
  rw [parseSearchParams_plain (fieldPairs f) hps]
  rw [foldPairs_master_foldl f hs _]
  dsimp only
  rw [hkeys]
  simp only [Bool.false_eq_true, if_false]
  rw [if_neg (show ¬(([] : List (String × String)) ≠ []) from fun hh => hh rfl)]
  rfl

/-! Claim C8: assembly. -/

theorem fieldPairs_eq_nil (f : EbmLogicalFields) (h : fieldPairs f = []) :
    f = ⟨none, none, none, none, none, none, none⟩ := by
  obtain ⟨t, bt, inv, isd, ta, va, cu⟩ := f
  cases t <;> cases bt <;> cases inv <;> cases isd <;> cases ta <;> cases va <;> cases cu <;>
    first
      | rfl
      | (exfalso; simp [fieldPairs] at h)

theorem c8f0_safe : SafeFields c8f0 := by
  refine ⟨?_, ?_, ?_, ?_, ?_, ?_, ?_⟩
  · intro s hs
    rw [Option.mem_def] at hs
    have h0 : some "123456789" = some s := hs
    injection h0 with h0
    subst h0
    refine ⟨?_, by decide, by decide⟩
    show ∀ c ∈ ("123456789" : String).toList, safeValueChar c = true
    decide
  · intro s hs
    rw [Option.mem_def] at hs
    exact absurd (show (none : Option String) = some s from hs) (by simp)
  · intro s hs
    rw [Option.mem_def] at hs
    have h0 : some "INV-007" = some s := hs
    injection h0 with h0
    subst h0
    refine ⟨?_, by decide, by decide⟩
    show ∀ c ∈ ("INV-007" : String).toList, safeValueChar c = true
    decide
  · intro s hs
    rw [Option.mem_def] at hs
    exact absurd (show (none : Option String) = some s from hs) (by simp)
  · intro s hs
    rw [Option.mem_def] at hs
    have h0 : some "5000" = some s := hs
    injection h0 with h0
    subst h0
    refine ⟨?_, by decide, ⟨5000, by decide⟩⟩
    show ∀ c ∈ ("5000" : String).toList, safeValueChar c = true
    decide
  · intro s hs
    rw [Option.mem_def] at hs
    exact absurd (show (none : Option String) = some s from hs) (by simp)
  · intro s hs
    rw [Option.mem_def] at hs
    exact absurd (show (none : Option String) = some s from hs) (by simp)

/-- C8 (amended): for every logical field set over the canonical fields whose
    values are safe — safe characters only, fixed points of their field's
    normalization, amounts parsing as numbers — all four QR encodings (JSON
    object, URL query parameters, URL fragment parameters, delimited
    `key:value` tokens) parse back to the same canonical fields; and the QR
    text `tin:123456789;invoice:INV-007;total:5000` parses to tin 123456789,
    invoice number INV-007 and total amount 5000. -/
theorem c8_round_trip (f : EbmLogicalFields) (h : SafeFields f) :
    (canonicalFields (parseEbmQrPayload (renderQrJson f)) = expectedCanonical f ∧
     canonicalFields (parseEbmQrPayload (renderQrUrlQuery f)) = expectedCanonical f ∧
     canonicalFields (parseEbmQrPayload (renderQrUrlFragment f)) = expectedCanonical f ∧
     canonicalFields (parseEbmQrPayload (renderQrDelimited f)) = expectedCanonical f) ∧
    ((parseEbmQrPayload "tin:123456789;invoice:INV-007;total:5000").tin = some "123456789" ∧
     (parseEbmQrPayload "tin:123456789;invoice:INV-007;total:5000").invoiceNumber =
       some "INV-007" ∧
     (parseEbmQrPayload "tin:123456789;invoice:INV-007;total:5000").totalAmount =
       some 5000) := by
  constructor
  · by_cases hne : fieldPairs f = []
    · have hf := fieldPairs_eq_nil f hne
      subst hf
      exact ⟨by rfl, by rfl, by rfl, by rfl⟩
    · exact ⟨c8_json_canonical f h hne, c8_urlq_canonical f h hne,
        c8_urlf_canonical f h hne, c8_delim_canonical f h hne⟩
  · exact ⟨by decide, by decide, by decide⟩

/-- C8 counterexample: a logical field set whose invoice number contains the
    token delimiter `;` decodes differently from the JSON and the delimited
    encodings — the delimited rendering truncates it at the delimiter — so the
    unrestricted round-trip equivalence of the claim fails. -/
theorem c8_counterexample :
    (parseEbmQrPayload (renderQrJson c8cexFields)).invoiceNumber = some "A;B" ∧
    (parseEbmQrPayload (renderQrDelimited c8cexFields)).invoiceNumber = some "A" ∧
    canonicalFields (parseEbmQrPayload (renderQrJson c8cexFields)) ≠
      canonicalFields (parseEbmQrPayload (renderQrDelimited c8cexFields)) := by
  refine ⟨by decide, by decide, ?_⟩
  intro hEq
  have h2 := congrArg (fun x => x.2.2.1) hEq
  revert h2
  decide

/-- Witness for C8 at a concrete safe field set. -/
theorem c8_round_trip_witness :
    SafeFields c8f0 ∧
    ((canonicalFields (parseEbmQrPayload (renderQrJson c8f0)) = expectedCanonical c8f0 ∧
      canonicalFields (parseEbmQrPayload (renderQrUrlQuery c8f0)) = expectedCanonical c8f0 ∧
      canonicalFields (parseEbmQrPayload (renderQrUrlFragment c8f0)) =
        expectedCanonical c8f0 ∧
      canonicalFields (parseEbmQrPayload (renderQrDelimited c8f0)) =
        expectedCanonical c8f0) ∧
     ((parseEbmQrPayload "tin:123456789;invoice:INV-007;total:5000").tin =
        some "123456789" ∧
      (parseEbmQrPayload "tin:123456789;invoice:INV-007;total:5000").invoiceNumber =
        some "INV-007" ∧
      (parseEbmQrPayload "tin:123456789;invoice:INV-007;total:5000").totalAmount =
        some 5000)) :=
  ⟨c8f0_safe, c8_round_trip c8f0 c8f0_safe⟩
